import Mathlib

/-! PCI utilities: classification tables, code resolvers, register layouts
and structured printer

A shallow embedding of `main.c` / `main.h` (pcie.c / pcie.h) of the
`pci_utils` repository.

* A C `unsigned` argument is a natural number; the resolvers only compare it
  for equality or order against constants, so no wrap-around is involved and
  every statement below holds for all naturals, in particular for all values
  below `2^32`.
* A `const char *` result is a `Lookup`: the `NULL` pointer, a pointer to a
  string of a table, or - where the C code indexes an array past its last
  element - an out-of-bounds read.
* A string table `const char *STR_X[]` is the list of its initialisers.
* The buffer `__u8 *cfgspace` is `none` for `NULL` and otherwise the list of
  its bytes; `struct pcie_cfg_hdr` is packed and read on a little-endian host.
  A read at or behind the end of the buffer ends the run and is reported.
* A packed structure of bit-fields is the list of its members with their
  widths; the first member declared occupies the lowest-order bits.
* The output of `pcie_prnt_cfgspace` is the list of the strings its `printf`
  calls write. The local `char space[32]` is modelled with flat memory: a
  store behind the array is recorded, and a later read sees the stored byte.
-/

namespace PciUtils

/-! ## Results of a resolver -/

/-- Result of a `const char *` resolver: `null` is the C `NULL` pointer,
`str s` a pointer to the table entry `s`, and `outOfBounds i` the read of
element `i` of a table that has no element `i` (undefined behaviour in C). -/
inductive Lookup where
  | null : Lookup
  | str (s : String) : Lookup
  | outOfBounds (index : Nat) : Lookup
  deriving DecidableEq, Repr

/-- The C expression `tbl[i]` on a string table. -/
def readTable (tbl : List String) (i : Nat) : Lookup :=
  match tbl[i]? with
  | some s => Lookup.str s
  | none => Lookup.outOfBounds i

/-! ## Enumerations of `main.h` -/

/-! ### `enum _PCAP`: PCI Capabilities Registers (8-bit IDs) -/

def PCAP_PM : Nat := 0x01
def PCAP_AGP : Nat := 0x02
def PCAP_VPD : Nat := 0x03
def PCAP_SLOTID : Nat := 0x04
def PCAP_MSI : Nat := 0x05
def PCAP_CHSWP : Nat := 0x06
def PCAP_PCIX : Nat := 0x07
def PCAP_HT : Nat := 0x08
def PCAP_VNDR : Nat := 0x09
def PCAP_DBG : Nat := 0x0a
def PCAP_CCRC : Nat := 0x0b
def PCAP_HOTPLUG : Nat := 0x0c
def PCAP_SSVID : Nat := 0x0d
def PCAP_AGP3 : Nat := 0x0e
def PCAP_SECURE : Nat := 0x0f
def PCAP_EXP : Nat := 0x10
def PCAP_MSIX : Nat := 0x11
def PCAP_SATA : Nat := 0x12
def PCAP_AF : Nat := 0x13
def PCAP_EA : Nat := 0x14
def PCAP_FPB : Nat := 0x15
/-- The enumerator after `PCAP_FPB`, without an initialiser: one more. -/
def PCAP_MAX : Nat := PCAP_FPB + 1

/-! ### `enum _PCEC`: PCI Extended Capabilities Registers (16-bit IDs) -/

def PCEC_AER : Nat := 0x0001
def PCEC_VC : Nat := 0x0002
def PCEC_DSN : Nat := 0x0003
def PCEC_PB : Nat := 0x0004
def PCEC_RCLINK : Nat := 0x0005
def PCEC_RCILINK : Nat := 0x0006
def PCEC_RCECOLL : Nat := 0x0007
def PCEC_MFVC : Nat := 0x0008
def PCEC_VC2 : Nat := 0x0009
def PCEC_RBCB : Nat := 0x000a
def PCEC_VNDR : Nat := 0x000b
def PCEC_ACS : Nat := 0x000d
def PCEC_ARI : Nat := 0x000e
def PCEC_ATS : Nat := 0x000f
def PCEC_SRIOV : Nat := 0x0010
def PCEC_MRIOV : Nat := 0x0011
def PCEC_MCAST : Nat := 0x0012
def PCEC_PRI : Nat := 0x0013
def PCEC_REBAR : Nat := 0x0015
def PCEC_DPA : Nat := 0x0016
def PCEC_TPH : Nat := 0x0017
def PCEC_LTR : Nat := 0x0018
def PCEC_SECPCI : Nat := 0x0019
def PCEC_PMUX : Nat := 0x001a
def PCEC_PASID : Nat := 0x001b
def PCEC_LNR : Nat := 0x001c
def PCEC_DPC : Nat := 0x001d
def PCEC_L1PM : Nat := 0x001e
def PCEC_PTM : Nat := 0x001f
def PCEC_M_PCIE : Nat := 0x0020
def PCEC_FRS : Nat := 0x0021
def PCEC_RTR : Nat := 0x0022
def PCEC_DVSEC : Nat := 0x0023
def PCEC_VF_REBAR : Nat := 0x0024
def PCEC_DLNK : Nat := 0x0025
def PCEC_16GT : Nat := 0x0026
def PCEC_LMR : Nat := 0x0027
def PCEC_HIER_ID : Nat := 0x0028
def PCEC_NPEM : Nat := 0x0029
def PCEC_PL : Nat := 0x002A
def PCEC_AP : Nat := 0x002B
def PCEC_SFI : Nat := 0x002C
def PCEC_SFUNC : Nat := 0x002D
def PCEC_DOE : Nat := 0x002E
def PCEC_DEV3 : Nat := 0x002F
def PCEC_IDE : Nat := 0x0030
def PCEC_64GT : Nat := 0x0031
def PCEC_FLITLOG : Nat := 0x0032
def PCEC_FLITPERF : Nat := 0x0033
def PCEC_FLITEI : Nat := 0x0034
/-- The enumerator after `PCEC_FLITEI`, without an initialiser: one more. -/
def PCEC_MAX : Nat := PCEC_FLITEI + 1

/-! ### enum _PCMS -/

def PCMS_SCSI : Nat := 0x00
def PCMS_IDE : Nat := 0x01
def PCMS_FLOPPY : Nat := 0x02
def PCMS_IPI : Nat := 0x03
def PCMS_RAID : Nat := 0x04
def PCMS_ATA : Nat := 0x05
def PCMS_SATA : Nat := 0x06
def PCMS_SAS : Nat := 0x07
def PCMS_NVM : Nat := 0x08
def PCMS_UFS : Nat := 0x09
def PCMS_OTHER : Nat := 0x80

/-- The enumerators of _PCMS in declaration order. -/
def enum_PCMS : List Nat :=
  [PCMS_SCSI, PCMS_IDE, PCMS_FLOPPY, PCMS_IPI, PCMS_RAID, PCMS_ATA, PCMS_SATA,
   PCMS_SAS, PCMS_NVM, PCMS_UFS, PCMS_OTHER]

/-! ### enum _PCNC -/

def PCNC_ETH : Nat := 0x00
def PCNC_TOKEN : Nat := 0x01
def PCNC_FDDI : Nat := 0x02
def PCNC_ATM : Nat := 0x03
def PCNC_ISDN : Nat := 0x04
def PCNC_WORLDFIP : Nat := 0x05
def PCNC_PICMG : Nat := 0x06
def PCNC_IB : Nat := 0x07
def PCNC_HFC : Nat := 0x08
def PCNC_OTHER : Nat := 0x80

/-- The enumerators of _PCNC in declaration order. -/
def enum_PCNC : List Nat :=
  [PCNC_ETH, PCNC_TOKEN, PCNC_FDDI, PCNC_ATM, PCNC_ISDN, PCNC_WORLDFIP, PCNC_PICMG,
   PCNC_IB, PCNC_HFC, PCNC_OTHER]

/-! ### enum _PCDC -/

def PCDC_VGA : Nat := 0x00
def PCDC_XGA : Nat := 0x01
def PCDC_3D : Nat := 0x02
def PCDC_OTHER : Nat := 0x80

/-- The enumerators of _PCDC in declaration order. -/
def enum_PCDC : List Nat :=
  [PCDC_VGA, PCDC_XGA, PCDC_3D, PCDC_OTHER]

/-! ### enum _PCUC -/

def PCUC_VIDEO : Nat := 0x00
def PCUC_AUDIO : Nat := 0x01
def PCUC_TELEPHONE : Nat := 0x02
def PCUC_HD_AUDIO : Nat := 0x03
def PCUC_OTHER : Nat := 0x80

/-- The enumerators of _PCUC in declaration order. -/
def enum_PCUC : List Nat :=
  [PCUC_VIDEO, PCUC_AUDIO, PCUC_TELEPHONE, PCUC_HD_AUDIO, PCUC_OTHER]

/-! ### enum _PCMC -/

def PCMC_RAM : Nat := 0x00
def PCMC_FLASH : Nat := 0x01
def PCMC_CXL_MEM : Nat := 0x02
def PCMC_OTHER : Nat := 0x80

/-- The enumerators of _PCMC in declaration order. -/
def enum_PCMC : List Nat :=
  [PCMC_RAM, PCMC_FLASH, PCMC_CXL_MEM, PCMC_OTHER]

/-! ### enum _PCBD -/

def PCBD_HOST : Nat := 0x00
def PCBD_ISA : Nat := 0x01
def PCBD_EISA : Nat := 0x02
def PCBD_MCA : Nat := 0x03
def PCBD_PPB : Nat := 0x04
def PCBD_PCMCIA : Nat := 0x05
def PCBD_NUBUS : Nat := 0x06
def PCBD_CARDBUS : Nat := 0x07
def PCBD_RACEWAY : Nat := 0x08
def PCBD_STPPB : Nat := 0x09
def PCBD_IB_PCI : Nat := 0x0A
def PCBD_AS_PCI : Nat := 0x0B
def PCBD_OTHER : Nat := 0x80

/-- The enumerators of _PCBD in declaration order. -/
def enum_PCBD : List Nat :=
  [PCBD_HOST, PCBD_ISA, PCBD_EISA, PCBD_MCA, PCBD_PPB, PCBD_PCMCIA, PCBD_NUBUS,
   PCBD_CARDBUS, PCBD_RACEWAY, PCBD_STPPB, PCBD_IB_PCI, PCBD_AS_PCI, PCBD_OTHER]

/-! ### enum _PCSC -/

def PCSC_GENERIC_XT : Nat := 0x00
def PCSC_PARALLEL : Nat := 0x01
def PCSC_MP_SERIAL : Nat := 0x02
def PCSC_MODEM : Nat := 0x03
def PCSC_GPIB : Nat := 0x04
def PCSC_SMRT_CARD : Nat := 0x05
def PCSC_OTHER : Nat := 0x80

/-- The enumerators of _PCSC in declaration order. -/
def enum_PCSC : List Nat :=
  [PCSC_GENERIC_XT, PCSC_PARALLEL, PCSC_MP_SERIAL, PCSC_MODEM, PCSC_GPIB,
   PCSC_SMRT_CARD, PCSC_OTHER]

/-! ### enum _PCSP -/

def PCSP_PCI : Nat := 0x00
def PCSP_DMA : Nat := 0x01
def PCSP_TIMER : Nat := 0x02
def PCSP_RTC : Nat := 0x03
def PCSP_HOT_PLUG : Nat := 0x04
def PCSP_SD : Nat := 0x05
def PCSP_IOMMU : Nat := 0x06
def PCSP_RCEC : Nat := 0x07
def PCSP_OTHER : Nat := 0x80

/-- The enumerators of _PCSP in declaration order. -/
def enum_PCSP : List Nat :=
  [PCSP_PCI, PCSP_DMA, PCSP_TIMER, PCSP_RTC, PCSP_HOT_PLUG, PCSP_SD, PCSP_IOMMU,
   PCSP_RCEC, PCSP_OTHER]

/-! ### enum _PCID -/

def PCID_KEYBOARD : Nat := 0x00
def PCID_PEN : Nat := 0x01
def PCID_MOUSE : Nat := 0x02
def PCID_SCANNER : Nat := 0x03
def PCID_GAME : Nat := 0x04
def PCID_OTHER : Nat := 0x80

/-- The enumerators of _PCID in declaration order. -/
def enum_PCID : List Nat :=
  [PCID_KEYBOARD, PCID_PEN, PCID_MOUSE, PCID_SCANNER, PCID_GAME, PCID_OTHER]

/-! ### enum _PCDS -/

def PCDS_GENERIC : Nat := 0x00
def PCDS_OTHER : Nat := 0x01

/-- The enumerators of _PCDS in declaration order. -/
def enum_PCDS : List Nat :=
  [PCDS_GENERIC, PCDS_OTHER]

/-! ### enum _PCPR -/

def PCPR_386 : Nat := 0x00
def PCPR_486 : Nat := 0x01
def PCPR_PENTIUM : Nat := 0x02
def PCPR_ALPHA : Nat := 0x10
def PCPR_POWERPC : Nat := 0x20
def PCPR_MIPS : Nat := 0x30
def PCPR_COPROCESSOR : Nat := 0x40
def PCPR_OTHER : Nat := 0x80

/-- The enumerators of _PCPR in declaration order. -/
def enum_PCPR : List Nat :=
  [PCPR_386, PCPR_486, PCPR_PENTIUM, PCPR_ALPHA, PCPR_POWERPC, PCPR_MIPS,
   PCPR_COPROCESSOR, PCPR_OTHER]

/-! ### enum _PCSB -/

def PCSB_FIREWIRE : Nat := 0x00
def PCSB_ACCESS : Nat := 0x01
def PCSB_SSA : Nat := 0x02
def PCSB_USB : Nat := 0x03
def PCSB_FC : Nat := 0x04
def PCSB_SMBUS : Nat := 0x05
def PCSB_IB : Nat := 0x06
def PCSB_IPMI : Nat := 0x07
def PCSB_SERCOS : Nat := 0x08
def PCSB_CANBUS : Nat := 0x09
def PCSB_I3C : Nat := 0x0A
def PCSB_OTHER : Nat := 0x80

/-- The enumerators of _PCSB in declaration order. -/
def enum_PCSB : List Nat :=
  [PCSB_FIREWIRE, PCSB_ACCESS, PCSB_SSA, PCSB_USB, PCSB_FC, PCSB_SMBUS, PCSB_IB,
   PCSB_IPMI, PCSB_SERCOS, PCSB_CANBUS, PCSB_I3C, PCSB_OTHER]

/-! ### enum _PCWC -/

def PCWC_IRDA : Nat := 0x00
def PCWC_IR : Nat := 0x01
def PCWC_RF : Nat := 0x10
def PCWC_BT : Nat := 0x11
def PCWC_BROADBAND : Nat := 0x12
def PCWC_ETH5G : Nat := 0x20
def PCWC_ETH2_4G : Nat := 0x21
def PCWC_CELL : Nat := 0x40
def PCWC_CELL_ETH : Nat := 0x41
def PCWC_OTHER : Nat := 0x80

/-- The enumerators of _PCWC in declaration order. -/
def enum_PCWC : List Nat :=
  [PCWC_IRDA, PCWC_IR, PCWC_RF, PCWC_BT, PCWC_BROADBAND, PCWC_ETH5G, PCWC_ETH2_4G,
   PCWC_CELL, PCWC_CELL_ETH, PCWC_OTHER]

/-! ### enum _PCIO -/

def PCIO_I2O : Nat := 0x00

/-- The enumerators of _PCIO in declaration order. -/
def enum_PCIO : List Nat :=
  [PCIO_I2O]

/-! ### enum _PCSA -/

def PCSA_TV : Nat := 0x01
def PCSA_AUDIO : Nat := 0x02
def PCSA_VOICE : Nat := 0x03
def PCSA_DATA : Nat := 0x04
def PCSA_OTHER : Nat := 0x80

/-- The enumerators of _PCSA in declaration order. -/
def enum_PCSA : List Nat :=
  [PCSA_TV, PCSA_AUDIO, PCSA_VOICE, PCSA_DATA, PCSA_OTHER]

/-! ### enum _PCEN -/

def PCEN_NET : Nat := 0x00
def PCEN_ENT : Nat := 0x10
def PCEN_OTHER : Nat := 0x80

/-- The enumerators of _PCEN in declaration order. -/
def enum_PCEN : List Nat :=
  [PCEN_NET, PCEN_ENT, PCEN_OTHER]

/-! ### enum _PCDA -/

def PCDA_DPIO : Nat := 0x00
def PCDA_PERF : Nat := 0x01
def PCDA_SYNC : Nat := 0x10
def PCDA_MGMT : Nat := 0x20
def PCDA_OTHER : Nat := 0x80

/-- The enumerators of _PCDA in declaration order. -/
def enum_PCDA : List Nat :=
  [ PCDA_DPIO, PCDA_PERF, PCDA_SYNC, PCDA_MGMT, PCDA_OTHER]

/-! ### enum _PCPA -/

def PCPA_ACCEL : Nat := 0x00
def PCPA_SDXI : Nat := 0x01

/-- The enumerators of _PCPA in declaration order. -/
def enum_PCPA : List Nat :=
  [PCPA_ACCEL, PCPA_SDXI]

/-! ### enum _PCNE -/

def PCNE_INST : Nat := 0x00

/-- The enumerators of _PCNE in declaration order. -/
def enum_PCNE : List Nat :=
  [PCNE_INST]

/-! ### enum _PCCX -/

def PCCX_VS : Nat := 0x00
def PCCX_CXL2_0 : Nat := 0x01

/-- The enumerators of _PCCX in declaration order. -/
def enum_PCCX : List Nat :=
  [PCCX_VS, PCCX_CXL2_0]

/-! ## String tables of `main.c` -/

/-- String representation of `_PCAP`; the trailing comment of each line is the
capability ID the source documents for the entry. -/
def STR_PCAP : List String := [
  "PCI Power Management Interface",          -- 0x01
  "Accelerated Graphics Port",               -- 0x02
  "Vital Product Data",                      -- 0x03
  "Slot Numbering (for Bridge)",             -- 0x04
  "Message Signaled Interrupts",             -- 0x05
  "CompactPCI Hot Swap",                     -- 0x06
  "PCI-X (Deprecated)",                      -- 0x07
  "HyperTransport (Deprecated)",             -- 0x08
  "Vendor Specific",                         -- 0x09
  "Debug port",                              -- 0x0a
  "CompactPCI central resource control",     -- 0x0b
  "PCI Hot-Plug (Deprecated)",               -- 0x0c
  "PCI Bridge Subsystem Vendor ID",          -- 0x0d
  "AGP 8x (Deprecated)",                     -- 0x0e
  "Secure Device (Deprecated)",              -- 0x0f
  "PCI Express",                             -- 0x10
  "MSI-X",                                   -- 0x11
  "Serial ATA Data/Index Configuration",     -- 0x12
  "Conventional PCI Advanced Features (AF)", -- 0x13
  "Enhanced Allocation",                     -- 0x14
  "Flattening Portal Bridge"                 -- 0x15
]

/-- String representation of `_PCEC`; the trailing comment of each line is the
extended capability ID the source documents for the entry. -/
def STR_PCEC : List String := [
  "Advanced Error Reporting",                            -- 0x0001
  "Virtual Channel (VC)",                                -- 0x0002
  "Device Serial Number",                                -- 0x0003
  "Power Budgeting",                                     -- 0x0004
  "Root Complex Link Declaration",                       -- 0x0005
  "Root Complex Internal Link Control",                  -- 0x0006
  "Root Complex Event Collector Endpoint Association",   -- 0x0007
  "Multi-Function Virtual Channel (MFVC)",               -- 0x0008
  "Virtual Channel (VC)",                                -- 0x0009
  "Root Complex Register Block (RCRB) Header",           -- 0x000a
  "Vendor-Specific Extended Capability (VSEC)",          -- 0x000b
  "Access Control Services (ACS)",                       -- 0x000d
  "Alternative Routing-ID Interpretation (ARI)",         -- 0x000e
  "Address Translation Services (ATS)",                  -- 0x000f
  "Single Root I/O Virtualization (SR-IOV)",             -- 0x0010
  "Multi-Root I/O Virtualization (MR-IOV) (Deprecated)", -- 0x0011
  "Multicast",                                           -- 0x0012
  "Page Request Interface (PRI)",                        -- 0x0013
  "Resizable BAR",                                       -- 0x0015
  "Dynamic Power Allocation (DPA)",                      -- 0x0016
  "TPH Requester",                                       -- 0x0017
  "Latency Tolerance Reporting (LTR)",                   -- 0x0018
  "Secondary PCI Express",                               -- 0x0019
  "Protocol Multiplexing (PMUX)",                        -- 0x001a
  "Process Address Space ID (PASID)",                    -- 0x001b
  "LN Requester (LNR)",                                  -- 0x001c
  "Downstream Port Containment (DPC)",                   -- 0x001d
  "L1 PM Substates",                                     -- 0x001e
  "Precision Time Measurement (PTM)",                    -- 0x001f
  "PCI Express over M-PHY (M-PCIe)",                     -- 0x0020
  "FRS Queueing",                                        -- 0x0021
  "Readiness Time Reporting",                            -- 0x0022
  "Designated Vendor-Specific Extended Capability",      -- 0x0023
  "VF Resizable BAR",                                    -- 0x0024
  "Data Link Feature",                                   -- 0x0025
  "Physical Layer 16.0 GT/s",                            -- 0x0026
  "Lane Margining at the Receiver",                      -- 0x0027
  "Hierarchy ID",                                        -- 0x0028
  "Native PCIe Enclosure Management (NPEM)",             -- 0x0029
  "Physical Layer 32.0 GT/s",                            -- 0x002A
  "Alternate Protocol",                                  -- 0x002B
  "System Firmware Intermediary (SFI)",                  -- 0x002C
  "Shadow Functions",                                    -- 0x002D
  "Data Object Exchange",                                -- 0x002E
  "Device 3",                                            -- 0x002F
  "Integrity and Data Encryption (IDE)",                 -- 0x0030
  "Physical Layer 64.0 GT/s Capability",                 -- 0x0031
  "Flit Logging",                                        -- 0x0032
  "Flit Performance Measurement",                        -- 0x0033
  "Flit Error Injection"                                 -- 0x0034
]

/-- String table STR_PCMC; the trailing comment of each line is the code the
source writes next to the entry. -/
def STR_PCMC : List String := [
  "Ram",          -- 0x00
  "Flash",        -- 0x01
  "CXL Memory",   -- 0x02
  "Other Memory"  -- 0x80
]

/-- String table STR_PCCX; the trailing comment of each line is the code the
source writes next to the entry. -/
def STR_PCCX : List String := [
  "Vendor Specific Interface)", -- 0x00
  "CXL 2.0 or later"            -- 0x01
]

/-- String table STR_PCMS; the trailing comment of each line is the code the
source writes next to the entry. -/
def STR_PCMS : List String := [
  "SCSI Device or Controller",                          -- 0x00
  "IDE Controller",                                     -- 0x01
  "Floppy Disk Controller - Vendor Specific Interface", -- 0x02
  "IPI Bus Controller - Vendor Specific Interface",     -- 0x03
  "RAID Controller - Vendor Specific Interface",        -- 0x04
  "ATA Controller",                                     -- 0x05
  "SATA Controller",                                    -- 0x06
  "SAS Controller",                                     -- 0x07
  "Non-Volatile Memory Subsystem",                      -- 0x08
  "Universal Flash Storage Controller",                 -- 0x09
  "Other Mass storage Controller"                       -- 0x80
]

/-- String table STR_PCNC; the trailing comment of each line is the code the
source writes next to the entry. -/
def STR_PCNC : List String := [
  "Ethernet Controller",                      -- 0x00
  "Token Ring Controller",                    -- 0x01
  "FDDI Controller",                          -- 0x02
  "ATM Controller",                           -- 0x03
  "ISDN Controller",                          -- 0x04
  "WorldFip Controller",                      -- 0x05
  "PICMG",                                    -- 0x06
  "InfiniBand Controller",                    -- 0x07
  "Host fabric Controller - Vendor Specific", -- 0x08
  "Other Network Controller"                  -- 0x80
]

/-- String table STR_PCDC; the trailing comment of each line is the code the
source writes next to the entry. -/
def STR_PCDC : List String := [
  "VGA Compatible Controller", -- 0x00
  "XGA Controller",            -- 0x01
  "3D Controller",             -- 0x02
  "Other Controller"           -- 0x80
]

/-- String table STR_PCUC; the trailing comment of each line is the code the
source writes next to the entry. -/
def STR_PCUC : List String := [
  "Video Device",              -- 0x00
  "Audio Device",              -- 0x01
  "Computer Telephone Device", -- 0x02
  "HD Audio Device",           -- 0x03
  "Other Multimedia device"    -- 0x80
]

/-- String table STR_PCBD; the trailing comment of each line is the code the
source writes next to the entry. -/
def STR_PCBD : List String := [
  "Host Bridge",                           -- 0x00
  "ISA Bridge",                            -- 0x01
  "EISA",                                  -- 0x02
  "MCA",                                   -- 0x03
  "PCI-to-PCI Bridge",                     -- 0x04
  "PCMCIA Bridge",                         -- 0x05
  "NuBus Bridge",                          -- 0x06
  "CardBus Bridge",                        -- 0x07
  "RaceWay Bridge",                        -- 0x08
  "Semi-Transparent Bridge",               -- 0x09
  "InfiniBand to PCI Host Bridge",         -- 0x0A
  "Advanced Switching to PCI Host Bridge", -- 0x0B
  "Other Bridge"                           -- 0x80
]

/-- String table STR_PCSC; the trailing comment of each line is the code the
source writes next to the entry. -/
def STR_PCSC : List String := [
  "Generic XT Compatible Serial Controller", -- 0x00
  "Parallel Port",                           -- 0x01
  "Multi Port Serial Controller",            -- 0x02
  "Generic Modem",                           -- 0x03
  "GPIB Controller",                         -- 0x04
  "SMART Card",                              -- 0x05
  "Other Communcations Device"               -- 0x80
]

/-- String table STR_PCSP; the trailing comment of each line is the code the
source writes next to the entry. -/
def STR_PCSP : List String := [
  "Programmable Interrupt Controller",        -- 0x00
  "DMA Controller",                           -- 0x01
  "System Timer",                             -- 0x02
  "Generic Real Time Clock (RTC) Controller", -- 0x03
  "Generic PCI Hot Plug Contoller",           -- 0x04
  "SD Host Controller",                       -- 0x05
  "IOMMU",                                    -- 0x06
  "Root Complex Event Collector",             -- 0x07
  "Other System Peripheral"                   -- 0x08
]

/-- String table STR_PCID; the trailing comment of each line is the code the
source writes next to the entry. -/
def STR_PCID : List String := [
  "Keyboard Controller", -- 0x00
  "Digitizer (pen)",     -- 0x01
  "Mouse Controller",    -- 0x02
  "Scanner Controller",  -- 0x03
  "Gameport Controller", -- 0x04
  "Other Controller"     -- 0x80
]

/-- String table STR_PCDS; the trailing comment of each line is the code the
source writes next to the entry. -/
def STR_PCDS : List String := [
  "Generic Docking Station",       -- 0x00
  "Other type of Docking Station"  -- 0x01
]

/-- String table STR_PCPR; the trailing comment of each line is the code the
source writes next to the entry. -/
def STR_PCPR : List String := [
  "386",             -- 0x00
  "486",             -- 0x01
  "Pentium",         -- 0x02
  "Alpha",           -- 0x10
  "PowerPC",         -- 0x20
  "MIPS",            -- 0x30
  "Co-Processor",    -- 0x40
  "Other Processor"  -- 0x80
]

/-- String table STR_PCSB; the trailing comment of each line is the code the
source writes next to the entry. -/
def STR_PCSB : List String := [
  "Firewire",                -- 0x00
  "ACCESS.bus",              -- 0x01
  "SSA",                     -- 0x02
  "USB",                     -- 0x03
  "Fibre Channel",           -- 0x04
  "SM Bus",                  -- 0x05
  "Infiniband (Depricated)", -- 0x06
  "IPMI",                    -- 0x07
  "SERCOS",                  -- 0x08
  "CANbus",                  -- 0x09
  "MIPI I3C Controller",     -- 0x0A
  "OTher Controller"         -- 0x80
]

/-- String table STR_PCWC; the trailing comment of each line is the code the
source writes next to the entry. -/
def STR_PCWC : List String := [
  "iRDA Compatible Controller",     -- 0x00
  "IR Controller",                  -- 0x01
  "RF Controller",                  -- 0x10
  "Bluetooth",                      -- 0x11
  "Broadband",                      -- 0x12
  "Ethernet 5 GHz",                 -- 0x20
  "Ethernet 2.4 GHz",               -- 0x21
  "Cellular Controller / Modem",    -- 0x40
  "Cellular Controller + Ethrenet", -- 0x41
  "Other Wireless Controller"       -- 0x80
]

/-- String table STR_PCIO; the trailing comment of each line is the code the
source writes next to the entry. -/
def STR_PCIO : List String := [
  "Intelligent IO"  -- 0x00
]

/-- String table STR_PCSA; the trailing comment of each line is the code the
source writes next to the entry. -/
def STR_PCSA : List String := [
  "TV",    -- 0x01
  "Audio", -- 0x02
  "Voice", -- 0x03
  "Data",  -- 0x04
  "Other"  -- 0x80
]

/-- String table STR_PCEN; the trailing comment of each line is the code the
source writes next to the entry. -/
def STR_PCEN : List String := [
  "Network and Computing Encryption Decryption controller", -- 0x00
  "Entertainment encryption and decryption controller",     -- 0x10
  "Other encryption and decryption controller"              -- 0x80
]

/-- String table STR_PCDA; the trailing comment of each line is the code the
source writes next to the entry. -/
def STR_PCDA : List String := [
  "DPIO Modules",                      -- 0x00
  "Performance Counters",              -- 0x01
  "Communications synchronization",    -- 0x10
  "Management Card",                   -- 0x20
  "Other data acquisition controller"  -- 0x80
]

/-- String table STR_PCPA; the trailing comment of each line is the code the
source writes next to the entry. -/
def STR_PCPA : List String := [
  "Processing Accelerator - Vendor Specific Interface", -- 0x00
  "SNIA Smart Data Acceleration Interface (SDXI)"       -- 0x00
]

/-- String table STR_PCNE; the trailing comment of each line is the code the
source writes next to the entry. -/
def STR_PCNE : List String := [
  "Non Essential Instrumentation - Vendor Specific Interface"  -- 0x00
]

/-! ## Dense resolvers -/

/-- Return a string representation of enumeration `_PCAP`. -/
def pcap (u : Nat) : Lookup :=
  if u ≥ PCAP_MAX then Lookup.null
  else readTable STR_PCAP u

/-- Return a string representation of enumeration `_PCEC`. -/
def pcec (u : Nat) : Lookup :=
  if u ≥ PCEC_MAX then Lookup.null
  else readTable STR_PCEC u

/-! ## Sparse resolvers -/

/-- Return a string representation of enumeration _PCCX. -/
def pccx (u : Nat) : Lookup :=
  if u = PCCX_VS then readTable STR_PCCX 0
  else if u = PCCX_CXL2_0 then readTable STR_PCCX 1
  else Lookup.null

/-- Return a string representation of enumeration _PCMC. -/
def pcmc (u : Nat) : Lookup :=
  if u = PCMC_RAM then readTable STR_PCMC 0
  else if u = PCMC_FLASH then readTable STR_PCMC 1
  else if u = PCMC_CXL_MEM then readTable STR_PCMC 2
  else if u = PCMC_OTHER then readTable STR_PCMC 3
  else Lookup.null

/-- Return a string representation of enumeration _PCMS. -/
def pcms (u : Nat) : Lookup :=
  if u = PCMS_SCSI then readTable STR_PCMS 0
  else if u = PCMS_IDE then readTable STR_PCMS 1
  else if u = PCMS_FLOPPY then readTable STR_PCMS 2
  else if u = PCMS_IPI then readTable STR_PCMS 3
  else if u = PCMS_RAID then readTable STR_PCMS 4
  else if u = PCMS_ATA then readTable STR_PCMS 5
  else if u = PCMS_SATA then readTable STR_PCMS 6
  else if u = PCMS_SAS then readTable STR_PCMS 7
  else if u = PCMS_NVM then readTable STR_PCMS 8
  else if u = PCMS_UFS then readTable STR_PCMS 9
  else if u = PCMS_OTHER then readTable STR_PCMS 10
  else Lookup.null

/-- Return a string representation of enumeration _PCNC. -/
def pcnc (u : Nat) : Lookup :=
  if u = PCNC_ETH then readTable STR_PCNC 0
  else if u = PCNC_TOKEN then readTable STR_PCNC 1
  else if u = PCNC_FDDI then readTable STR_PCNC 2
  else if u = PCNC_ATM then readTable STR_PCNC 3
  else if u = PCNC_ISDN then readTable STR_PCNC 4
  else if u = PCNC_WORLDFIP then readTable STR_PCNC 5
  else if u = PCNC_PICMG then readTable STR_PCNC 6
  else if u = PCNC_IB then readTable STR_PCNC 7
  else if u = PCNC_HFC then readTable STR_PCNC 8
  else if u = PCNC_OTHER then readTable STR_PCNC 9
  else Lookup.null

/-- Return a string representation of enumeration _PCDC. -/
def pcdc (u : Nat) : Lookup :=
  if u = PCDC_VGA then readTable STR_PCDC 0
  else if u = PCDC_XGA then readTable STR_PCDC 1
  else if u = PCDC_3D then readTable STR_PCDC 2
  else if u = PCDC_OTHER then readTable STR_PCDC 3
  else Lookup.null

/-- Return a string representation of enumeration _PCUC. -/
def pcuc (u : Nat) : Lookup :=
  if u = PCUC_VIDEO then readTable STR_PCUC 0
  else if u = PCUC_AUDIO then readTable STR_PCUC 1
  else if u = PCUC_TELEPHONE then readTable STR_PCUC 2
  else if u = PCUC_HD_AUDIO then readTable STR_PCUC 3
  else if u = PCUC_OTHER then readTable STR_PCUC 4
  else Lookup.null

/-- Return a string representation of enumeration _PCBD. -/
def pcbd (u : Nat) : Lookup :=
  if u = PCBD_HOST then readTable STR_PCBD 0
  else if u = PCBD_ISA then readTable STR_PCBD 1
  else if u = PCBD_EISA then readTable STR_PCBD 2
  else if u = PCBD_MCA then readTable STR_PCBD 3
  else if u = PCBD_PPB then readTable STR_PCBD 4
  else if u = PCBD_PCMCIA then readTable STR_PCBD 5
  else if u = PCBD_NUBUS then readTable STR_PCBD 6
  else if u = PCBD_CARDBUS then readTable STR_PCBD 7
  else if u = PCBD_RACEWAY then readTable STR_PCBD 8
  else if u = PCBD_STPPB then readTable STR_PCBD 9
  else if u = PCBD_IB_PCI then readTable STR_PCBD 10
  else if u = PCBD_AS_PCI then readTable STR_PCBD 11
  else if u = PCBD_OTHER then readTable STR_PCBD 12
  else Lookup.null

/-- Return a string representation of enumeration _PCSC. -/
def pcsc (u : Nat) : Lookup :=
  if u = PCSC_GENERIC_XT then readTable STR_PCBD 0
  else if u = PCSC_PARALLEL then readTable STR_PCBD 1
  else if u = PCSC_MP_SERIAL then readTable STR_PCBD 2
  else if u = PCSC_MODEM then readTable STR_PCBD 3
  else if u = PCSC_GPIB then readTable STR_PCBD 4
  else if u = PCSC_SMRT_CARD then readTable STR_PCBD 5
  else if u = PCSC_OTHER then readTable STR_PCBD 6
  else Lookup.null

/-- Return a string representation of enumeration _PCSP. -/
def pcsp (u : Nat) : Lookup :=
  if u = PCSP_PCI then readTable STR_PCSP 0
  else if u = PCSP_DMA then readTable STR_PCSP 1
  else if u = PCSP_TIMER then readTable STR_PCSP 2
  else if u = PCSP_RTC then readTable STR_PCSP 3
  else if u = PCSP_HOT_PLUG then readTable STR_PCSP 4
  else if u = PCSP_SD then readTable STR_PCSP 5
  else if u = PCSP_IOMMU then readTable STR_PCSP 6
  else if u = PCSP_RCEC then readTable STR_PCSP 7
  else if u = PCSP_OTHER then readTable STR_PCSP 8
  else Lookup.null

/-- Return a string representation of enumeration _PCID. -/
def pcid (u : Nat) : Lookup :=
  if u = PCID_KEYBOARD then readTable STR_PCID 0
  else if u = PCID_PEN then readTable STR_PCID 1
  else if u = PCID_MOUSE then readTable STR_PCID 2
  else if u = PCID_SCANNER then readTable STR_PCID 3
  else if u = PCID_GAME then readTable STR_PCID 4
  else if u = PCID_OTHER then readTable STR_PCID 5
  else Lookup.null

/-- Return a string representation of enumeration _PCDS. -/
def pcds (u : Nat) : Lookup :=
  if u = PCDS_GENERIC then readTable STR_PCDS 0
  else if u = PCDS_OTHER then readTable STR_PCDS 1
  else Lookup.null

/-- Return a string representation of enumeration _PCPR. -/
def pcpr (u : Nat) : Lookup :=
  if u = PCPR_386 then readTable STR_PCPR 0
  else if u = PCPR_486 then readTable STR_PCPR 1
  else if u = PCPR_PENTIUM then readTable STR_PCPR 2
  else if u = PCPR_ALPHA then readTable STR_PCPR 3
  else if u = PCPR_POWERPC then readTable STR_PCPR 4
  else if u = PCPR_MIPS then readTable STR_PCPR 5
  else if u = PCPR_COPROCESSOR then readTable STR_PCPR 6
  else if u = PCPR_OTHER then readTable STR_PCPR 7
  else Lookup.null

/-- Return a string representation of enumeration _PCSB. -/
def pcsb (u : Nat) : Lookup :=
  if u = PCSB_FIREWIRE then readTable STR_PCSB 0
  else if u = PCSB_ACCESS then readTable STR_PCSB 1
  else if u = PCSB_SSA then readTable STR_PCSB 2
  else if u = PCSB_USB then readTable STR_PCSB 3
  else if u = PCSB_FC then readTable STR_PCSB 4
  else if u = PCSB_SMBUS then readTable STR_PCSB 5
  else if u = PCSB_IB then readTable STR_PCSB 6
  else if u = PCSB_IPMI then readTable STR_PCSB 7
  else if u = PCSB_SERCOS then readTable STR_PCSB 8
  else if u = PCSB_CANBUS then readTable STR_PCSB 9
  else if u = PCSB_I3C then readTable STR_PCSB 10
  else if u = PCSB_OTHER then readTable STR_PCSB 11
  else Lookup.null

/-- Return a string representation of enumeration _PCWC. -/
def pcwc (u : Nat) : Lookup :=
  if u = PCWC_IRDA then readTable STR_PCWC 0
  else if u = PCWC_IR then readTable STR_PCWC 1
  else if u = PCWC_RF then readTable STR_PCWC 2
  else if u = PCWC_BT then readTable STR_PCWC 3
  else if u = PCWC_BROADBAND then readTable STR_PCWC 4
  else if u = PCWC_ETH5G then readTable STR_PCWC 5
  else if u = PCWC_ETH2_4G then readTable STR_PCWC 6
  else if u = PCWC_CELL then readTable STR_PCWC 7
  else if u = PCWC_CELL_ETH then readTable STR_PCWC 8
  else if u = PCWC_OTHER then readTable STR_PCWC 9
  else Lookup.null

/-- Return a string representation of enumeration _PCIO. -/
def pcio (u : Nat) : Lookup :=
  if u = PCIO_I2O then readTable STR_PCIO 0
  else Lookup.null

/-- Return a string representation of enumeration _PCSA. -/
def pcsa (u : Nat) : Lookup :=
  if u = PCSA_TV then readTable STR_PCSA 0
  else if u = PCSA_AUDIO then readTable STR_PCSA 1
  else if u = PCSA_VOICE then readTable STR_PCSA 2
  else if u = PCSA_DATA then readTable STR_PCSA 3
  else if u = PCSA_OTHER then readTable STR_PCSA 4
  else Lookup.null

/-- Return a string representation of enumeration _PCEN. -/
def pcen (u : Nat) : Lookup :=
  if u = PCEN_NET then readTable STR_PCEN 0
  else if u = PCEN_ENT then readTable STR_PCEN 1
  else if u = PCEN_OTHER then readTable STR_PCEN 2
  else Lookup.null

/-- Return a string representation of enumeration _PCDA. -/
def pcda (u : Nat) : Lookup :=
  if u = PCDA_DPIO then readTable STR_PCDA 0
  else if u = PCDA_PERF then readTable STR_PCDA 1
  else if u = PCDA_SYNC then readTable STR_PCDA 2
  else if u = PCDA_MGMT then readTable STR_PCDA 3
  else if u = PCDA_OTHER then readTable STR_PCDA 4
  else Lookup.null

/-- Return a string representation of enumeration _PCPA. -/
def pcpa (u : Nat) : Lookup :=
  if u = PCPA_ACCEL then readTable STR_PCPA 0
  else if u = PCPA_SDXI then readTable STR_PCPA 1
  else Lookup.null

/-- Return a string representation of enumeration _PCNE. -/
def pcne (u : Nat) : Lookup :=
  if u = PCNE_INST then readTable STR_PCNE 0
  else Lookup.null

/-! ## Macros of `main.h` and `main.c` -/

/-- Length of the PCIe configuration space. -/
def PCLN_CFG : Nat := 4096
/-- Length of the configuration space header. -/
def PCLN_HDR : Nat := 64
/-- Size of the indent buffer of `pcie_prnt_cfgspace`. -/
def MAX_INDENT : Nat := 32

/-! ## Configuration space header: `struct pcie_cfg_hdr`

The buffer `__u8 *cfgspace` is the list of its bytes (naturals below 256). The
structure is packed, so every member starts where the previous one ends; the
host is little-endian, as PCI configuration space is. A load of a byte at or
behind the end of the buffer is an out-of-bounds read: it yields no value and
is reported with its offset. -/

/-- One byte of the buffer, or the offset of the out-of-bounds read. -/
def loadByte (buf : List Nat) (off : Nat) : Except Nat Nat :=
  match buf[off]? with
  | some b => Except.ok b
  | none => Except.error off

/-- Little-endian load of `n` bytes starting at `off`, lowest address first. -/
def loadLE (buf : List Nat) (off : Nat) : Nat → Except Nat Nat
  | 0 => Except.ok 0
  | n + 1 =>
    match loadByte buf off with
    | Except.error e => Except.error e
    | Except.ok b =>
      match loadLE buf (off + 1) n with
      | Except.error e => Except.error e
      | Except.ok hi => Except.ok (b + 256 * hi)

/-- The `n` bytes of the little-endian object representation of `v`. -/
def bytesLE : Nat → Nat → List Nat
  | 0, _ => []
  | n + 1, v => v % 256 :: bytesLE n (v / 256)

/-- PCIe Config Space Header: the members of `struct pcie_cfg_hdr` in
declaration order. `rsvd` is the 24-bit bit-field, `rsvd2` the 32-bit member
after it. -/
structure pcie_cfg_hdr where
  vendor : Nat
  device : Nat
  command : Nat
  status : Nat
  rev : Nat
  pi : Nat
  subclass : Nat
  baseclass : Nat
  cls : Nat
  timer : Nat
  type : Nat
  bist : Nat
  bar0 : Nat
  bar1 : Nat
  bar2 : Nat
  bar3 : Nat
  bar4 : Nat
  bar5 : Nat
  cis : Nat
  subvendor : Nat
  subsystem : Nat
  rom : Nat
  cap : Nat
  rsvd : Nat
  rsvd2 : Nat
  intline : Nat
  intpin : Nat
  mingnt : Nat
  maxlat : Nat
  deriving DecidableEq, Repr

/-! ### Sizes and offsets of the members (bytes) -/

def SZ_U8 : Nat := 1
def SZ_U16 : Nat := 2
def SZ_U32 : Nat := 4
/-- The bit-field `__u32 rsvd : 24` of the packed structure: three bytes. -/
def SZ_RSVD : Nat := 3

def OFF_vendor : Nat := 0
def OFF_device : Nat := OFF_vendor + SZ_U16
def OFF_command : Nat := OFF_device + SZ_U16
def OFF_status : Nat := OFF_command + SZ_U16
def OFF_rev : Nat := OFF_status + SZ_U16
def OFF_pi : Nat := OFF_rev + SZ_U8
def OFF_subclass : Nat := OFF_pi + SZ_U8
def OFF_baseclass : Nat := OFF_subclass + SZ_U8
def OFF_cls : Nat := OFF_baseclass + SZ_U8
def OFF_timer : Nat := OFF_cls + SZ_U8
def OFF_type : Nat := OFF_timer + SZ_U8
def OFF_bist : Nat := OFF_type + SZ_U8
def OFF_bar0 : Nat := OFF_bist + SZ_U8
def OFF_bar1 : Nat := OFF_bar0 + SZ_U32
def OFF_bar2 : Nat := OFF_bar1 + SZ_U32
def OFF_bar3 : Nat := OFF_bar2 + SZ_U32
def OFF_bar4 : Nat := OFF_bar3 + SZ_U32
def OFF_bar5 : Nat := OFF_bar4 + SZ_U32
def OFF_cis : Nat := OFF_bar5 + SZ_U32
def OFF_subvendor : Nat := OFF_cis + SZ_U32
def OFF_subsystem : Nat := OFF_subvendor + SZ_U16
def OFF_rom : Nat := OFF_subsystem + SZ_U16
def OFF_cap : Nat := OFF_rom + SZ_U32
def OFF_rsvd : Nat := OFF_cap + SZ_U8
def OFF_rsvd2 : Nat := OFF_rsvd + SZ_RSVD
def OFF_intline : Nat := OFF_rsvd2 + SZ_U32
def OFF_intpin : Nat := OFF_intline + SZ_U8
def OFF_mingnt : Nat := OFF_intpin + SZ_U8
def OFF_maxlat : Nat := OFF_mingnt + SZ_U8
/-- The size of the structure: the end of its last member. -/
def SIZEOF_pcie_cfg_hdr : Nat := OFF_maxlat + SZ_U8

/-! ### Member reads `ph->member` through `ph = (struct pcie_cfg_hdr*) cfgspace` -/

def ph_vendor (buf : List Nat) : Except Nat Nat := loadLE buf OFF_vendor SZ_U16
def ph_device (buf : List Nat) : Except Nat Nat := loadLE buf OFF_device SZ_U16
def ph_command (buf : List Nat) : Except Nat Nat := loadLE buf OFF_command SZ_U16
def ph_status (buf : List Nat) : Except Nat Nat := loadLE buf OFF_status SZ_U16
def ph_rev (buf : List Nat) : Except Nat Nat := loadLE buf OFF_rev SZ_U8
def ph_pi (buf : List Nat) : Except Nat Nat := loadLE buf OFF_pi SZ_U8
def ph_subclass (buf : List Nat) : Except Nat Nat := loadLE buf OFF_subclass SZ_U8
def ph_baseclass (buf : List Nat) : Except Nat Nat := loadLE buf OFF_baseclass SZ_U8
def ph_cls (buf : List Nat) : Except Nat Nat := loadLE buf OFF_cls SZ_U8
def ph_timer (buf : List Nat) : Except Nat Nat := loadLE buf OFF_timer SZ_U8
def ph_type (buf : List Nat) : Except Nat Nat := loadLE buf OFF_type SZ_U8
def ph_bist (buf : List Nat) : Except Nat Nat := loadLE buf OFF_bist SZ_U8
def ph_bar0 (buf : List Nat) : Except Nat Nat := loadLE buf OFF_bar0 SZ_U32
def ph_bar1 (buf : List Nat) : Except Nat Nat := loadLE buf OFF_bar1 SZ_U32
def ph_bar2 (buf : List Nat) : Except Nat Nat := loadLE buf OFF_bar2 SZ_U32
def ph_bar3 (buf : List Nat) : Except Nat Nat := loadLE buf OFF_bar3 SZ_U32
def ph_bar4 (buf : List Nat) : Except Nat Nat := loadLE buf OFF_bar4 SZ_U32
def ph_bar5 (buf : List Nat) : Except Nat Nat := loadLE buf OFF_bar5 SZ_U32
def ph_cis (buf : List Nat) : Except Nat Nat := loadLE buf OFF_cis SZ_U32
def ph_subvendor (buf : List Nat) : Except Nat Nat := loadLE buf OFF_subvendor SZ_U16
def ph_subsystem (buf : List Nat) : Except Nat Nat := loadLE buf OFF_subsystem SZ_U16
def ph_rom (buf : List Nat) : Except Nat Nat := loadLE buf OFF_rom SZ_U32
def ph_cap (buf : List Nat) : Except Nat Nat := loadLE buf OFF_cap SZ_U8
def ph_rsvd (buf : List Nat) : Except Nat Nat := loadLE buf OFF_rsvd SZ_RSVD
def ph_rsvd2 (buf : List Nat) : Except Nat Nat := loadLE buf OFF_rsvd2 SZ_U32
def ph_intline (buf : List Nat) : Except Nat Nat := loadLE buf OFF_intline SZ_U8
def ph_intpin (buf : List Nat) : Except Nat Nat := loadLE buf OFF_intpin SZ_U8
def ph_mingnt (buf : List Nat) : Except Nat Nat := loadLE buf OFF_mingnt SZ_U8
def ph_maxlat (buf : List Nat) : Except Nat Nat := loadLE buf OFF_maxlat SZ_U8

/-- The whole header as the structure view reads it: every member, the two
reserved ones included, in declaration order. -/
def pcie_cfg_hdr_view (buf : List Nat) : Except Nat pcie_cfg_hdr := do
  let vendor ← ph_vendor buf
  let device ← ph_device buf
  let command ← ph_command buf
  let status ← ph_status buf
  let rev ← ph_rev buf
  let pi ← ph_pi buf
  let subclass ← ph_subclass buf
  let baseclass ← ph_baseclass buf
  let cls ← ph_cls buf
  let timer ← ph_timer buf
  let type ← ph_type buf
  let bist ← ph_bist buf
  let bar0 ← ph_bar0 buf
  let bar1 ← ph_bar1 buf
  let bar2 ← ph_bar2 buf
  let bar3 ← ph_bar3 buf
  let bar4 ← ph_bar4 buf
  let bar5 ← ph_bar5 buf
  let cis ← ph_cis buf
  let subvendor ← ph_subvendor buf
  let subsystem ← ph_subsystem buf
  let rom ← ph_rom buf
  let cap ← ph_cap buf
  let rsvd ← ph_rsvd buf
  let rsvd2 ← ph_rsvd2 buf
  let intline ← ph_intline buf
  let intpin ← ph_intpin buf
  let mingnt ← ph_mingnt buf
  let maxlat ← ph_maxlat buf
  pure { vendor, device, command, status, rev, pi, subclass, baseclass, cls, timer,
         type, bist, bar0, bar1, bar2, bar3, bar4, bar5, cis, subvendor, subsystem,
         rom, cap, rsvd, rsvd2, intline, intpin, mingnt, maxlat }

/-- The object representation of a header: the bytes of the members in
declaration order, each little-endian in its own width. -/
def pcie_cfg_hdr_bytes (h : pcie_cfg_hdr) : List Nat :=
  bytesLE SZ_U16 h.vendor ++ bytesLE SZ_U16 h.device ++
  bytesLE SZ_U16 h.command ++ bytesLE SZ_U16 h.status ++
  bytesLE SZ_U8 h.rev ++ bytesLE SZ_U8 h.pi ++
  bytesLE SZ_U8 h.subclass ++ bytesLE SZ_U8 h.baseclass ++
  bytesLE SZ_U8 h.cls ++ bytesLE SZ_U8 h.timer ++
  bytesLE SZ_U8 h.type ++ bytesLE SZ_U8 h.bist ++
  bytesLE SZ_U32 h.bar0 ++ bytesLE SZ_U32 h.bar1 ++ bytesLE SZ_U32 h.bar2 ++
  bytesLE SZ_U32 h.bar3 ++ bytesLE SZ_U32 h.bar4 ++ bytesLE SZ_U32 h.bar5 ++
  bytesLE SZ_U32 h.cis ++
  bytesLE SZ_U16 h.subvendor ++ bytesLE SZ_U16 h.subsystem ++
  bytesLE SZ_U32 h.rom ++ bytesLE SZ_U8 h.cap ++
  bytesLE SZ_RSVD h.rsvd ++ bytesLE SZ_U32 h.rsvd2 ++
  bytesLE SZ_U8 h.intline ++ bytesLE SZ_U8 h.intpin ++
  bytesLE SZ_U8 h.mingnt ++ bytesLE SZ_U8 h.maxlat

/-! ## `printf` conversions -/

/-- Digits of `n` in base `b`, least significant first, by repeated division;
`fuel` bounds the number of digits. -/
def digitsLSF (b : Nat) : Nat → Nat → List Nat
  | 0, _ => []
  | fuel + 1, n => if n < b then [n] else n % b :: digitsLSF b fuel (n / b)

/-- The numeral of `n` in base `b`, most significant digit first, with the
letters `a`..`f` for the digits 10..15. A number has at most `n + 1` digits. -/
def numeral (b n : Nat) : List Char :=
  (digitsLSF b (n + 1) n).reverse.map Nat.digitChar

/-- The conversion `%u`. -/
def conv_u (v : Nat) : String :=
  String.mk (numeral 10 v)

/-- The conversion `%0Wx`: the hexadecimal numeral, padded on the left with
zeros to at least `w` characters. -/
def conv_0x (w v : Nat) : String :=
  String.mk (List.replicate (w - (numeral 16 v).length) '0' ++ numeral 16 v)

/-- The conversion of one field line: `0x%0Wx` or `%u`. -/
inductive Conv where
  | x (width : Nat) : Conv
  | u : Conv
  deriving DecidableEq, Repr

/-- The text a conversion produces for a value. -/
def Conv.render : Conv → Nat → String
  | Conv.x w, v => "0x" ++ conv_0x w v
  | Conv.u, v => conv_u v

/-! ## The indent buffer `char space[MAX_INDENT]` -/

/-- A local `char` array together with what the program has stored behind its
end: `cells` are the elements of the array, `past` the stores to positions at
or after its length (position and value, latest first). A store to `past` is
an out-of-bounds write in C; it is kept here so that a later read of the same
position sees it, as on a machine with flat memory. `cstring` reads such a
position back; `cstring_inside` reads the elements of the array only, and
`past` being empty says that no store has left the array. -/
structure CharArray where
  cells : List Nat
  past : List (Nat × Nat)
  deriving DecidableEq, Repr

/-- The assignment `a[i] = v`. -/
def CharArray.store (a : CharArray) (i v : Nat) : CharArray :=
  if i < a.cells.length then { a with cells := a.cells.set i v }
  else { a with past := (i, v) :: a.past }

/-- The value of `a[i]`, when the array holds it or the program has stored it. -/
def CharArray.load (a : CharArray) (i : Nat) : Option Nat :=
  if i < a.cells.length then a.cells[i]? else a.past.lookup i

/-- The characters from position `i` up to the first zero byte; nothing when
the scan meets a position that holds no value. -/
def CharArray.scan (a : CharArray) : Nat → Nat → Option (List Char)
  | 0, _ => none
  | fuel + 1, i =>
    match a.load i with
    | none => none
    | some 0 => some []
    | some (c + 1) =>
      match a.scan fuel (i + 1) with
      | none => none
      | some cs => some (Char.ofNat (c + 1) :: cs)

/-- The string `%s` prints for the array. The scan visits positions 0, 1, 2, ...
and each holds a value only if it is a cell or a stored position, so it ends
within `cells.length + past.length + 1` steps. -/
def CharArray.cstring (a : CharArray) : Option String :=
  (a.scan (a.cells.length + a.past.length + 1) 0).map String.mk

/-! ## The structured printer `pcie_prnt_cfgspace` -/

/-- The initialiser of `char space[MAX_INDENT]`: 32 blanks, which fill the
array and leave no room for a terminating zero. -/
def space_init : CharArray :=
  { cells := List.replicate 32 0x20, past := [] }

/-- The statement `if (indent >= MAX_INDENT) indent = MAX_INDENT;`. -/
def clamp_indent (indent : Nat) : Nat :=
  if indent ≥ MAX_INDENT then MAX_INDENT else indent

/-- The buffer when the title line is printed: after `space[indent] = 0` with
the clamped `indent`. -/
def space_title (indent : Nat) : CharArray :=
  space_init.store (clamp_indent indent) 0

/-- The buffer when the field lines are printed: if `indent + 2 < MAX_INDENT`
(clamped `indent`), after `space[indent] = ' '; space[indent+2] = 0;`,
otherwise unchanged. -/
def space_fields (indent : Nat) : CharArray :=
  if clamp_indent indent + 2 < MAX_INDENT then
    ((space_title indent).store (clamp_indent indent) 0x20).store (clamp_indent indent + 2) 0
  else space_title indent

/-- One call `printf("%s<label><conversion>\n", space, ph->member)`: the
label and the conversion of its format string, and the member it reads. -/
structure FieldPrint where
  label : String
  conv : Conv
  member : List Nat → Except Nat Nat

/-- The 27 field calls of `pcie_prnt_cfgspace`, in source order. -/
def hdr_prints : List FieldPrint := [
  ⟨"Vendor ID             ", Conv.x 4, ph_vendor⟩,
  ⟨"Device ID             ", Conv.x 4, ph_device⟩,
  ⟨"Command               ", Conv.x 4, ph_command⟩,
  ⟨"Status                ", Conv.x 4, ph_status⟩,
  ⟨"Revision ID           ", Conv.x 2, ph_rev⟩,
  ⟨"Programming Interface ", Conv.x 2, ph_pi⟩,
  ⟨"Sub Class             ", Conv.x 2, ph_subclass⟩,
  ⟨"Base Class            ", Conv.x 2, ph_baseclass⟩,
  ⟨"Cache Line Size       ", Conv.x 2, ph_cls⟩,
  ⟨"Latency Timer         ", Conv.x 2, ph_timer⟩,
  ⟨"Header Type           ", Conv.x 2, ph_type⟩,
  ⟨"BIST                  ", Conv.x 2, ph_bist⟩,
  ⟨"BAR0                  ", Conv.x 8, ph_bar0⟩,
  ⟨"BAR1                  ", Conv.x 8, ph_bar1⟩,
  ⟨"BAR2                  ", Conv.x 8, ph_bar2⟩,
  ⟨"BAR3                  ", Conv.x 8, ph_bar3⟩,
  ⟨"BAR4                  ", Conv.x 8, ph_bar4⟩,
  ⟨"BAR5                  ", Conv.x 8, ph_bar5⟩,
  ⟨"Cardbus CIS Ptr       ", Conv.x 8, ph_cis⟩,
  ⟨"Subsystem Vendor ID   ", Conv.x 4, ph_subvendor⟩,
  ⟨"Subsystem Device ID   ", Conv.x 4, ph_subsystem⟩,
  ⟨"Expansion ROM Addr    ", Conv.x 8, ph_rom⟩,
  ⟨"Capabilities Ptr      ", Conv.x 2, ph_cap⟩,
  ⟨"Interrupt Line        ", Conv.u, ph_intline⟩,
  ⟨"Interrupt Pin         ", Conv.u, ph_intpin⟩,
  ⟨"Minimum Grant         ", Conv.u, ph_mingnt⟩,
  ⟨"Maximum Latency       ", Conv.u, ph_maxlat⟩
]

/-- The text one field call writes, or the offset of the out-of-bounds read
made while evaluating its argument. -/
def FieldPrint.printf (buf : List Nat) (space : String) (f : FieldPrint) :
    Except Nat String :=
  match f.member buf with
  | Except.error off => Except.error off
  | Except.ok v => Except.ok (space ++ f.label ++ f.conv.render v ++ "\n")

/-- What stops a run short of its end: a read of `cfgspace[off]` at or behind
the end of the buffer, or a `%s` that runs into a byte that holds no value. -/
inductive Fault where
  | cfgspace (off : Nat) : Fault
  | space : Fault
  deriving DecidableEq, Repr

/-- A run of the printer: the strings written to standard output by the
successive `printf` calls, and the fault that ended the run, if any. -/
structure Outcome where
  out : List String
  fault : Option Fault
  deriving DecidableEq, Repr

/-- The calls in order, up to the first one whose argument cannot be read. -/
def run_prints (buf : List Nat) (space : String) :
    List String → List FieldPrint → Outcome
  | acc, [] => { out := acc, fault := none }
  | acc, f :: rest =>
    match f.printf buf space with
    | Except.error off => { out := acc, fault := some (Fault.cfgspace off) }
    | Except.ok line => run_prints buf space (acc ++ [line]) rest

/-- Print the PCIe Config space. `cfgspace` is `none` for the `NULL` pointer. -/
def pcie_prnt_cfgspace (cfgspace : Option (List Nat)) (indent : Nat) : Outcome :=
  match cfgspace with
  | none => { out := [], fault := none }
  | some buf =>
    match (space_title indent).cstring with
    | none => { out := [], fault := some Fault.space }
    | some s1 =>
      match (space_fields indent).cstring with
      | none => { out := [s1 ++ "PCIe Config Space HDR:\n"], fault := some Fault.space }
      | some s2 => run_prints buf s2 [s1 ++ "PCIe Config Space HDR:\n"] hdr_prints

/-- The text on standard output. -/
def Outcome.text (o : Outcome) : String :=
  String.join o.out

/-- The string `%s` prints for the array when only the elements of the array
hold a value: a byte stored behind the end of the array is not read back, so
there is no string when the array holds no zero byte. -/
def CharArray.cstring_inside (a : CharArray) : Option String :=
  ({ cells := a.cells, past := [] } : CharArray).cstring

/-- The run of `pcie_prnt_cfgspace` when `%s` reads the elements of `space`
only: the same statements in the same order, with a `%s` that leaves the array
ending the run, as a read behind the end of a table or of the buffer does. -/
def pcie_prnt_cfgspace_strict (cfgspace : Option (List Nat)) (indent : Nat) : Outcome :=
  match cfgspace with
  | none => { out := [], fault := none }
  | some buf =>
    match (space_title indent).cstring_inside with
    | none => { out := [], fault := some Fault.space }
    | some s1 =>
      match (space_fields indent).cstring_inside with
      | none => { out := [s1 ++ "PCIe Config Space HDR:\n"], fault := some Fault.space }
      | some s2 => run_prints buf s2 [s1 ++ "PCIe Config Space HDR:\n"] hdr_prints

/-! ### `enum _PCBC`: PCI Class Codes -/

def PCBC_NULL : Nat := 0x01
def PCBC_MSC : Nat := 0x02
def PCBC_NET : Nat := 0x02
def PCBC_DISPLAY : Nat := 0x03
def PCBC_MULTIMEDIA : Nat := 0x04
def PCBC_MEM_CTRL : Nat := 0x05
def PCBC_BRIDGE : Nat := 0x06
def PCBC_SIMPLE_COMM : Nat := 0x07
def PCBC_BASE_PERF : Nat := 0x08
def PCBC_INPUT : Nat := 0x09
def PCBC_DOCKING : Nat := 0x0A
def PCBC_PROCESSORS : Nat := 0x0B
def PCBC_SERIAL_CTRL : Nat := 0x0C
def PCBC_WIRELESS : Nat := 0x0D
def PCBC_INTELLIGENT_IO : Nat := 0x0E
def PCBC_SATELLITE : Nat := 0x0F
def PCBC_ENCRYPT : Nat := 0x10
def PCBC_SIG_PROCESS : Nat := 0x11
def PCBC_PROC_ACCEL : Nat := 0x12
def PCBC_NON_ESSN : Nat := 0x13

/-- The enumerators of `_PCBC` in declaration order. -/
def enum_PCBC : List Nat :=
  [PCBC_NULL, PCBC_MSC, PCBC_NET, PCBC_DISPLAY, PCBC_MULTIMEDIA, PCBC_MEM_CTRL,
   PCBC_BRIDGE, PCBC_SIMPLE_COMM, PCBC_BASE_PERF, PCBC_INPUT, PCBC_DOCKING,
   PCBC_PROCESSORS, PCBC_SERIAL_CTRL, PCBC_WIRELESS, PCBC_INTELLIGENT_IO,
   PCBC_SATELLITE, PCBC_ENCRYPT, PCBC_SIG_PROCESS, PCBC_PROC_ACCEL, PCBC_NON_ESSN]

/-! ### The class code documented for each subclass table

The comment in front of each subclass enumeration (and of its string table)
names the base class the table belongs to: `Class Code 0x01` for `_PCMS`, and so
on. -/

def CLASS_CODE_PCMS : Nat := 0x01
def CLASS_CODE_PCNC : Nat := 0x02
def CLASS_CODE_PCDC : Nat := 0x03
def CLASS_CODE_PCUC : Nat := 0x04
def CLASS_CODE_PCMC : Nat := 0x05
def CLASS_CODE_PCBD : Nat := 0x06
def CLASS_CODE_PCSC : Nat := 0x07
def CLASS_CODE_PCSP : Nat := 0x08
def CLASS_CODE_PCID : Nat := 0x09
def CLASS_CODE_PCDS : Nat := 0x0A
def CLASS_CODE_PCPR : Nat := 0x0B
def CLASS_CODE_PCSB : Nat := 0x0C
def CLASS_CODE_PCWC : Nat := 0x0D
def CLASS_CODE_PCIO : Nat := 0x0E
def CLASS_CODE_PCSA : Nat := 0x0F
def CLASS_CODE_PCEN : Nat := 0x10
def CLASS_CODE_PCDA : Nat := 0x11
def CLASS_CODE_PCPA : Nat := 0x12
def CLASS_CODE_PCNE : Nat := 0x13

/-- The base classes of `_PCBC` that have a subclass table, each with the class
code the table's comment documents: Mass Storage Controller and the table of
Mass Storage Controllers (`Class Code 0x01`), Network controller and the table
of Network Controllers (`Class Code 0x02`), and so on in declaration order. -/
def base_class_doc : List (Nat × Nat) :=
  [(PCBC_MSC, CLASS_CODE_PCMS), (PCBC_NET, CLASS_CODE_PCNC),
   (PCBC_DISPLAY, CLASS_CODE_PCDC), (PCBC_MULTIMEDIA, CLASS_CODE_PCUC),
   (PCBC_MEM_CTRL, CLASS_CODE_PCMC), (PCBC_BRIDGE, CLASS_CODE_PCBD),
   (PCBC_SIMPLE_COMM, CLASS_CODE_PCSC), (PCBC_BASE_PERF, CLASS_CODE_PCSP),
   (PCBC_INPUT, CLASS_CODE_PCID), (PCBC_DOCKING, CLASS_CODE_PCDS),
   (PCBC_PROCESSORS, CLASS_CODE_PCPR), (PCBC_SERIAL_CTRL, CLASS_CODE_PCSB),
   (PCBC_WIRELESS, CLASS_CODE_PCWC), ( PCBC_INTELLIGENT_IO, CLASS_CODE_PCIO),
   (PCBC_SATELLITE, CLASS_CODE_PCSA), (PCBC_ENCRYPT, CLASS_CODE_PCEN),
   (PCBC_SIG_PROCESS, CLASS_CODE_PCDA), (PCBC_PROC_ACCEL, CLASS_CODE_PCPA),
   (PCBC_NON_ESSN, CLASS_CODE_PCNE)]

/-! ## Bit-field structures of `main.h`

A packed structure of bit-fields is the list of its members, each with its
width in bits, in declaration order. The members are allocated one after the
other from the lowest-order bit of the storage, which is read little-endian:
the first member declared occupies the lowest-order bits. -/

/-- The members of `struct pcie_cap` in declaration order, with their
widths in bits. -/
def pcie_cap : List (String × Nat) :=
  [("id", 8), ("next", 8)]

/-- The members of `struct pcie_cap_pm_pmc` in declaration order, with their
widths in bits. -/
def pcie_cap_pm_pmc : List (String × Nat) :=
  [("ver", 3), ("clock", 1), ("rsvd1", 1), ("dsi", 1), ("aux", 3), ("d1", 1), ("d2", 1),
   ("pme_sup", 5)]

/-- The members of `struct pcie_cap_pm_pmcsr` in declaration order, with their
widths in bits. -/
def pcie_cap_pm_pmcsr : List (String × Nat) :=
  [("state", 2), ("rsvd2", 1), ("no_soft_rst", 1), ("rsvd3", 4), ("pme_en", 1),
   ("data_sel", 4), ("data_scale", 2), ("pme_status", 1)]

/-- The members of `struct pcie_cap_pm_bse` in declaration order, with their
widths in bits. -/
def pcie_cap_pm_bse : List (String × Nat) :=
  [("rsvd4", 6), ("b2_b3", 1), ("bpcc_en", 1)]

/-- The members of `struct pcie_cap_msi_ctrl` in declaration order, with their
widths in bits. -/
def pcie_cap_msi_ctrl : List (String × Nat) :=
  [("enable", 1), ("request", 3), ("allocated", 3), ("bit64", 1), ("maskable", 1),
   ("rsvd", 7)]

/-- The members of `struct pcie_ecap` in declaration order, with their
widths in bits. -/
def pcie_ecap : List (String × Nat) :=
  [("id", 16), ("ver", 4), ("next", 12)]

/-- The members of `struct pcie_ecap_dsn` in declaration order, with their
widths in bits. -/
def pcie_ecap_dsn : List (String × Nat) :=
  [("lo", 32), ("hi", 32)]

/-- The members of `struct pcie_cfg_type` in declaration order, with their
widths in bits. -/
def pcie_cfg_type : List (String × Nat) :=
  [("type", 7), ("mf", 1)]

/-- The members of `struct pcie_cfg_cmd` in declaration order, with their
widths in bits. -/
def pcie_cfg_cmd : List (String × Nat) :=
  [("io", 1), ("mem", 1), ("busmaster", 1), ("speccycle", 1), ("memwine", 1),
   ("vgasnoop", 1), ("parerr", 1), ("stepping", 1), ("serr", 1), ("fastb2b", 1),
   ("disintx", 1), ("rsvd2", 1), ("rsvd3", 4)]

/-- The members of `struct pcie_cfg_status` in declaration order, with their
widths in bits. -/
def pcie_cfg_status : List (String × Nat) :=
  [("rsvd1", 3), ("intx", 1), ("cap", 1), ("mhz", 1), ("rsvd2", 1), ("fastb2b", 1),
   ("parerr", 1), ("devsel", 2), ("sig_tabort", 1), ("recv_tabort", 1),
   ("recv_mabort", 1), ("sig_sys_err", 1), ("parity_err", 1)]

/-- The width of a structure: the sum of the widths of its members. -/
def bitfields_width : List (String × Nat) → Nat
  | [] => 0
  | (_, w) :: rest => w + bitfields_width rest

/-- The values of the members in the storage word `x`, first member in the
lowest-order bits. -/
def bitfields_view : List (String × Nat) → Nat → List (String × Nat)
  | [], _ => []
  | (name, w) :: rest, x => (name, x % 2 ^ w) :: bitfields_view rest (x / 2 ^ w)

/-- The storage word that holds the given member values. -/
def bitfields_word : List (String × Nat) → List (String × Nat) → Nat
  | (_, w) :: rest, (_, v) :: vs => v + 2 ^ w * bitfields_word rest vs
  | _, _ => 0

/-- The bit ranges of the members: name, first bit and width, each member
starting where the previous one ends. -/
def bitfields_ranges : List (String × Nat) → Nat → List (String × Nat × Nat)
  | [], _ => []
  | (name, w) :: rest, first => (name, first, w) :: bitfields_ranges rest (first + w)

/-- The size of a structure in bytes. -/
def struct_size (layout : List (String × Nat)) : Nat :=
  bitfields_width layout / 8

/-- The structure at offset `off` of a buffer: its storage, loaded
little-endian, split into the member values. -/
def struct_view (layout : List (String × Nat)) (buf : List Nat) (off : Nat) :
    Except Nat (List (String × Nat)) :=
  match loadLE buf off (struct_size layout) with
  | Except.error e => Except.error e
  | Except.ok x => Except.ok (bitfields_view layout x)

/-- The comment of `next` in `struct pcie_cap` and `struct pcie_ecap`: "Offset
of next capability. 0=end of list". -/
def end_of_list (next : Nat) : Bool :=
  next == 0

/-! ### `struct pcie_cap_pm`: PCI Capability - Power Management -/

/-- The members of `struct pcie_cap_pm`: the three registers and the data
byte. -/
structure pcie_cap_pm where
  pmc : List (String × Nat)
  pmcsr : List (String × Nat)
  bse : List (String × Nat)
  data : Nat
  deriving DecidableEq, Repr

def OFF_pm_pmc : Nat := 0
def OFF_pm_pmcsr : Nat := OFF_pm_pmc + struct_size pcie_cap_pm_pmc
def OFF_pm_bse : Nat := OFF_pm_pmcsr + struct_size pcie_cap_pm_pmcsr
def OFF_pm_data : Nat := OFF_pm_bse + struct_size pcie_cap_pm_bse
/-- The size of the structure: the end of its last member. -/
def SIZEOF_pcie_cap_pm : Nat := OFF_pm_data + SZ_U8

/-- The power management capability body at offset `off` of a buffer. -/
def pcie_cap_pm_view (buf : List Nat) (off : Nat) : Except Nat pcie_cap_pm := do
  let pmc ← struct_view pcie_cap_pm_pmc buf (off + OFF_pm_pmc)
  let pmcsr ← struct_view pcie_cap_pm_pmcsr buf (off + OFF_pm_pmcsr)
  let bse ← struct_view pcie_cap_pm_bse buf (off + OFF_pm_bse)
  let data ← loadLE buf (off + OFF_pm_data) SZ_U8
  pure { pmc, pmcsr, bse, data }

/-! ### The members of `struct pcie_cfg_hdr` -/

/-- The members of `struct pcie_cfg_hdr` in declaration order: name, offset
and size in bytes. -/
def pcie_cfg_hdr_members : List (String × Nat × Nat) :=
  [("vendor", OFF_vendor, SZ_U16), ("device", OFF_device, SZ_U16),
   ("command", OFF_command, SZ_U16), ("status", OFF_status, SZ_U16),
   ("rev", OFF_rev, SZ_U8), ("pi", OFF_pi, SZ_U8), ("subclass", OFF_subclass, SZ_U8),
   ("baseclass", OFF_baseclass, SZ_U8), ("cls", OFF_cls, SZ_U8),
   ("timer", OFF_timer, SZ_U8), ("type", OFF_type, SZ_U8), ("bist", OFF_bist, SZ_U8),
   ("bar0", OFF_bar0, SZ_U32), ("bar1", OFF_bar1, SZ_U32), ("bar2", OFF_bar2, SZ_U32),
   ("bar3", OFF_bar3, SZ_U32), ("bar4", OFF_bar4, SZ_U32), ("bar5", OFF_bar5, SZ_U32),
   ("cis", OFF_cis, SZ_U32), ("subvendor", OFF_subvendor, SZ_U16),
   ("subsystem", OFF_subsystem, SZ_U16), ("rom", OFF_rom, SZ_U32),
   ("cap", OFF_cap, SZ_U8), ("rsvd", OFF_rsvd, SZ_RSVD), ("rsvd2", OFF_rsvd2, SZ_U32),
   ("intline", OFF_intline, SZ_U8), ("intpin", OFF_intpin, SZ_U8),
   ("mingnt", OFF_mingnt, SZ_U8), ("maxlat", OFF_maxlat, SZ_U8)]

/-- The members that are not reserved: those whose name does not start with
`rsvd`. -/
def named_hdr_members : List (String × Nat × Nat) :=
  pcie_cfg_hdr_members.filter (fun m => !(List.isPrefixOf "rsvd".data m.1.data))

/-! ## A sample header

The header of the end-to-end example: vendor `0x8086`, device `0x1234`,
command `0x0506`, status `0x0010` (capabilities list present), revision 1,
programming interface 0, subclass `0x02`, base class `0x05`. -/

/-- A 64-byte configuration space header. -/
def sample_cfgspace : List Nat :=
  [0x86, 0x80, 0x34, 0x12, 0x06, 0x05, 0x10, 0x00, 0x01, 0x00, 0x02, 0x05,
   0x10, 0x00, 0x00, 0x00,
   0x0c, 0x00, 0x00, 0xf0, 0x00, 0x00, 0x00, 0x00,
   0x00, 0x00, 0x00, 0x00, 0x00, 0x00, 0x00, 0x00,
   0x00, 0x00, 0x00, 0x00, 0x00, 0x00, 0x00, 0x00,
   0x00, 0x00, 0x00, 0x00, 0x86, 0x80, 0x01, 0x00,
   0x00, 0x00, 0x00, 0x00, 0x40, 0x11, 0x22, 0x33,
   0x44, 0x55, 0x66, 0x77, 0x0b, 0x01, 0x00, 0xff]

/-- The sample header with other reserved bytes `0x35`..`0x3B` and three more
bytes behind the header. -/
def sample_cfgspace_alt : List Nat :=
  sample_cfgspace.take 0x35 ++ [0xa1, 0xa2, 0xa3, 0xa4, 0xa5, 0xa6, 0xa7] ++
    (sample_cfgspace.drop 0x3C).take 4 ++ [0x01, 0x02, 0x03]

/-! ## Specification predicates -/

/-- A resolver `f` matches exactly the codes of `codes`: at every unsigned `u`
the result is a description precisely when `u` is one of the codes, and it is
`NULL` at every other `u` (so it is never an out-of-bounds read). -/
def ExactMatch (f : Nat → Lookup) (codes : List Nat) : Prop :=
  ∀ u : Nat, ((∃ s, f u = Lookup.str s) ↔ u ∈ codes) ∧ (u ∉ codes → f u = Lookup.null)

/-- A string of `k` blanks. -/
def blanks (k : Nat) : String :=
  String.mk (List.replicate k ' ')

/-- The number of blanks in front of the first other character of a line. -/
def leadingBlanks (line : String) : Nat :=
  (line.data.takeWhile (fun c => c == ' ')).length

/-- The indent of the field lines as the code computes it: two more than the
clamped indent when that stays below `MAX_INDENT`, the clamped indent itself
otherwise. -/
def field_indent (indent : Nat) : Nat :=
  if min indent 32 + 2 < 32 then min indent 32 + 2 else min indent 32

/-- The value of `n` bytes at `off`, lowest address first (a byte that is not
there counts as 0). -/
def leValue (buf : List Nat) (off : Nat) : Nat → Nat
  | 0 => 0
  | n + 1 => buf.getD off 0 + 256 * leValue buf (off + 1) n

/-- The value of the member a field call reads (0 when it cannot be read). -/
def FieldPrint.value (buf : List Nat) (f : FieldPrint) : Nat :=
  match f.member buf with
  | Except.ok v => v
  | Except.error _ => 0

/-! ## The report as the specification describes it -/

/-- A named member of the header: the name the report prints for it, its
width in bits, whether the report shows it in hexadecimal (otherwise plain
decimal), and the member itself. -/
structure NamedMember where
  name : String
  bits : Nat
  hex : Bool
  get : pcie_cfg_hdr → Nat

/-- The named members of `struct pcie_cfg_hdr` in layout order; the reserved
members `rsvd` and `rsvd2` are not among them. -/
def named_members : List NamedMember := [
  ⟨"Vendor ID", 16, true, fun h => h.vendor⟩,
  ⟨"Device ID", 16, true, fun h => h.device⟩,
  ⟨"Command", 16, true, fun h => h.command⟩,
  ⟨"Status", 16, true, fun h => h.status⟩,
  ⟨"Revision ID", 8, true, fun h => h.rev⟩,
  ⟨"Programming Interface", 8, true, fun h => h.pi⟩,
  ⟨"Sub Class", 8, true, fun h => h.subclass⟩,
  ⟨"Base Class", 8, true, fun h => h.baseclass⟩,
  ⟨"Cache Line Size", 8, true, fun h => h.cls⟩,
  ⟨"Latency Timer", 8, true, fun h => h.timer⟩,
  ⟨"Header Type", 8, true, fun h => h.type⟩,
  ⟨"BIST", 8, true, fun h => h.bist⟩,
  ⟨"BAR0", 32, true, fun h => h.bar0⟩,
  ⟨"BAR1", 32, true, fun h => h.bar1⟩,
  ⟨"BAR2", 32, true, fun h => h.bar2⟩,
  ⟨"BAR3", 32, true, fun h => h.bar3⟩,
  ⟨"BAR4", 32, true, fun h => h.bar4⟩,
  ⟨"BAR5", 32, true, fun h => h.bar5⟩,
  ⟨"Cardbus CIS Ptr", 32, true, fun h => h.cis⟩,
  ⟨"Subsystem Vendor ID", 16, true, fun h => h.subvendor⟩,
  ⟨"Subsystem Device ID", 16, true, fun h => h.subsystem⟩,
  ⟨"Expansion ROM Addr", 32, true, fun h => h.rom⟩,
  ⟨"Capabilities Ptr", 8, true, fun h => h.cap⟩,
  ⟨"Interrupt Line", 8, false, fun h => h.intline⟩,
  ⟨"Interrupt Pin", 8, false, fun h => h.intpin⟩,
  ⟨"Minimum Grant", 8, false, fun h => h.mingnt⟩,
  ⟨"Maximum Latency", 8, false, fun h => h.maxlat⟩
]

/-- A string padded with blanks on the right to at least `n` characters. -/
def padTo (n : Nat) (s : String) : String :=
  s ++ blanks (n - s.length)

/-- The value text of a member: hexadecimal members as `0x` and one digit per
four bits, the others as a plain decimal numeral. -/
def NamedMember.text (m : NamedMember) (h : pcie_cfg_hdr) : String :=
  if m.hex then "0x" ++ conv_0x (m.bits / 4) (m.get h) else conv_u (m.get h)

/-- A field line of the report: indent, the name padded to 22 characters, the
value text and a newline. -/
def report_line (sp : String) (h : pcie_cfg_hdr) (m : NamedMember) : String :=
  sp ++ padTo 22 m.name ++ m.text h ++ "\n"

/-- The value of a digit character: `0`..`9` are 0..9 and `a`..`f` are 10..15. -/
def digitValue (c : Char) : Nat :=
  if 48 ≤ c.toNat ∧ c.toNat ≤ 57 then c.toNat - 48
  else if 97 ≤ c.toNat ∧ c.toNat ≤ 102 then c.toNat - 87
  else 0

/-- A decimal digit `0`..`9`. -/
def isDecDigit (c : Char) : Bool :=
  decide (48 ≤ c.toNat ∧ c.toNat ≤ 57)

/-- A lower-case hexadecimal digit `0`..`9`, `a`..`f`. -/
def isHexDigit (c : Char) : Bool :=
  decide ((48 ≤ c.toNat ∧ c.toNat ≤ 57) ∨ (97 ≤ c.toNat ∧ c.toNat ≤ 102))

/-- The number a numeral denotes in base `b`, most significant digit first. -/
def numeralValue (b : Nat) (cs : List Char) : Nat :=
  cs.foldl (fun acc c => b * acc + digitValue c) 0

/-- The members of the header as the structure view reads them from a buffer
of at least 64 bytes. -/
def hdr_of (buf : List Nat) : pcie_cfg_hdr :=
  { vendor := leValue buf OFF_vendor SZ_U16
    device := leValue buf OFF_device SZ_U16
    command := leValue buf OFF_command SZ_U16
    status := leValue buf OFF_status SZ_U16
    rev := leValue buf OFF_rev SZ_U8
    pi := leValue buf OFF_pi SZ_U8
    subclass := leValue buf OFF_subclass SZ_U8
    baseclass := leValue buf OFF_baseclass SZ_U8
    cls := leValue buf OFF_cls SZ_U8
    timer := leValue buf OFF_timer SZ_U8
    type := leValue buf OFF_type SZ_U8
    bist := leValue buf OFF_bist SZ_U8
    bar0 := leValue buf OFF_bar0 SZ_U32
    bar1 := leValue buf OFF_bar1 SZ_U32
    bar2 := leValue buf OFF_bar2 SZ_U32
    bar3 := leValue buf OFF_bar3 SZ_U32
    bar4 := leValue buf OFF_bar4 SZ_U32
    bar5 := leValue buf OFF_bar5 SZ_U32
    cis := leValue buf OFF_cis SZ_U32
    subvendor := leValue buf OFF_subvendor SZ_U16
    subsystem := leValue buf OFF_subsystem SZ_U16
    rom := leValue buf OFF_rom SZ_U32
    cap := leValue buf OFF_cap SZ_U8
    rsvd := leValue buf OFF_rsvd SZ_RSVD
    rsvd2 := leValue buf OFF_rsvd2 SZ_U32
    intline := leValue buf OFF_intline SZ_U8
    intpin := leValue buf OFF_intpin SZ_U8
    mingnt := leValue buf OFF_mingnt SZ_U8
    maxlat := leValue buf OFF_maxlat SZ_U8 }

/-- A field call of the code renders a named member of the specification: it
reads that member (a load of `n` bytes inside the header, `8 * n` bits), prints
its name padded to 22 characters, and converts the value as the
specification says. -/
def Renders (f : FieldPrint) (m : NamedMember) : Prop :=
  ∃ off n, off + n ≤ 64 ∧ 0 < n ∧ m.bits = 8 * n ∧
    (f.member = fun buf => loadLE buf off n) ∧
    f.label = padTo 22 m.name ∧
    (∀ v, f.conv.render v = if m.hex then "0x" ++ conv_0x (m.bits / 4) v else conv_u v) ∧
    (∀ buf, m.get (hdr_of buf) = leValue buf off n)

/-- The text starts with a character that is not a blank. -/
def startsNonBlank (s : String) : Bool :=
  match s.data with
  | c :: _ => c != ' '
  | [] => false

/-- Every member of the header fits its declared width. -/
def pcie_cfg_hdr.InRange (h : pcie_cfg_hdr) : Prop :=
  h.vendor < 2 ^ 16 ∧
  h.device < 2 ^ 16 ∧
  h.command < 2 ^ 16 ∧
  h.status < 2 ^ 16 ∧
  h.rev < 2 ^ 8 ∧
  h.pi < 2 ^ 8 ∧
  h.subclass < 2 ^ 8 ∧
  h.baseclass < 2 ^ 8 ∧
  h.cls < 2 ^ 8 ∧
  h.timer < 2 ^ 8 ∧
  h.type < 2 ^ 8 ∧
  h.bist < 2 ^ 8 ∧
  h.bar0 < 2 ^ 32 ∧
  h.bar1 < 2 ^ 32 ∧
  h.bar2 < 2 ^ 32 ∧
  h.bar3 < 2 ^ 32 ∧
  h.bar4 < 2 ^ 32 ∧
  h.bar5 < 2 ^ 32 ∧
  h.cis < 2 ^ 32 ∧
  h.subvendor < 2 ^ 16 ∧
  h.subsystem < 2 ^ 16 ∧
  h.rom < 2 ^ 32 ∧
  h.cap < 2 ^ 8 ∧
  h.rsvd < 2 ^ 24 ∧
  h.rsvd2 < 2 ^ 32 ∧
  h.intline < 2 ^ 8 ∧
  h.intpin < 2 ^ 8 ∧
  h.mingnt < 2 ^ 8 ∧
  h.maxlat < 2 ^ 8

/-- Member values that fit a structure: one value per member, under the
member's name and below `2 ^ width`. -/
def Fits : List (String × Nat) → List (String × Nat) → Prop
  | [], [] => True
  | (name, w) :: rest, (n, v) :: vs => name = n ∧ v < 2 ^ w ∧ Fits rest vs
  | _, _ => False

/-- The number of members of a structure whose bit range holds bit `b`. -/
def covering (layout : List (String × Nat)) (b : Nat) : Nat :=
  ((bitfields_ranges layout 0).filter
    (fun r => decide (r.2.1 ≤ b ∧ b < r.2.1 + r.2.2))).length

/-- A resolver is injective on its known codes: two different codes that
both resolve to a description resolve to different strings. -/
def InjectiveOnKnown (f : Nat → Lookup) : Prop :=
  ∀ (u v : Nat) (s t : String), f u = Lookup.str s → f v = Lookup.str t → u ≠ v → s ≠ t

/-- The offsets of the bytes of the named header members: `0x00`..`0x34` and
`0x3C`..`0x3F`. -/
def named_offsets : List Nat :=
  List.range 0x35 ++ [0x3C, 0x3D, 0x3E, 0x3F]

/-- Two buffers agree on the bytes of the named header members: at each of
these offsets both hold the same byte, or neither holds one. -/
def AgreeOnNamed (buf1 buf2 : List Nat) : Prop :=
  ∀ i ∈ named_offsets, buf1[i]? = buf2[i]?

/-! ## Exact matching of the sparse resolvers

A `switch` over the enumerators of a space is a chain of equality tests that
ends in `return NULL`; the two lemmas below walk such a chain one `case` at a
time. -/

/-- The end of a chain: `return NULL` matches no code. -/
theorem exact_default (u : Nat) :
    ((∃ s, Lookup.null = Lookup.str s) ↔ u ∈ ([] : List Nat)) ∧
      (u ∉ ([] : List Nat) → Lookup.null = Lookup.null) := by
  simp

/-- One `case c: return r;` in front of a chain `g` that matches `codes`, where
`r` is a string of a table. -/
theorem exact_case {c u : Nat} {r g : Lookup} {codes : List Nat} {s : String}
    (hr : r = Lookup.str s)
    (hg : ((∃ t, g = Lookup.str t) ↔ u ∈ codes) ∧ (u ∉ codes → g = Lookup.null)) :
    ((∃ t, (if u = c then r else g) = Lookup.str t) ↔ u ∈ c :: codes) ∧
      (u ∉ c :: codes → (if u = c then r else g) = Lookup.null) := by
  by_cases h : u = c
  · subst h
    simp [hr]
  · simp only [h, if_false, List.mem_cons, false_or]
    exact hg

theorem pccx_exact : ExactMatch pccx enum_PCCX := by
  unfold ExactMatch pccx enum_PCCX
  intro u
  repeat (first | exact exact_default u | refine exact_case rfl ?_)

theorem pcmc_exact : ExactMatch pcmc enum_PCMC := by
  unfold ExactMatch pcmc enum_PCMC
  intro u
  repeat (first | exact exact_default u | refine exact_case rfl ?_)

theorem pcms_exact : ExactMatch pcms enum_PCMS := by
  unfold ExactMatch pcms enum_PCMS
  intro u
  repeat (first | exact exact_default u | refine exact_case rfl ?_)

theorem pcnc_exact : ExactMatch pcnc enum_PCNC := by
  unfold ExactMatch pcnc enum_PCNC
  intro u
  repeat (first | exact exact_default u | refine exact_case rfl ?_)

theorem pcdc_exact : ExactMatch pcdc enum_PCDC := by
  unfold ExactMatch pcdc enum_PCDC
  intro u
  repeat (first | exact exact_default u | refine exact_case rfl ?_)

theorem pcuc_exact : ExactMatch pcuc enum_PCUC := by
  unfold ExactMatch pcuc enum_PCUC
  intro u
  repeat (first | exact exact_default u | refine exact_case rfl ?_)

theorem pcbd_exact : ExactMatch pcbd enum_PCBD := by
  unfold ExactMatch pcbd enum_PCBD
  intro u
  repeat (first | exact exact_default u | refine exact_case rfl ?_)

theorem pcsc_exact : ExactMatch pcsc enum_PCSC := by
  unfold ExactMatch pcsc enum_PCSC
  intro u
  repeat (first | exact exact_default u | refine exact_case rfl ?_)

theorem pcsp_exact : ExactMatch pcsp enum_PCSP := by
  unfold ExactMatch pcsp enum_PCSP
  intro u
  repeat (first | exact exact_default u | refine exact_case rfl ?_)

theorem pcid_exact : ExactMatch pcid enum_PCID := by
  unfold ExactMatch pcid enum_PCID
  intro u
  repeat (first | exact exact_default u | refine exact_case rfl ?_)

theorem pcds_exact : ExactMatch pcds enum_PCDS := by
  unfold ExactMatch pcds enum_PCDS
  intro u
  repeat (first | exact exact_default u | refine exact_case rfl ?_)

theorem pcpr_exact : ExactMatch pcpr enum_PCPR := by
  unfold ExactMatch pcpr enum_PCPR
  intro u
  repeat (first | exact exact_default u | refine exact_case rfl ?_)

theorem pcsb_exact : ExactMatch pcsb enum_PCSB := by
  unfold ExactMatch pcsb enum_PCSB
  intro u
  repeat (first | exact exact_default u | refine exact_case rfl ?_)

theorem pcwc_exact : ExactMatch pcwc enum_PCWC := by
  unfold ExactMatch pcwc enum_PCWC
  intro u
  repeat (first | exact exact_default u | refine exact_case rfl ?_)

theorem pcio_exact : ExactMatch pcio enum_PCIO := by
  unfold ExactMatch pcio enum_PCIO
  intro u
  repeat (first | exact exact_default u | refine exact_case rfl ?_)

theorem pcsa_exact : ExactMatch pcsa enum_PCSA := by
  unfold ExactMatch pcsa enum_PCSA
  intro u
  repeat (first | exact exact_default u | refine exact_case rfl ?_)

theorem pcen_exact : ExactMatch pcen enum_PCEN := by
  unfold ExactMatch pcen enum_PCEN
  intro u
  repeat (first | exact exact_default u | refine exact_case rfl ?_)

theorem pcda_exact : ExactMatch pcda enum_PCDA := by
  unfold ExactMatch pcda enum_PCDA
  intro u
  repeat (first | exact exact_default u | refine exact_case rfl ?_)

theorem pcpa_exact : ExactMatch pcpa enum_PCPA := by
  unfold ExactMatch pcpa enum_PCPA
  intro u
  repeat (first | exact exact_default u | refine exact_case rfl ?_)

theorem pcne_exact : ExactMatch pcne enum_PCNE := by
  unfold ExactMatch pcne enum_PCNE
  intro u
  repeat (first | exact exact_default u | refine exact_case rfl ?_)

/-! ## Dense resolvers: `pcap` and `pcec`

`STR_PCAP` and `STR_PCEC` store the description of the first ID (`0x01`) at
position 0 and leave no slot for the IDs the enumerations skip, while `pcap`
and `pcec` index them with the ID itself. -/

/-- C1 (code defect): `pcap` does not return the description documented for
its argument. For every capability ID `c` with `0x01 ≤ c ≤ 0x14` it returns the
entry the table documents for `c + 1` (so `pcap(0x10)` is "MSI-X", not
"PCI Express", and `pcap(0x01)` is "Accelerated Graphics Port"), and for
`c = 0x15` it reads element 21 of the 21-element table. -/
theorem pcap_returns_entry_of_next_id :
    List.map pcap (List.range' 0x01 0x14) = List.map Lookup.str (STR_PCAP.drop 1) ∧
      pcap 0x01 = Lookup.str "Accelerated Graphics Port" ∧
      pcap 0x10 = Lookup.str "MSI-X" ∧
      pcap 0x10 ≠ Lookup.str "PCI Express" ∧
      pcap 0x15 = Lookup.outOfBounds 21 := by
  decide

/-- C2 (code defect): `pcec` does not return the description documented for
its argument: `pcec(0x0003)` is "Power Budgeting" (documented for `0x0004`),
not "Device Serial Number"; `pcec(0x0001)` is "Virtual Channel (VC)"; from
`0x000b` on the entries are those of later IDs still (`pcec(0x0010)` is the
entry documented for `0x0012`); and `pcec(0x0034)` reads element 52 of the
50-element table instead of returning "Flit Error Injection". -/
theorem pcec_returns_entry_of_later_id :
    pcec 0x0003 = Lookup.str "Power Budgeting" ∧
      pcec 0x0003 ≠ Lookup.str "Device Serial Number" ∧
      pcec 0x0001 = Lookup.str "Virtual Channel (VC)" ∧
      pcec 0x0010 = Lookup.str "Multicast" ∧
      pcec 0x0031 = Lookup.str "Flit Error Injection" ∧
      pcec 0x0034 = Lookup.outOfBounds 52 ∧
      pcec 0x0034 ≠ Lookup.str "Flit Error Injection" := by
  decide

/-- C3 (code defect): `pcap` and `pcec` read outside their tables. `0x15` is
below `PCAP_MAX`, so `pcap(0x15)` indexes `STR_PCAP` at 21, and the table has
21 entries (positions 0..20); `0x32`, `0x33` and `0x34` are below `PCEC_MAX`,
so `pcec` indexes `STR_PCEC` at 50, 51 and 52, and the table has 50 entries. -/
theorem pcap_pcec_read_past_table_end :
    (0x15 < PCAP_MAX ∧ STR_PCAP.length = 21 ∧ pcap 0x15 = Lookup.outOfBounds 0x15) ∧
      (0x32 < PCEC_MAX ∧ STR_PCEC.length = 50 ∧
        pcec 0x32 = Lookup.outOfBounds 0x32 ∧
        pcec 0x33 = Lookup.outOfBounds 0x33 ∧
        pcec 0x34 = Lookup.outOfBounds 0x34) := by
  decide

/-- C4 (code defect): code 0 is not treated as unknown. `pcap(0)` returns the
entry documented for `0x01` and `pcec(0)` the entry documented for `0x0001`;
neither is `NULL`. -/
theorem pcap_pcec_zero_not_absent :
    pcap 0 = Lookup.str "PCI Power Management Interface" ∧
      pcec 0 = Lookup.str "Advanced Error Reporting" ∧
      pcap 0 ≠ Lookup.null ∧ pcec 0 ≠ Lookup.null := by
  decide

/-- C5 (code defect): the IDs that `enum _PCEC` leaves out are not absent.
`pcec(0x000c)` returns the entry documented for `0x000e` and `pcec(0x0014)`
the entry documented for `0x0017`; neither is `NULL`. -/
theorem pcec_reserved_ids_not_absent :
    pcec 0x000c = Lookup.str "Alternative Routing-ID Interpretation (ARI)" ∧
      pcec 0x0014 = Lookup.str "TPH Requester" ∧
      pcec 0x000c ≠ Lookup.null ∧ pcec 0x0014 ≠ Lookup.null := by
  decide

/-- C6: at or above the known maximum the dense resolvers return `NULL`:
`pcap(u) = NULL` for every `u ≥ 0x16` and `pcec(u) = NULL` for every
`u ≥ 0x35`. -/
theorem pcap_pcec_absent_from_max (u : Nat) :
    (0x16 ≤ u → pcap u = Lookup.null) ∧ (0x35 ≤ u → pcec u = Lookup.null) := by
  constructor
  · intro h
    have h2 : u ≥ PCAP_MAX := h
    simp [pcap, h2]
  · intro h
    have h2 : u ≥ PCEC_MAX := h
    simp [pcec, h2]

/-- C6 at the first codes at the maximum and at the largest `unsigned`. -/
theorem pcap_pcec_absent_from_max_witness :
    (0x16 ≤ 0x16 ∧ pcap 0x16 = Lookup.null) ∧ (0x35 ≤ 0x35 ∧ pcec 0x35 = Lookup.null) ∧
      pcap 0xFFFFFFFF = Lookup.null ∧ pcec 0xFFFFFFFF = Lookup.null :=
  ⟨⟨by decide, (pcap_pcec_absent_from_max 0x16).1 (by decide)⟩,
   ⟨by decide, (pcap_pcec_absent_from_max 0x35).2 (by decide)⟩,
   (pcap_pcec_absent_from_max 0xFFFFFFFF).1 (by decide),
   (pcap_pcec_absent_from_max 0xFFFFFFFF).2 (by decide)⟩

/-! ## Sparse resolvers -/

/-- C7: the memory-controller subclass resolver returns `pcmc(0x00)` = "Ram",
`pcmc(0x01)` = "Flash", `pcmc(0x02)` = "CXL Memory" and `pcmc(0x80)` =
"Other Memory"; so the subclass `0x02` of base class `0x05` resolves to
"CXL Memory". -/
theorem pcmc_descriptions :
    pcmc 0x00 = Lookup.str "Ram" ∧ pcmc 0x01 = Lookup.str "Flash" ∧
      pcmc 0x02 = Lookup.str "CXL Memory" ∧ pcmc 0x80 = Lookup.str "Other Memory" := by
  decide

/-- C8: each of the 20 sparse resolvers matches exactly the codes enumerated
for its space in `main.h`: at every unsigned `u` the result is a description
if and only if `u` is one of the enumerators, and it is `NULL` at every other
`u`. Values that share low bits or a group nibble with a known code are
absent: `pcpr(0x11)`, `pcwc(0x42)`, `pcmc(0x102)` and `pcsa(0)` are `NULL`. -/
theorem sparse_resolvers_exact_match :
    (ExactMatch pccx enum_PCCX ∧
      ExactMatch pcmc enum_PCMC ∧
      ExactMatch pcms enum_PCMS ∧
      ExactMatch pcnc enum_PCNC ∧
      ExactMatch pcdc enum_PCDC ∧
      ExactMatch pcuc enum_PCUC ∧
      ExactMatch pcbd enum_PCBD ∧
      ExactMatch pcsc enum_PCSC ∧
      ExactMatch pcsp enum_PCSP ∧
      ExactMatch pcid enum_PCID ∧
      ExactMatch pcds enum_PCDS ∧
      ExactMatch pcpr enum_PCPR ∧
      ExactMatch pcsb enum_PCSB ∧
      ExactMatch pcwc enum_PCWC ∧
      ExactMatch pcio enum_PCIO ∧
      ExactMatch pcsa enum_PCSA ∧
      ExactMatch pcen enum_PCEN ∧
      ExactMatch pcda enum_PCDA ∧
      ExactMatch pcpa enum_PCPA ∧
      ExactMatch pcne enum_PCNE) ∧
      pcpr 0x11 = Lookup.null ∧ pcwc 0x42 = Lookup.null ∧
      pcmc 0x102 = Lookup.null ∧ pcsa 0 = Lookup.null :=
  ⟨⟨pccx_exact,
   pcmc_exact,
   pcms_exact,
   pcnc_exact,
   pcdc_exact,
   pcuc_exact,
   pcbd_exact,
   pcsc_exact,
   pcsp_exact,
   pcid_exact,
   pcds_exact,
   pcpr_exact,
   pcsb_exact,
   pcwc_exact,
   pcio_exact,
   pcsa_exact,
   pcen_exact,
   pcda_exact,
   pcpa_exact,
   pcne_exact⟩,
   by decide, by decide, by decide, by decide⟩

/-- C9 (code defect): `pcsc` reads the bridge table `STR_PCBD`, not its own
table `STR_PCSC`. For the seven enumerators of `_PCSC` it returns the first
seven bridge descriptions: `pcsc(0x00)` is "Host Bridge", not "Generic XT
Compatible Serial Controller", and `pcsc(0x80)` is "NuBus Bridge", not "Other
Communcations Device". -/
theorem pcsc_reads_bridge_table :
    List.map pcsc enum_PCSC = List.map Lookup.str (STR_PCBD.take 7) ∧
      pcsc 0x00 = Lookup.str "Host Bridge" ∧
      pcsc 0x00 ≠ Lookup.str "Generic XT Compatible Serial Controller" ∧
      pcsc 0x01 = Lookup.str "ISA Bridge" ∧
      pcsc 0x02 = Lookup.str "EISA" ∧
      pcsc 0x03 = Lookup.str "MCA" ∧
      pcsc 0x04 = Lookup.str "PCI-to-PCI Bridge" ∧
      pcsc 0x05 = Lookup.str "PCMCIA Bridge" ∧
      pcsc 0x80 = Lookup.str "NuBus Bridge" ∧
      pcsc 0x80 ≠ Lookup.str "Other Communcations Device" := by
  decide

/-- C10: for each of the 18 sparse spaces other than `pcmc` and `pcsc`, the
resolver maps the enumerators of the space, in enumeration order, to the
entries of the space's own string table, in table order: the code at position
`i` of the enumeration resolves to entry `i` of the table. In particular
`pcpr(0x10)` = "Alpha", `pcpr(0x40)` = "Co-Processor", `pcwc(0x41)` =
"Cellular Controller + Ethrenet", `pcsp(0x80)` = "Other System Peripheral",
`pcsa(0x01)` = "TV" and `pcpa(0x01)` = "SNIA Smart Data Acceleration Interface
(SDXI)". -/
theorem sparse_resolvers_own_table :
    (List.map pccx enum_PCCX = List.map Lookup.str STR_PCCX ∧
      List.map pcms enum_PCMS = List.map Lookup.str STR_PCMS ∧
      List.map pcnc enum_PCNC = List.map Lookup.str STR_PCNC ∧
      List.map pcdc enum_PCDC = List.map Lookup.str STR_PCDC ∧
      List.map pcuc enum_PCUC = List.map Lookup.str STR_PCUC ∧
      List.map pcbd enum_PCBD = List.map Lookup.str STR_PCBD ∧
      List.map pcsp enum_PCSP = List.map Lookup.str STR_PCSP ∧
      List.map pcid enum_PCID = List.map Lookup.str STR_PCID ∧
      List.map pcds enum_PCDS = List.map Lookup.str STR_PCDS ∧
      List.map pcpr enum_PCPR = List.map Lookup.str STR_PCPR ∧
      List.map pcsb enum_PCSB = List.map Lookup.str STR_PCSB ∧
      List.map pcwc enum_PCWC = List.map Lookup.str STR_PCWC ∧
      List.map pcio enum_PCIO = List.map Lookup.str STR_PCIO ∧
      List.map pcsa enum_PCSA = List.map Lookup.str STR_PCSA ∧
      List.map pcen enum_PCEN = List.map Lookup.str STR_PCEN ∧
      List.map pcda enum_PCDA = List.map Lookup.str STR_PCDA ∧
      List.map pcpa enum_PCPA = List.map Lookup.str STR_PCPA ∧
      List.map pcne enum_PCNE = List.map Lookup.str STR_PCNE) ∧
      pcpr 0x10 = Lookup.str "Alpha" ∧
      pcpr 0x40 = Lookup.str "Co-Processor" ∧
      pcwc 0x41 = Lookup.str "Cellular Controller + Ethrenet" ∧
      pcsp 0x80 = Lookup.str "Other System Peripheral" ∧
      pcsa 0x01 = Lookup.str "TV" ∧
      pcpa 0x01 = Lookup.str "SNIA Smart Data Acceleration Interface (SDXI)" := by
  decide

/-! ## The printer: indent strings and the sequence of lines -/

theorem clamp_indent_eq (indent : Nat) : clamp_indent indent = min indent 32 := by
  unfold clamp_indent MAX_INDENT
  split_ifs <;> omega

theorem cstring_title_aux :
    ∀ k, k ≤ 32 → (space_init.store k 0).cstring = some (blanks k) := by
  decide

theorem cstring_fields_aux :
    ∀ k, k ≤ 32 →
      (if k + 2 < MAX_INDENT then ((space_init.store k 0).store k 0x20).store (k + 2) 0
        else space_init.store k 0).cstring
        = some (blanks (if k + 2 < 32 then k + 2 else k)) := by
  decide

theorem cstring_space_title (indent : Nat) :
    (space_title indent).cstring = some (blanks (min indent 32)) := by
  unfold space_title
  rw [clamp_indent_eq]
  exact cstring_title_aux _ (Nat.min_le_right _ _)

theorem cstring_space_fields (indent : Nat) :
    (space_fields indent).cstring = some (blanks (field_indent indent)) := by
  unfold space_fields space_title field_indent
  rw [clamp_indent_eq]
  exact cstring_fields_aux _ (Nat.min_le_right _ _)

/-- The printer on a buffer: the title line, then the field calls in order. -/
theorem prnt_some (buf : List Nat) (indent : Nat) :
    pcie_prnt_cfgspace (some buf) indent =
      run_prints buf (blanks (field_indent indent))
        [blanks (min indent 32) ++ "PCIe Config Space HDR:\n"] hdr_prints := by
  simp only [pcie_prnt_cfgspace, cstring_space_title, cstring_space_fields]

/-- The line a field call writes for the value `v` of its member. -/
theorem printf_ok {buf : List Nat} {sp : String} {f : FieldPrint} {v : Nat}
    (h : f.member buf = Except.ok v) :
    f.printf buf sp = Except.ok (sp ++ f.label ++ f.conv.render v ++ "\n") := by
  simp only [FieldPrint.printf, h]

theorem printf_error {buf : List Nat} {sp : String} {f : FieldPrint} {off : Nat}
    (h : f.member buf = Except.error off) :
    f.printf buf sp = Except.error off := by
  simp only [FieldPrint.printf, h]

/-- Every string of a run is one of the strings written before, or the line of
a field call whose member could be read. -/
theorem run_prints_mem (buf : List Nat) (sp : String) (fs : List FieldPrint) :
    ∀ (acc : List String) (line : String), line ∈ (run_prints buf sp acc fs).out →
      line ∈ acc ∨ ∃ f ∈ fs, ∃ v, f.member buf = Except.ok v ∧
        line = sp ++ f.label ++ f.conv.render v ++ "\n" := by
  induction fs with
  | nil => intro acc line h; exact Or.inl h
  | cons f rest ih =>
    intro acc line h
    cases hm : f.member buf with
    | error off =>
      simp only [run_prints, printf_error hm] at h
      exact Or.inl h
    | ok v =>
      simp only [run_prints, printf_ok hm] at h
      rcases ih _ _ h with h1 | ⟨g, hg, w, hw, hl⟩
      · rcases List.mem_append.1 h1 with h2 | h2
        · exact Or.inl h2
        · refine Or.inr ⟨f, List.mem_cons_self _ _, v, hm, ?_⟩
          simpa using h2
      · exact Or.inr ⟨g, List.mem_cons_of_mem _ hg, w, hw, hl⟩

/-- The strings written before a run stay in front of its output. -/
theorem run_prints_acc (buf : List Nat) (sp : String) (fs : List FieldPrint) :
    ∀ acc : List String, ∃ more, (run_prints buf sp acc fs).out = acc ++ more := by
  induction fs with
  | nil => intro acc; exact ⟨[], by simp [run_prints]⟩
  | cons f rest ih =>
    intro acc
    cases hm : f.member buf with
    | error off => exact ⟨[], by simp [run_prints, printf_error hm]⟩
    | ok v =>
      obtain ⟨more, hmore⟩ := ih (acc ++ [sp ++ f.label ++ f.conv.render v ++ "\n"])
      refine ⟨(sp ++ f.label ++ f.conv.render v ++ "\n") :: more, ?_⟩
      simp only [run_prints, printf_ok hm, hmore, List.append_assoc, List.singleton_append]

/-- When every member can be read, the run writes one line per call and ends
without a fault. -/
theorem run_prints_all (buf : List Nat) (sp : String) (val : FieldPrint → Nat)
    (fs : List FieldPrint) :
    ∀ acc : List String, (∀ f ∈ fs, f.member buf = Except.ok (val f)) →
      run_prints buf sp acc fs =
        { out := acc ++ fs.map (fun f => sp ++ f.label ++ f.conv.render (val f) ++ "\n"),
          fault := none } := by
  induction fs with
  | nil => intro acc _; simp [run_prints]
  | cons f rest ih =>
    intro acc h
    have hf := h f (List.mem_cons_self _ _)
    simp only [run_prints, printf_ok hf]
    rw [ih _ (fun g hg => h g (List.mem_cons_of_mem _ hg))]
    simp

/-! ## Reads of the header members -/

theorem loadByte_ok {buf : List Nat} {off : Nat} (h : off < buf.length) :
    loadByte buf off = Except.ok (buf.getD off 0) := by
  simp [loadByte, List.getD, List.getElem?_eq_getElem h]

/-- A load that lies inside the buffer yields the little-endian value. -/
theorem loadLE_ok (buf : List Nat) :
    ∀ (n off : Nat), off + n ≤ buf.length → loadLE buf off n = Except.ok (leValue buf off n) := by
  intro n
  induction n with
  | zero => intro off _; rfl
  | succ n ih =>
    intro off h
    have h1 : off < buf.length := by omega
    have h2 : off + 1 + n ≤ buf.length := by omega
    simp only [loadLE, loadByte_ok h1, ih (off + 1) h2, leValue]

/-- Every field call reads one member: a little-endian load of at least one
byte that lies inside the first 64 bytes. -/
theorem hdr_prints_member :
    ∀ f ∈ hdr_prints, ∃ off n, off + n ≤ 64 ∧ 0 < n ∧
      f.member = fun buf => loadLE buf off n := by
  intro f hf
  simp only [hdr_prints, List.mem_cons, List.mem_singleton, List.not_mem_nil, or_false] at hf
  rcases hf with rfl | rfl | rfl | rfl | rfl | rfl | rfl | rfl | rfl | rfl | rfl | rfl | rfl | rfl | rfl | rfl | rfl | rfl | rfl | rfl | rfl | rfl | rfl | rfl | rfl | rfl | rfl
  · exact ⟨OFF_vendor, SZ_U16, by decide, by decide, rfl⟩
  · exact ⟨OFF_device, SZ_U16, by decide, by decide, rfl⟩
  · exact ⟨OFF_command, SZ_U16, by decide, by decide, rfl⟩
  · exact ⟨OFF_status, SZ_U16, by decide, by decide, rfl⟩
  · exact ⟨OFF_rev, SZ_U8, by decide, by decide, rfl⟩
  · exact ⟨OFF_pi, SZ_U8, by decide, by decide, rfl⟩
  · exact ⟨OFF_subclass, SZ_U8, by decide, by decide, rfl⟩
  · exact ⟨OFF_baseclass, SZ_U8, by decide, by decide, rfl⟩
  · exact ⟨OFF_cls, SZ_U8, by decide, by decide, rfl⟩
  · exact ⟨OFF_timer, SZ_U8, by decide, by decide, rfl⟩
  · exact ⟨OFF_type, SZ_U8, by decide, by decide, rfl⟩
  · exact ⟨OFF_bist, SZ_U8, by decide, by decide, rfl⟩
  · exact ⟨OFF_bar0, SZ_U32, by decide, by decide, rfl⟩
  · exact ⟨OFF_bar1, SZ_U32, by decide, by decide, rfl⟩
  · exact ⟨OFF_bar2, SZ_U32, by decide, by decide, rfl⟩
  · exact ⟨OFF_bar3, SZ_U32, by decide, by decide, rfl⟩
  · exact ⟨OFF_bar4, SZ_U32, by decide, by decide, rfl⟩
  · exact ⟨OFF_bar5, SZ_U32, by decide, by decide, rfl⟩
  · exact ⟨OFF_cis, SZ_U32, by decide, by decide, rfl⟩
  · exact ⟨OFF_subvendor, SZ_U16, by decide, by decide, rfl⟩
  · exact ⟨OFF_subsystem, SZ_U16, by decide, by decide, rfl⟩
  · exact ⟨OFF_rom, SZ_U32, by decide, by decide, rfl⟩
  · exact ⟨OFF_cap, SZ_U8, by decide, by decide, rfl⟩
  · exact ⟨OFF_intline, SZ_U8, by decide, by decide, rfl⟩
  · exact ⟨OFF_intpin, SZ_U8, by decide, by decide, rfl⟩
  · exact ⟨OFF_mingnt, SZ_U8, by decide, by decide, rfl⟩
  · exact ⟨OFF_maxlat, SZ_U8, by decide, by decide, rfl⟩

theorem hdr_prints_ok (buf : List Nat) (hlen : 64 ≤ buf.length) :
    ∀ f ∈ hdr_prints, f.member buf = Except.ok (f.value buf) := by
  intro f hf
  obtain ⟨off, n, h1, _, h2⟩ := hdr_prints_member f hf
  have h3 : f.member buf = Except.ok (leValue buf off n) := by
    rw [h2]
    exact loadLE_ok buf n off (by omega)
  simp only [FieldPrint.value, h3]

/-- The report for a buffer of at least 64 bytes: the title line and one line
per field call, without a fault. -/
theorem prnt_full (buf : List Nat) (indent : Nat) (hlen : 64 ≤ buf.length) :
    pcie_prnt_cfgspace (some buf) indent =
      { out := (blanks (min indent 32) ++ "PCIe Config Space HDR:\n") ::
          hdr_prints.map (fun f =>
            blanks (field_indent indent) ++ f.label ++ f.conv.render (f.value buf) ++ "\n"),
        fault := none } := by
  rw [prnt_some, run_prints_all buf _ (FieldPrint.value buf) hdr_prints _ (hdr_prints_ok buf hlen)]
  simp

/-! ## The `printf` conversions -/

theorem digitsLSF_lt (b : Nat) (hb : 2 ≤ b) :
    ∀ (fuel n : Nat), ∀ d ∈ digitsLSF b fuel n, d < b := by
  intro fuel
  induction fuel with
  | zero => intro n d h; simp [digitsLSF] at h
  | succ fuel ih =>
    intro n d h
    unfold digitsLSF at h
    split_ifs at h with hn
    · simp only [List.mem_singleton] at h
      omega
    · rcases List.mem_cons.1 h with h1 | h1
      · rw [h1]
        exact Nat.mod_lt _ (by omega)
      · exact ih _ _ h1

/-- With enough fuel the digits denote the number. -/
theorem digitsLSF_value (b : Nat) (hb : 2 ≤ b) :
    ∀ (fuel n : Nat), n < b ^ fuel →
      (digitsLSF b fuel n).foldr (fun d acc => d + b * acc) 0 = n := by
  intro fuel
  induction fuel with
  | zero => intro n h; simp at h; subst h; simp [digitsLSF]
  | succ fuel ih =>
    intro n h
    unfold digitsLSF
    split_ifs with hn
    · simp
    · have h1 : n / b < b ^ fuel := by
        rw [Nat.div_lt_iff_lt_mul (by omega)]
        calc n < b ^ (fuel + 1) := h
          _ = b ^ fuel * b := Nat.pow_succ _ _
      simp only [List.foldr_cons, ih _ h1]
      exact Nat.mod_add_div n b

/-- The most significant digit of a positive number is not zero. -/
theorem digitsLSF_getLast (b : Nat) (hb : 2 ≤ b) :
    ∀ (fuel n : Nat), 0 < n → n < b ^ fuel →
      ∃ ds d, digitsLSF b fuel n = ds ++ [d] ∧ 0 < d := by
  intro fuel
  induction fuel with
  | zero => intro n h1 h2; simp at h2; omega
  | succ fuel ih =>
    intro n h1 h2
    unfold digitsLSF
    split_ifs with hlt
    · exact ⟨[], n, rfl, h1⟩
    · have h3 : n / b < b ^ fuel := by
        rw [Nat.div_lt_iff_lt_mul (by omega)]
        calc n < b ^ (fuel + 1) := h2
          _ = b ^ fuel * b := Nat.pow_succ _ _
      have h4 : 0 < n / b := Nat.div_pos (by omega) (by omega)
      obtain ⟨ds, d, hd, hpos⟩ := ih _ h4 h3
      exact ⟨n % b :: ds, d, by rw [hd]; rfl, hpos⟩

theorem lt_pow_succ_self (b : Nat) (hb : 2 ≤ b) (n : Nat) : n < b ^ (n + 1) :=
  calc n < n + 1 := Nat.lt_succ_self n
    _ < 2 ^ (n + 1) := Nat.lt_two_pow (n + 1)
    _ ≤ b ^ (n + 1) := Nat.pow_le_pow_left hb (n + 1)

theorem digitChar_spec :
    ∀ d, d < 16 → digitValue (Nat.digitChar d) = d ∧ isHexDigit (Nat.digitChar d) = true ∧
      (d < 10 → isDecDigit (Nat.digitChar d) = true) ∧ (d = 0 ↔ Nat.digitChar d = '0') ∧
      Nat.digitChar d ≠ '\n' := by
  decide

/-- The value of a numeral written from digits below 16. -/
theorem numeralValue_digits (b : Nat) :
    ∀ ds : List Nat, (∀ d ∈ ds, d < 16) →
      numeralValue b (ds.reverse.map Nat.digitChar) = ds.foldr (fun d acc => d + b * acc) 0 := by
  intro ds
  induction ds with
  | nil => intro _; rfl
  | cons d ds ih =>
    intro h
    have h1 := ih (fun x hx => h x (List.mem_cons_of_mem _ hx))
    have h2 := (digitChar_spec d (h d (List.mem_cons_self _ _))).1
    unfold numeralValue at h1 ⊢
    simp only [List.reverse_cons, List.map_append, List.map_cons, List.map_nil,
      List.foldl_append, List.foldl_cons, List.foldl_nil, List.foldr_cons, h1, h2]
    omega

theorem numeral_value (b : Nat) (hb : 2 ≤ b) (hb16 : b ≤ 16) (n : Nat) :
    numeralValue b (numeral b n) = n := by
  unfold numeral
  rw [numeralValue_digits b _ (fun d hd => lt_of_lt_of_le (digitsLSF_lt b hb _ _ d hd) hb16)]
  exact digitsLSF_value b hb _ _ (lt_pow_succ_self b hb n)

theorem numeral_digits (b : Nat) (hb : 2 ≤ b) (hb16 : b ≤ 16) (n : Nat) :
    ∀ c ∈ numeral b n, isHexDigit c = true ∧ (b ≤ 10 → isDecDigit c = true) ∧ c ≠ '\n' := by
  intro c hc
  unfold numeral at hc
  obtain ⟨d, hd, rfl⟩ := List.mem_map.1 hc
  have h1 : d < b := digitsLSF_lt b hb _ _ d (List.mem_reverse.1 hd)
  have h2 := digitChar_spec d (by omega)
  exact ⟨h2.2.1, fun h => h2.2.2.1 (by omega), h2.2.2.2.2⟩

/-- A positive number's numeral does not start with the digit zero. -/
theorem numeral_head (b : Nat) (hb : 2 ≤ b) (hb16 : b ≤ 16) (n : Nat) (hn : 0 < n) :
    ∃ c cs, numeral b n = c :: cs ∧ c ≠ '0' := by
  obtain ⟨ds, d, h1, h2⟩ := digitsLSF_getLast b hb (n + 1) n hn (lt_pow_succ_self b hb n)
  have h3 : d < b := digitsLSF_lt b hb (n + 1) n d (by rw [h1]; simp)
  refine ⟨Nat.digitChar d, ds.reverse.map Nat.digitChar, ?_, ?_⟩
  · unfold numeral
    rw [h1]
    simp
  · intro h
    have := ((digitChar_spec d (by omega)).2.2.2.1).2 h
    omega

theorem numeral_zero (b : Nat) (hb : 2 ≤ b) : numeral b 0 = ['0'] := by
  unfold numeral digitsLSF
  simp only [show 0 < b by omega, if_true, List.reverse_singleton, List.map_cons, List.map_nil]
  rfl

/-- The conversion `%u`: decimal digits that denote the value, without a
leading zero (the numeral of 0 is the single digit `0`). -/
theorem conv_u_spec (v : Nat) :
    ∃ ds : List Char, conv_u v = String.mk ds ∧ (∀ c ∈ ds, isDecDigit c = true) ∧
      numeralValue 10 ds = v ∧ (ds = ['0'] ∨ ∃ c cs, ds = c :: cs ∧ c ≠ '0') := by
  refine ⟨numeral 10 v, rfl, ?_, numeral_value 10 (by decide) (by decide) v, ?_⟩
  · intro c hc
    exact (numeral_digits 10 (by decide) (by decide) v c hc).2.1 (le_refl _)
  · rcases Nat.eq_zero_or_pos v with h | h
    · subst h
      exact Or.inl (numeral_zero 10 (by decide))
    · exact Or.inr (numeral_head 10 (by decide) (by decide) v h)

/-! ## The structure view and the report -/

theorem leValue_lt (buf : List Nat) (hbytes : ∀ b ∈ buf, b < 256) :
    ∀ (n off : Nat), leValue buf off n < 256 ^ n := by
  intro n
  induction n with
  | zero => intro off; simp [leValue]
  | succ n ih =>
    intro off
    have h1 : buf.getD off 0 < 256 := by
      by_cases h : off < buf.length
      · have h3 : buf.getD off 0 = buf[off] := by
          simp [List.getD, List.getElem?_eq_getElem h]
        rw [h3]
        exact hbytes _ (List.getElem_mem ..)
      · simp [List.getD, List.getElem?_eq_none (Nat.le_of_not_lt h)]
    have h2 := ih (off + 1)
    simp only [leValue, Nat.pow_succ]
    omega

/-- The structure view of a buffer of at least 64 bytes reads every member. -/
theorem view_ok (buf : List Nat) (hlen : 64 ≤ buf.length) :
    pcie_cfg_hdr_view buf = Except.ok (hdr_of buf) := by
  have key : ∀ off n, off + n ≤ 64 → loadLE buf off n = Except.ok (leValue buf off n) :=
    fun off n h => loadLE_ok buf n off (le_trans h hlen)
  simp only [pcie_cfg_hdr_view, ph_vendor, ph_device, ph_command, ph_status, ph_rev, ph_pi, ph_subclass, ph_baseclass, ph_cls, ph_timer, ph_type, ph_bist, ph_bar0, ph_bar1, ph_bar2, ph_bar3, ph_bar4, ph_bar5, ph_cis, ph_subvendor, ph_subsystem, ph_rom, ph_cap, ph_rsvd, ph_rsvd2, ph_intline, ph_intpin, ph_mingnt, ph_maxlat,
    key _ _ (by decide : OFF_vendor + SZ_U16 ≤ 64),
    key _ _ (by decide : OFF_device + SZ_U16 ≤ 64),
    key _ _ (by decide : OFF_command + SZ_U16 ≤ 64),
    key _ _ (by decide : OFF_status + SZ_U16 ≤ 64),
    key _ _ (by decide : OFF_rev + SZ_U8 ≤ 64),
    key _ _ (by decide : OFF_pi + SZ_U8 ≤ 64),
    key _ _ (by decide : OFF_subclass + SZ_U8 ≤ 64),
    key _ _ (by decide : OFF_baseclass + SZ_U8 ≤ 64),
    key _ _ (by decide : OFF_cls + SZ_U8 ≤ 64),
    key _ _ (by decide : OFF_timer + SZ_U8 ≤ 64),
    key _ _ (by decide : OFF_type + SZ_U8 ≤ 64),
    key _ _ (by decide : OFF_bist + SZ_U8 ≤ 64),
    key _ _ (by decide : OFF_bar0 + SZ_U32 ≤ 64),
    key _ _ (by decide : OFF_bar1 + SZ_U32 ≤ 64),
    key _ _ (by decide : OFF_bar2 + SZ_U32 ≤ 64),
    key _ _ (by decide : OFF_bar3 + SZ_U32 ≤ 64),
    key _ _ (by decide : OFF_bar4 + SZ_U32 ≤ 64),
    key _ _ (by decide : OFF_bar5 + SZ_U32 ≤ 64),
    key _ _ (by decide : OFF_cis + SZ_U32 ≤ 64),
    key _ _ (by decide : OFF_subvendor + SZ_U16 ≤ 64),
    key _ _ (by decide : OFF_subsystem + SZ_U16 ≤ 64),
    key _ _ (by decide : OFF_rom + SZ_U32 ≤ 64),
    key _ _ (by decide : OFF_cap + SZ_U8 ≤ 64),
    key _ _ (by decide : OFF_rsvd + SZ_RSVD ≤ 64),
    key _ _ (by decide : OFF_rsvd2 + SZ_U32 ≤ 64),
    key _ _ (by decide : OFF_intline + SZ_U8 ≤ 64),
    key _ _ (by decide : OFF_intpin + SZ_U8 ≤ 64),
    key _ _ (by decide : OFF_mingnt + SZ_U8 ≤ 64),
    key _ _ (by decide : OFF_maxlat + SZ_U8 ≤ 64)]
  rfl

theorem map_eq_of_forall₂ {α β γ : Type} (R : α → β → Prop) (g1 : α → γ) (g2 : β → γ)
    (hR : ∀ a b, R a b → g1 a = g2 b) :
    ∀ (l1 : List α) (l2 : List β), List.Forall₂ R l1 l2 → l1.map g1 = l2.map g2 := by
  intro l1 l2 h
  induction h with
  | nil => rfl
  | cons hab _ ih => simp only [List.map_cons, hR _ _ hab, ih]

/-- The 27 field calls render the 27 named members, one by one, in layout
order. -/
theorem hdr_prints_render : List.Forall₂ Renders hdr_prints named_members := by
  unfold hdr_prints named_members
  repeat' (first | exact List.Forall₂.nil | apply List.Forall₂.cons)
  all_goals exact ⟨_, _, by decide, by decide, by decide, rfl, by decide, fun _ => rfl, fun _ => rfl⟩

theorem renders_value {f : FieldPrint} {m : NamedMember} (h : Renders f m) (buf : List Nat)
    (hlen : 64 ≤ buf.length) : f.value buf = m.get (hdr_of buf) := by
  obtain ⟨off, n, h1, _, _, h2, _, _, h3⟩ := h
  have h4 : f.member buf = Except.ok (leValue buf off n) := by
    rw [h2]
    exact loadLE_ok buf n off (by omega)
  simp only [FieldPrint.value, h4, h3]

/-- The report for a buffer of at least 64 bytes is the report the
specification describes for the members the structure view reads. -/
theorem prnt_report (buf : List Nat) (indent : Nat) (hlen : 64 ≤ buf.length) :
    pcie_prnt_cfgspace (some buf) indent =
      { out := (blanks (min indent 32) ++ "PCIe Config Space HDR:\n") ::
          named_members.map (report_line (blanks (field_indent indent)) (hdr_of buf)),
        fault := none } := by
  rw [prnt_full buf indent hlen]
  congr 2
  refine map_eq_of_forall₂ Renders _ _ ?_ _ _ hdr_prints_render
  intro f m h
  obtain ⟨off, n, h1, h0, hbits, h2, h3, h4, h5⟩ := h
  rw [renders_value ⟨off, n, h1, h0, hbits, h2, h3, h4, h5⟩ buf hlen]
  simp only [report_line, NamedMember.text, h3, h4]

theorem takeWhile_blanks (k : Nat) (c : Char) (cs : List Char) (hc : c ≠ ' ') :
    ((List.replicate k ' ' ++ c :: cs).takeWhile (fun x => x == ' ')).length = k := by
  induction k with
  | zero =>
    have h : (c == ' ') = false := by simpa using hc
    simp [List.takeWhile, h]
  | succ k ih => simpa [List.replicate_succ, List.takeWhile] using ih

/-- A line that is `k` blanks followed by text that starts with another
character has exactly `k` leading blanks. -/
theorem leadingBlanks_blanks (k : Nat) (s t : String) (hs : startsNonBlank s = true) :
    leadingBlanks (blanks k ++ s ++ t) = k := by
  unfold startsNonBlank at hs
  cases hd : s.data with
  | nil => simp [hd] at hs
  | cons c cs =>
    simp only [hd, bne_iff_ne, ne_eq] at hs
    unfold leadingBlanks blanks
    simp only [String.data_append, hd, List.append_assoc, List.cons_append]
    exact takeWhile_blanks k c _ hs

theorem hdr_prints_label : ∀ f ∈ hdr_prints, startsNonBlank f.label = true := by
  decide

theorem leadingBlanks_title (k : Nat) :
    leadingBlanks (blanks k ++ "PCIe Config Space HDR:\n") = k := by
  have h := leadingBlanks_blanks k "PCIe Config Space HDR:\n" "" (by decide)
  simpa using h

theorem leadingBlanks_field (k : Nat) (label v : String) (hl : startsNonBlank label = true) :
    leadingBlanks (blanks k ++ label ++ v ++ "\n") = k := by
  rw [String.append_assoc (blanks k ++ label) v "\n"]
  exact leadingBlanks_blanks k label (v ++ "\n") hl

theorem field_indent_le (indent : Nat) : field_indent indent ≤ 32 := by
  unfold field_indent
  split_ifs <;> omega

/-- C11: for every non-null buffer and every indent of at least 32, the run of
`pcie_prnt_cfgspace` is the run with indent 32: the same strings are written,
in the same order (so indent 100 prints what indent 32 prints). -/
theorem prnt_indent_from_max (buf : List Nat) (indent : Nat) (h : 32 ≤ indent) :
    pcie_prnt_cfgspace (some buf) indent = pcie_prnt_cfgspace (some buf) 32 := by
  rw [prnt_some, prnt_some]
  simp only [field_indent, Nat.min_eq_right h, Nat.min_self]

/-- C11 at indent 100 on the sample header: the same 28 lines as at indent 32,
the title behind 32 blanks. -/
theorem prnt_indent_from_max_witness :
    32 ≤ 100 ∧
      pcie_prnt_cfgspace (some sample_cfgspace) 100 =
        pcie_prnt_cfgspace (some sample_cfgspace) 32 ∧
      (pcie_prnt_cfgspace (some sample_cfgspace) 100).out.length = 28 ∧
      (pcie_prnt_cfgspace (some sample_cfgspace) 100).out.head? =
        some (blanks 32 ++ "PCIe Config Space HDR:\n") :=
  ⟨by decide, prnt_indent_from_max sample_cfgspace 100 (by decide), by decide, by decide⟩

/-- C12 as stated fails: at indent 30 every field line of the sample header
starts with 30 blanks, not with `min (30 + 2) 32 = 32`. -/
theorem field_lines_indent_counterexample :
    (pcie_prnt_cfgspace (some sample_cfgspace) 30).out.tail.map leadingBlanks =
        List.replicate 27 30 ∧
      ¬ (∀ line ∈ (pcie_prnt_cfgspace (some sample_cfgspace) 30).out.tail,
          leadingBlanks line = min (30 + 2) 32) := by
  decide

/-- C12, amended: for a buffer of at least 64 bytes and an indent below 32, the
report has 27 field lines after the title line, and each starts with exactly
`indent + 2` blanks when `indent + 2 < 32` and with exactly `indent` blanks
otherwise (indent 30 and 31: the field lines keep the indent of the title). -/
theorem field_lines_indent (buf : List Nat) (indent : Nat) (hlen : 64 ≤ buf.length)
    (hi : indent < 32) :
    (pcie_prnt_cfgspace (some buf) indent).out.tail.length = 27 ∧
      ∀ line ∈ (pcie_prnt_cfgspace (some buf) indent).out.tail,
        leadingBlanks line = if indent + 2 < 32 then indent + 2 else indent := by
  rw [prnt_full buf indent hlen]
  refine ⟨by simp [hdr_prints], ?_⟩
  intro line hline
  simp only [List.tail_cons, List.mem_map] at hline
  obtain ⟨f, hf, rfl⟩ := hline
  rw [leadingBlanks_field _ _ _ (hdr_prints_label f hf)]
  simp only [field_indent, Nat.min_eq_left (Nat.le_of_lt hi)]

/-- C12, amended, on the sample header at indent 29 (31 blanks) and at indent
31 (31 blanks). -/
theorem field_lines_indent_witness :
    (64 ≤ sample_cfgspace.length ∧ 29 < 32 ∧ 31 < 32) ∧
      (∀ line ∈ (pcie_prnt_cfgspace (some sample_cfgspace) 29).out.tail,
        leadingBlanks line = 31) ∧
      (∀ line ∈ (pcie_prnt_cfgspace (some sample_cfgspace) 31).out.tail,
        leadingBlanks line = 31) :=
  ⟨by decide,
   (field_lines_indent sample_cfgspace 29 (by decide) (by decide)).2,
   (field_lines_indent sample_cfgspace 31 (by decide) (by decide)).2⟩

/-! ## The printer when `%s` reads the array only -/

theorem cstring_inside_title_aux :
    ∀ k, k < 32 → (space_init.store k 0).cstring_inside = some (blanks k) ∧
      (space_init.store k 0).past = [] := by
  decide

theorem cstring_inside_fields_aux :
    ∀ k, k < 32 →
      (if k + 2 < MAX_INDENT then ((space_init.store k 0).store k 0x20).store (k + 2) 0
        else space_init.store k 0).cstring_inside
        = some (blanks (if k + 2 < 32 then k + 2 else k)) ∧
      (if k + 2 < MAX_INDENT then ((space_init.store k 0).store k 0x20).store (k + 2) 0
        else space_init.store k 0).past = [] := by
  decide

theorem clamp_indent_lt {indent : Nat} (h : indent < 32) : clamp_indent indent = indent := by
  rw [clamp_indent_eq]
  omega

theorem clamp_indent_ge {indent : Nat} (h : 32 ≤ indent) : clamp_indent indent = 32 := by
  rw [clamp_indent_eq]
  omega

/-- Below 32 no store goes behind the end of `space`, and the run that reads
the array only is the run of `pcie_prnt_cfgspace`. -/
theorem prnt_strict_below (buf : List Nat) (indent : Nat) (h : indent < 32) :
    (space_title indent).past = [] ∧ (space_fields indent).past = [] ∧
      pcie_prnt_cfgspace_strict (some buf) indent = pcie_prnt_cfgspace (some buf) indent := by
  have h1 : (space_title indent).cstring_inside = some (blanks indent) ∧
      (space_title indent).past = [] := by
    unfold space_title
    rw [clamp_indent_lt h]
    exact cstring_inside_title_aux indent h
  have h2 : (space_fields indent).cstring_inside = some (blanks (field_indent indent)) ∧
      (space_fields indent).past = [] := by
    unfold space_fields space_title field_indent
    rw [clamp_indent_lt h, Nat.min_eq_left (Nat.le_of_lt h)]
    exact cstring_inside_fields_aux indent h
  refine ⟨h1.2, h2.2, ?_⟩
  rw [prnt_some, Nat.min_eq_left (Nat.le_of_lt h)]
  simp only [pcie_prnt_cfgspace_strict, h1.1, h2.1]

/-- From 32 on the zero byte is stored at `space[32]`, behind the 32 blanks of
the array: the array holds no zero byte, and the run that reads the array only
ends at the first `%s`, before anything is written. -/
theorem prnt_strict_from_max (buf : List Nat) (indent : Nat) (h : 32 ≤ indent) :
    space_title indent = { cells := List.replicate 32 0x20, past := [(32, 0)] } ∧
      space_fields indent = space_title indent ∧
      (space_title indent).cstring_inside = none ∧
      (space_fields indent).cstring_inside = none ∧
      pcie_prnt_cfgspace_strict (some buf) indent = { out := [], fault := some Fault.space } := by
  have h1 : space_title indent = { cells := List.replicate 32 0x20, past := [(32, 0)] } := by
    unfold space_title
    rw [clamp_indent_ge h]
    rfl
  have h2 : space_fields indent = space_title indent := by
    unfold space_fields
    rw [clamp_indent_ge h]
    rfl
  have h3 : (space_title indent).cstring_inside = none := by
    rw [h1]
    decide
  refine ⟨h1, h2, h3, by rw [h2]; exact h3, ?_⟩
  simp only [pcie_prnt_cfgspace_strict, h3]

/-- C13 (code defect, the one of C31): for every non-null buffer and every
indent below 32 no store goes behind the end of `space`, the first string
written is the title line behind exactly `indent` blanks, and no line starts
with more than 32 blanks. From indent 32 on this is not what the code
provides: the zero byte that should end the 32 blanks is stored at
`space[32]`, behind the array, the array holds no zero byte, and a run that
reads the array only writes no title line at all. -/
theorem title_line_indent :
    (∀ (buf : List Nat) (indent : Nat), indent < 32 →
      (space_title indent).past = [] ∧ (space_fields indent).past = [] ∧
        pcie_prnt_cfgspace_strict (some buf) indent = pcie_prnt_cfgspace (some buf) indent ∧
        (∃ rest, (pcie_prnt_cfgspace (some buf) indent).out =
          (blanks (min indent 32) ++ "PCIe Config Space HDR:\n") :: rest) ∧
        min indent 32 = indent ∧
        leadingBlanks (blanks (min indent 32) ++ "PCIe Config Space HDR:\n") = min indent 32 ∧
        ∀ line ∈ (pcie_prnt_cfgspace (some buf) indent).out, leadingBlanks line ≤ 32) ∧
      (∀ (buf : List Nat) (indent : Nat), 32 ≤ indent →
        (space_title indent).past = [(32, 0)] ∧ 0 ∉ (space_title indent).cells ∧
          (space_title indent).cstring_inside = none ∧
          pcie_prnt_cfgspace_strict (some buf) indent =
            { out := [], fault := some Fault.space }) ∧
      (pcie_prnt_cfgspace_strict (some sample_cfgspace) 4).out.head? =
        some "    PCIe Config Space HDR:\n" ∧
      (pcie_prnt_cfgspace_strict (some sample_cfgspace) 32).out = [] := by
  refine ⟨?_, ?_, by decide, by decide⟩
  · intro buf indent h
    obtain ⟨h1, h2, h3⟩ := prnt_strict_below buf indent h
    refine ⟨h1, h2, h3, ?_, Nat.min_eq_left (Nat.le_of_lt h), leadingBlanks_title _, ?_⟩
    · rw [prnt_some]
      obtain ⟨more, hmore⟩ := run_prints_acc buf (blanks (field_indent indent)) hdr_prints
        [blanks (min indent 32) ++ "PCIe Config Space HDR:\n"]
      exact ⟨more, by rw [hmore]; rfl⟩
    · intro line hline
      rw [prnt_some] at hline
      rcases run_prints_mem buf _ hdr_prints _ line hline with h | ⟨f, hf, v, _, rfl⟩
      · rw [List.mem_singleton.1 h, leadingBlanks_title]
        exact Nat.min_le_right _ _
      · rw [leadingBlanks_field _ _ _ (hdr_prints_label f hf)]
        exact field_indent_le indent
  · intro buf indent h
    obtain ⟨h1, _, h3, _, h5⟩ := prnt_strict_from_max buf indent h
    refine ⟨by rw [h1], ?_, h3, h5⟩
    rw [h1]
    decide

/-! ## The structured printer: lines and values -/

/-- C17: for every indent, `pcie_prnt_cfgspace` called with a null buffer
writes nothing and returns without a fault. -/
theorem prnt_null (indent : Nat) :
    pcie_prnt_cfgspace none indent = { out := [], fault := none } ∧
      (pcie_prnt_cfgspace none indent).text = "" := by
  constructor <;> rfl

/-! ## The header layout -/

theorem leValue_take (buf : List Nat) (k : Nat) :
    ∀ (n off : Nat), off + n ≤ k → leValue (buf.take k) off n = leValue buf off n := by
  intro n
  induction n with
  | zero => intro off _; rfl
  | succ n ih =>
    intro off h
    have h1 : (buf.take k).getD off 0 = buf.getD off 0 := by
      simp only [List.getD_eq_getElem?_getD, List.getElem?_take]
      rw [if_pos (by omega)]
    simp only [leValue, h1, ih (off + 1) (by omega)]

theorem hdr_of_take (buf : List Nat) : hdr_of (buf.take 64) = hdr_of buf := by
  have key : ∀ off n, off + n ≤ 64 → leValue (buf.take 64) off n = leValue buf off n :=
    fun off n h => leValue_take buf 64 n off h
  simp only [hdr_of,
    key _ _ (by decide : OFF_vendor + SZ_U16 ≤ 64),
    key _ _ (by decide : OFF_device + SZ_U16 ≤ 64),
    key _ _ (by decide : OFF_command + SZ_U16 ≤ 64),
    key _ _ (by decide : OFF_status + SZ_U16 ≤ 64),
    key _ _ (by decide : OFF_rev + SZ_U8 ≤ 64),
    key _ _ (by decide : OFF_pi + SZ_U8 ≤ 64),
    key _ _ (by decide : OFF_subclass + SZ_U8 ≤ 64),
    key _ _ (by decide : OFF_baseclass + SZ_U8 ≤ 64),
    key _ _ (by decide : OFF_cls + SZ_U8 ≤ 64),
    key _ _ (by decide : OFF_timer + SZ_U8 ≤ 64),
    key _ _ (by decide : OFF_type + SZ_U8 ≤ 64),
    key _ _ (by decide : OFF_bist + SZ_U8 ≤ 64),
    key _ _ (by decide : OFF_bar0 + SZ_U32 ≤ 64),
    key _ _ (by decide : OFF_bar1 + SZ_U32 ≤ 64),
    key _ _ (by decide : OFF_bar2 + SZ_U32 ≤ 64),
    key _ _ (by decide : OFF_bar3 + SZ_U32 ≤ 64),
    key _ _ (by decide : OFF_bar4 + SZ_U32 ≤ 64),
    key _ _ (by decide : OFF_bar5 + SZ_U32 ≤ 64),
    key _ _ (by decide : OFF_cis + SZ_U32 ≤ 64),
    key _ _ (by decide : OFF_subvendor + SZ_U16 ≤ 64),
    key _ _ (by decide : OFF_subsystem + SZ_U16 ≤ 64),
    key _ _ (by decide : OFF_rom + SZ_U32 ≤ 64),
    key _ _ (by decide : OFF_cap + SZ_U8 ≤ 64),
    key _ _ (by decide : OFF_rsvd + SZ_RSVD ≤ 64),
    key _ _ (by decide : OFF_rsvd2 + SZ_U32 ≤ 64),
    key _ _ (by decide : OFF_intline + SZ_U8 ≤ 64),
    key _ _ (by decide : OFF_intpin + SZ_U8 ≤ 64),
    key _ _ (by decide : OFF_mingnt + SZ_U8 ≤ 64),
    key _ _ (by decide : OFF_maxlat + SZ_U8 ≤ 64)]

/-- A list of 64 elements, written out. -/
theorem list_of_length_64 (buf : List Nat) (hlen : buf.length = 64) :
    ∃ b0 b1 b2 b3 b4 b5 b6 b7 b8 b9 b10 b11 b12 b13 b14 b15 b16 b17 b18 b19 b20 b21 b22 b23 b24
      b25 b26 b27 b28 b29 b30 b31 b32 b33 b34 b35 b36 b37 b38 b39 b40 b41 b42 b43 b44 b45 b46
      b47 b48 b49 b50 b51 b52 b53 b54 b55 b56 b57 b58 b59 b60 b61 b62 b63 : Nat,
      buf = [b0, b1, b2, b3, b4, b5, b6, b7, b8, b9, b10, b11, b12, b13, b14, b15, b16, b17,
      b18, b19, b20, b21, b22, b23, b24, b25, b26, b27, b28, b29, b30, b31, b32, b33, b34, b35,
      b36, b37, b38, b39, b40, b41, b42, b43, b44, b45, b46, b47, b48, b49, b50, b51, b52, b53,
      b54, b55, b56, b57, b58, b59, b60, b61, b62, b63] := by
  have h1 : buf = (List.range buf.length).map (fun i => buf.getD i 0) := by
    apply List.ext_getElem
    · simp
    · intro i hi _
      simp [List.getD, List.getElem?_eq_getElem hi]
  rw [hlen] at h1
  have h2 : List.range 64 =
      [0, 1, 2, 3, 4, 5, 6, 7, 8, 9, 10, 11, 12, 13, 14, 15, 16, 17, 18, 19, 20, 21, 22, 23,
      24, 25, 26, 27, 28, 29, 30, 31, 32, 33, 34, 35, 36, 37, 38, 39, 40, 41, 42, 43, 44, 45,
      46, 47, 48, 49, 50, 51, 52, 53, 54, 55, 56, 57, 58, 59, 60, 61, 62, 63] := by
    decide
  rw [h2] at h1
  simp only [List.map_cons, List.map_nil] at h1
  exact ⟨_, _, _, _, _, _, _, _, _, _, _, _, _, _, _, _, _, _, _, _, _, _, _, _, _, _, _, _, _,
      _, _, _, _, _, _, _, _, _, _, _, _, _, _, _, _, _, _, _, _, _, _, _, _, _, _, _, _, _, _,
      _, _, _, _, _, h1⟩

/-- Reading back the object representation of a header gives its members. -/
theorem hdr_of_bytes (h : pcie_cfg_hdr) (hr : h.InRange) :
    hdr_of (pcie_cfg_hdr_bytes h) = h := by
  obtain ⟨vendor, device, command, status, rev, pi, subclass, baseclass, cls, timer, type,
      bist, bar0, bar1, bar2, bar3, bar4, bar5, cis, subvendor, subsystem, rom, cap, rsvd,
      rsvd2, intline, intpin, mingnt, maxlat⟩ := h
  obtain ⟨h0, h1, h2, h3, h4, h5, h6, h7, h8, h9, h10, h11, h12, h13, h14, h15, h16, h17, h18,
      h19, h20, h21, h22, h23, h24, h25, h26, h27, h28⟩ := hr
  simp only [hdr_of, pcie_cfg_hdr_bytes, bytesLE, leValue, SZ_U8, SZ_U16, SZ_U32, SZ_RSVD,
    OFF_vendor, OFF_device, OFF_command, OFF_status, OFF_rev, OFF_pi, OFF_subclass,
      OFF_baseclass, OFF_cls, OFF_timer, OFF_type, OFF_bist, OFF_bar0, OFF_bar1, OFF_bar2,
      OFF_bar3, OFF_bar4, OFF_bar5, OFF_cis, OFF_subvendor, OFF_subsystem, OFF_rom, OFF_cap,
      OFF_rsvd, OFF_rsvd2, OFF_intline, OFF_intpin, OFF_mingnt, OFF_maxlat,
    List.cons_append, List.nil_append, List.getD_cons_succ, List.getD_cons_zero,
    pcie_cfg_hdr.mk.injEq] at *
  omega

theorem hdr_bytes_length (h : pcie_cfg_hdr) : (pcie_cfg_hdr_bytes h).length = 64 := by
  simp [pcie_cfg_hdr_bytes, bytesLE, SZ_U8, SZ_U16, SZ_U32, SZ_RSVD]

theorem bytesLE_lt : ∀ (n v : Nat), ∀ b ∈ bytesLE n v, b < 256 := by
  intro n
  induction n with
  | zero => intro v b hb; simp [bytesLE] at hb
  | succ n ih =>
    intro v b hb
    rcases List.mem_cons.1 hb with h | h
    · omega
    · exact ih _ b h

theorem hdr_bytes_lt (h : pcie_cfg_hdr) : ∀ b ∈ pcie_cfg_hdr_bytes h, b < 256 := by
  unfold pcie_cfg_hdr_bytes
  simp only [List.forall_mem_append]
  repeat' apply And.intro
  all_goals exact bytesLE_lt _ _

/-- The bytes of a value loaded from a buffer of bytes are the bytes loaded. -/
theorem bytesLE_leValue (buf : List Nat) (hbytes : ∀ b ∈ buf, b < 256) :
    ∀ (n off : Nat), off + n ≤ buf.length →
      bytesLE n (leValue buf off n) = (buf.drop off).take n := by
  intro n
  induction n with
  | zero => intro off _; simp [bytesLE]
  | succ n ih =>
    intro off h
    have hlt : off < buf.length := by omega
    have hget : buf.getD off 0 = buf[off] := by
      simp [List.getD, List.getElem?_eq_getElem hlt]
    have hb : buf[off] < 256 := hbytes _ (List.getElem_mem ..)
    have e1 : (buf[off] + 256 * leValue buf (off + 1) n) % 256 = buf[off] := by omega
    have e2 : (buf[off] + 256 * leValue buf (off + 1) n) / 256 = leValue buf (off + 1) n := by
      omega
    simp only [leValue, bytesLE, hget, e1, e2, ih (off + 1) (by omega)]
    rw [List.drop_eq_getElem_cons hlt, List.take_succ_cons]

/-- The object representation of the members read from 64 bytes is those 64
bytes. -/
theorem hdr_bytes_of (buf : List Nat) (hlen : buf.length = 64) (hbytes : ∀ b ∈ buf, b < 256) :
    pcie_cfg_hdr_bytes (hdr_of buf) = buf := by
  have key : ∀ off n, off + n ≤ 64 → bytesLE n (leValue buf off n) = (buf.drop off).take n :=
    fun off n h => bytesLE_leValue buf hbytes n off (by omega)
  simp only [pcie_cfg_hdr_bytes, hdr_of,
    key _ _ (by decide : OFF_vendor + SZ_U16 ≤ 64),
    key _ _ (by decide : OFF_device + SZ_U16 ≤ 64),
    key _ _ (by decide : OFF_command + SZ_U16 ≤ 64),
    key _ _ (by decide : OFF_status + SZ_U16 ≤ 64),
    key _ _ (by decide : OFF_rev + SZ_U8 ≤ 64),
    key _ _ (by decide : OFF_pi + SZ_U8 ≤ 64),
    key _ _ (by decide : OFF_subclass + SZ_U8 ≤ 64),
    key _ _ (by decide : OFF_baseclass + SZ_U8 ≤ 64),
    key _ _ (by decide : OFF_cls + SZ_U8 ≤ 64),
    key _ _ (by decide : OFF_timer + SZ_U8 ≤ 64),
    key _ _ (by decide : OFF_type + SZ_U8 ≤ 64),
    key _ _ (by decide : OFF_bist + SZ_U8 ≤ 64),
    key _ _ (by decide : OFF_bar0 + SZ_U32 ≤ 64),
    key _ _ (by decide : OFF_bar1 + SZ_U32 ≤ 64),
    key _ _ (by decide : OFF_bar2 + SZ_U32 ≤ 64),
    key _ _ (by decide : OFF_bar3 + SZ_U32 ≤ 64),
    key _ _ (by decide : OFF_bar4 + SZ_U32 ≤ 64),
    key _ _ (by decide : OFF_bar5 + SZ_U32 ≤ 64),
    key _ _ (by decide : OFF_cis + SZ_U32 ≤ 64),
    key _ _ (by decide : OFF_subvendor + SZ_U16 ≤ 64),
    key _ _ (by decide : OFF_subsystem + SZ_U16 ≤ 64),
    key _ _ (by decide : OFF_rom + SZ_U32 ≤ 64),
    key _ _ (by decide : OFF_cap + SZ_U8 ≤ 64),
    key _ _ (by decide : OFF_rsvd + SZ_RSVD ≤ 64),
    key _ _ (by decide : OFF_rsvd2 + SZ_U32 ≤ 64),
    key _ _ (by decide : OFF_intline + SZ_U8 ≤ 64),
    key _ _ (by decide : OFF_intpin + SZ_U8 ≤ 64),
    key _ _ (by decide : OFF_mingnt + SZ_U8 ≤ 64),
    key _ _ (by decide : OFF_maxlat + SZ_U8 ≤ 64)]
  clear key hbytes
  obtain ⟨b0, b1, b2, b3, b4, b5, b6, b7, b8, b9, b10, b11, b12, b13, b14, b15, b16, b17, b18,
      b19, b20, b21, b22, b23, b24, b25, b26, b27, b28, b29, b30, b31, b32, b33, b34, b35, b36,
      b37, b38, b39, b40, b41, b42, b43, b44, b45, b46, b47, b48, b49, b50, b51, b52, b53, b54,
      b55, b56, b57, b58, b59, b60, b61, b62, b63, rfl⟩ :=
    list_of_length_64 buf hlen
  simp only [SZ_U8, SZ_U16, SZ_U32, SZ_RSVD, OFF_vendor, OFF_device, OFF_command, OFF_status,
    OFF_rev, OFF_pi, OFF_subclass, OFF_baseclass, OFF_cls, OFF_timer, OFF_type, OFF_bist,
    OFF_bar0, OFF_bar1, OFF_bar2, OFF_bar3, OFF_bar4, OFF_bar5, OFF_cis, OFF_subvendor,
    OFF_subsystem, OFF_rom, OFF_cap, OFF_rsvd, OFF_rsvd2, OFF_intline, OFF_intpin, OFF_mingnt,
    OFF_maxlat, Nat.reduceAdd, List.drop_succ_cons, List.drop_zero, List.take_succ_cons,
    List.take_zero, List.cons_append, List.nil_append]

/-! ## The header layout: decoding and round trip -/

/-- C18: the structure is 64 bytes, and for every buffer of at least 64 bytes
the structure view reads only the first 64 bytes and yields each member
little-endian at its fixed offset: vendor = `b[0] + 256*b[1]`, device at 2,
command at 4, status at 6, revision `b[8]`, programming interface `b[9]`,
subclass `b[10]`, base class `b[11]`, cache line size `b[12]`, latency timer
`b[13]`, header type `b[14]`, BIST `b[15]`, BAR0..BAR5 at `0x10`..`0x24`, CIS
at `0x28`, subsystem vendor at `0x2C`, subsystem device at `0x2E`, ROM at
`0x30`, capabilities pointer `b[0x34]`, interrupt line, interrupt pin, minimum
grant and maximum latency `b[0x3C]`..`b[0x3F]`. A buffer that starts with the
bytes `86 80` and has subclass byte `02` decodes vendor `0x8086`, and `pcmc`
of the decoded subclass is "CXL Memory". -/
theorem hdr_decode (buf : List Nat) (hlen : 64 ≤ buf.length) :
    SIZEOF_pcie_cfg_hdr = 64 ∧
      pcie_cfg_hdr_view (buf.take 64) = pcie_cfg_hdr_view buf ∧
      ∃ h, pcie_cfg_hdr_view buf = Except.ok h ∧
        (h.vendor = buf.getD 0x00 0 + 256 * buf.getD 0x01 0 ∧
        h.device = buf.getD 0x02 0 + 256 * buf.getD 0x03 0 ∧
        h.command = buf.getD 0x04 0 + 256 * buf.getD 0x05 0 ∧
        h.status = buf.getD 0x06 0 + 256 * buf.getD 0x07 0 ∧
        h.rev = buf.getD 0x08 0 ∧
        h.pi = buf.getD 0x09 0 ∧
        h.subclass = buf.getD 0x0A 0 ∧
        h.baseclass = buf.getD 0x0B 0 ∧
        h.cls = buf.getD 0x0C 0 ∧
        h.timer = buf.getD 0x0D 0 ∧
        h.type = buf.getD 0x0E 0 ∧
        h.bist = buf.getD 0x0F 0 ∧
        h.bar0 = buf.getD 0x10 0 + 256 * buf.getD 0x11 0 + 65536 * buf.getD 0x12 0 +
          16777216 * buf.getD 0x13 0 ∧
        h.bar1 = buf.getD 0x14 0 + 256 * buf.getD 0x15 0 + 65536 * buf.getD 0x16 0 +
          16777216 * buf.getD 0x17 0 ∧
        h.bar2 = buf.getD 0x18 0 + 256 * buf.getD 0x19 0 + 65536 * buf.getD 0x1A 0 +
          16777216 * buf.getD 0x1B 0 ∧
        h.bar3 = buf.getD 0x1C 0 + 256 * buf.getD 0x1D 0 + 65536 * buf.getD 0x1E 0 +
          16777216 * buf.getD 0x1F 0 ∧
        h.bar4 = buf.getD 0x20 0 + 256 * buf.getD 0x21 0 + 65536 * buf.getD 0x22 0 +
          16777216 * buf.getD 0x23 0 ∧
        h.bar5 = buf.getD 0x24 0 + 256 * buf.getD 0x25 0 + 65536 * buf.getD 0x26 0 +
          16777216 * buf.getD 0x27 0 ∧
        h.cis = buf.getD 0x28 0 + 256 * buf.getD 0x29 0 + 65536 * buf.getD 0x2A 0 +
          16777216 * buf.getD 0x2B 0 ∧
        h.subvendor = buf.getD 0x2C 0 + 256 * buf.getD 0x2D 0 ∧
        h.subsystem = buf.getD 0x2E 0 + 256 * buf.getD 0x2F 0 ∧
        h.rom = buf.getD 0x30 0 + 256 * buf.getD 0x31 0 + 65536 * buf.getD 0x32 0 +
          16777216 * buf.getD 0x33 0 ∧
        h.cap = buf.getD 0x34 0 ∧
        h.intline = buf.getD 0x3C 0 ∧
        h.intpin = buf.getD 0x3D 0 ∧
        h.mingnt = buf.getD 0x3E 0 ∧
        h.maxlat = buf.getD 0x3F 0) ∧
        (buf.getD 0 0 = 0x86 → buf.getD 1 0 = 0x80 → buf.getD 10 0 = 0x02 →
          h.vendor = 0x8086 ∧ pcmc h.subclass = Lookup.str "CXL Memory") := by
  have htake : 64 ≤ (buf.take 64).length := by
    rw [List.length_take]
    omega
  have hsub : (hdr_of buf).subclass = buf.getD 10 0 := by
    simp only [hdr_of, leValue, OFF_vendor, OFF_device, OFF_command, OFF_status, OFF_rev,
      OFF_pi, OFF_subclass, SZ_U8, SZ_U16, Nat.reduceAdd]
    omega
  have hven : (hdr_of buf).vendor = buf.getD 0 0 + 256 * buf.getD 1 0 := by
    simp only [hdr_of, leValue, OFF_vendor, SZ_U16, Nat.reduceAdd]
    omega
  refine ⟨by decide, ?_, hdr_of buf, view_ok buf hlen, ?_, ?_⟩
  · rw [view_ok _ htake, view_ok buf hlen, hdr_of_take]
  · simp only [hdr_of, leValue, SZ_U8, SZ_U16, SZ_U32, SZ_RSVD,
      OFF_vendor, OFF_device, OFF_command, OFF_status, OFF_rev, OFF_pi, OFF_subclass,
      OFF_baseclass, OFF_cls, OFF_timer, OFF_type, OFF_bist, OFF_bar0, OFF_bar1, OFF_bar2,
      OFF_bar3, OFF_bar4, OFF_bar5, OFF_cis, OFF_subvendor, OFF_subsystem, OFF_rom, OFF_cap,
      OFF_rsvd, OFF_rsvd2, OFF_intline, OFF_intpin, OFF_mingnt, OFF_maxlat, Nat.reduceAdd]
    omega
  · intro h0 h1 h10
    rw [hsub, hven, h0, h1, h10]
    exact ⟨by decide, by decide⟩

/-- C18 on the sample header: vendor `0x8086`, device `0x1234`, status
`0x0010` (bit 4, the capabilities list bit, is set), base class `0x05`,
subclass `0x02`, which `pcmc` resolves to "CXL Memory". -/
theorem hdr_decode_witness :
    64 ≤ sample_cfgspace.length ∧ SIZEOF_pcie_cfg_hdr = 64 ∧
      pcie_cfg_hdr_view sample_cfgspace = Except.ok (hdr_of sample_cfgspace) ∧
      (hdr_of sample_cfgspace).vendor = 0x8086 ∧
      (hdr_of sample_cfgspace).device = 0x1234 ∧
      (hdr_of sample_cfgspace).status / 16 % 2 = 1 ∧
      (hdr_of sample_cfgspace).baseclass = 0x05 ∧
      (hdr_of sample_cfgspace).subclass = 0x02 ∧
      pcmc (hdr_of sample_cfgspace).subclass = Lookup.str "CXL Memory" :=
  ⟨by decide, (hdr_decode sample_cfgspace (by decide)).1,
   view_ok sample_cfgspace (by decide),
   by decide, by decide, by decide, by decide, by decide, by decide⟩

theorem hdr_of_inRange (buf : List Nat) (hbytes : ∀ b ∈ buf, b < 256) :
    (hdr_of buf).InRange := by
  have key : ∀ off n bits, 256 ^ n = 2 ^ bits → leValue buf off n < 2 ^ bits := by
    intro off n bits h
    rw [← h]
    exact leValue_lt buf hbytes n off
  dsimp only [pcie_cfg_hdr.InRange, hdr_of]
  repeat' apply And.intro
  all_goals exact key _ _ _ (by decide)

/-- C19: the header round trip. Every header whose members fit their widths
(the reserved members `rsvd` and `rsvd2` included) has an object
representation of 64 bytes from which the structure view reads back every
member; and every buffer of 64 bytes is the object representation of the
header the structure view reads from it, reserved bytes `0x35`..`0x3B`
included. -/
theorem hdr_round_trip :
    (∀ h : pcie_cfg_hdr, h.InRange →
        (pcie_cfg_hdr_bytes h).length = 64 ∧ (∀ b ∈ pcie_cfg_hdr_bytes h, b < 256) ∧
          pcie_cfg_hdr_view (pcie_cfg_hdr_bytes h) = Except.ok h) ∧
      (∀ buf : List Nat, buf.length = 64 → (∀ b ∈ buf, b < 256) →
        ∃ h, pcie_cfg_hdr_view buf = Except.ok h ∧ h.InRange ∧ pcie_cfg_hdr_bytes h = buf) := by
  constructor
  · intro h hr
    refine ⟨hdr_bytes_length h, hdr_bytes_lt h, ?_⟩
    rw [view_ok _ (le_of_eq (hdr_bytes_length h).symm), hdr_of_bytes h hr]
  · intro buf hlen hbytes
    exact ⟨hdr_of buf, view_ok buf (le_of_eq hlen.symm), hdr_of_inRange buf hbytes,
      hdr_bytes_of buf hlen hbytes⟩

/-- C19 on the sample header, in both directions. -/
theorem hdr_round_trip_witness :
    (sample_cfgspace.length = 64 ∧ (∀ b ∈ sample_cfgspace, b < 256)) ∧
      (∃ h, pcie_cfg_hdr_view sample_cfgspace = Except.ok h ∧ h.InRange ∧
        pcie_cfg_hdr_bytes h = sample_cfgspace) ∧
      pcie_cfg_hdr_view (pcie_cfg_hdr_bytes (hdr_of sample_cfgspace)) =
        Except.ok (hdr_of sample_cfgspace) :=
  ⟨⟨by decide, by decide⟩,
   hdr_round_trip.2 sample_cfgspace (by decide) (by decide),
   (hdr_round_trip.1 (hdr_of sample_cfgspace)
     (hdr_of_inRange sample_cfgspace (by decide))).2.2⟩

/-! ## Buffers shorter than the header -/

/-- A run over calls of which one cannot read its member ends in the
out-of-bounds read of the first such call. -/
theorem run_prints_fault (buf : List Nat) (sp : String) (fs : List FieldPrint) :
    ∀ acc : List String, (∃ f ∈ fs, ∃ e, f.member buf = Except.error e) →
      ∃ f ∈ fs, ∃ off, f.member buf = Except.error off ∧
        (run_prints buf sp acc fs).fault = some (Fault.cfgspace off) := by
  induction fs with
  | nil => intro acc h; obtain ⟨f, hf, _⟩ := h; simp at hf
  | cons f rest ih =>
    intro acc h
    cases hm : f.member buf with
    | error off =>
      exact ⟨f, List.mem_cons_self _ _, off, hm, by simp only [run_prints, printf_error hm]⟩
    | ok v =>
      have h1 : ∃ g ∈ rest, ∃ e, g.member buf = Except.error e := by
        obtain ⟨g, hg, e, he⟩ := h
        rcases List.mem_cons.1 hg with rfl | hg
        · rw [hm] at he
          cases he
        · exact ⟨g, hg, e, he⟩
      obtain ⟨g, hg, off, h2, h3⟩ := ih (acc ++ [sp ++ f.label ++ f.conv.render v ++ "\n"]) h1
      exact ⟨g, List.mem_cons_of_mem _ hg, off, h2, by simp only [run_prints, printf_ok hm, h3]⟩

/-- Repacking the member values of a word gives the bits of the word that
the structure holds. -/
theorem bitfields_word_view :
    ∀ (layout : List (String × Nat)) (x : Nat),
      bitfields_word layout (bitfields_view layout x) = x % 2 ^ bitfields_width layout := by
  intro layout
  induction layout with
  | nil => intro x; simp [bitfields_word, bitfields_view, bitfields_width, Nat.mod_one]
  | cons f rest ih =>
    intro x
    obtain ⟨name, w⟩ := f
    simp only [bitfields_word, bitfields_view, bitfields_width, ih, Nat.pow_add]
    exact (Nat.mod_mul).symm

/-- Splitting the word packed from fitting member values gives the values. -/
theorem bitfields_view_word :
    ∀ (layout vs : List (String × Nat)), Fits layout vs →
      bitfields_view layout (bitfields_word layout vs) = vs := by
  intro layout
  induction layout with
  | nil =>
    intro vs h
    cases vs with
    | nil => rfl
    | cons v vs => simp [Fits] at h
  | cons f rest ih =>
    intro vs h
    obtain ⟨name, w⟩ := f
    cases vs with
    | nil => simp [Fits] at h
    | cons v vs =>
      obtain ⟨n, v⟩ := v
      obtain ⟨h1, h2, h3⟩ := h
      subst h1
      have hpos : 0 < 2 ^ w := Nat.pow_pos (by decide)
      have e1 : (v + 2 ^ w * bitfields_word rest vs) % 2 ^ w = v := by
        rw [Nat.add_mul_mod_self_left]
        exact Nat.mod_eq_of_lt h2
      have e2 : (v + 2 ^ w * bitfields_word rest vs) / 2 ^ w = bitfields_word rest vs := by
        rw [Nat.add_mul_div_left _ _ hpos, Nat.div_eq_of_lt h2, Nat.zero_add]
      simp only [bitfields_word, bitfields_view, e1, e2, ih vs h3]

/-- The member values of a word fit the structure. -/
theorem bitfields_view_fits :
    ∀ (layout : List (String × Nat)) (x : Nat), Fits layout (bitfields_view layout x) := by
  intro layout
  induction layout with
  | nil => intro x; simp [bitfields_view, Fits]
  | cons f rest ih =>
    intro x
    obtain ⟨name, w⟩ := f
    exact ⟨rfl, Nat.mod_lt _ (Nat.pow_pos (by decide)), ih _⟩

/-- A structure that lies inside the buffer is the split of its
little-endian storage. -/
theorem struct_view_ok (layout : List (String × Nat)) (buf : List Nat) (off : Nat)
    (h : off + struct_size layout ≤ buf.length) :
    struct_view layout buf off =
      Except.ok (bitfields_view layout (leValue buf off (struct_size layout))) := by
  unfold struct_view
  rw [loadLE_ok buf _ off h]

theorem getD_lt (buf : List Nat) (hbytes : ∀ b ∈ buf, b < 256) (i : Nat) :
    buf.getD i 0 < 256 := by
  have h := leValue_lt buf hbytes 1 i
  simpa [leValue] using h

theorem bitfields_word_lt :
    ∀ (layout vs : List (String × Nat)), Fits layout vs →
      bitfields_word layout vs < 2 ^ bitfields_width layout := by
  intro layout
  induction layout with
  | nil => intro vs _; simp [bitfields_word, bitfields_width]
  | cons f rest ih =>
    intro vs h
    obtain ⟨name, w⟩ := f
    cases vs with
    | nil => simp [Fits] at h
    | cons v vs =>
      obtain ⟨n, v⟩ := v
      obtain ⟨_, h2, h3⟩ := h
      have h4 := ih vs h3
      simp only [bitfields_word, bitfields_width, Nat.pow_add]
      calc v + 2 ^ w * bitfields_word rest vs
          < 2 ^ w + 2 ^ w * bitfields_word rest vs := by omega
        _ = 2 ^ w * (bitfields_word rest vs + 1) := by ring
        _ ≤ 2 ^ w * 2 ^ bitfields_width rest := Nat.mul_le_mul_left _ h4

/-- C21: in each of the eight bit-field register structures the declared
member widths sum to the register width - 16, 16, 8, 16, 32, 8, 16 and 16
bits - and, the members being allocated one after the other from bit 0, every
bit of the register lies in the range of exactly one member: the members are
contiguous, do not overlap and cover every bit. -/
theorem bitfield_widths_sum :
    [pcie_cap_pm_pmc, pcie_cap_pm_pmcsr, pcie_cap_pm_bse, pcie_cap_msi_ctrl, pcie_ecap,
        pcie_cfg_type, pcie_cfg_cmd, pcie_cfg_status].map bitfields_width =
      [16, 16, 8, 16, 32, 8, 16, 16] ∧
    ∀ layout ∈ [pcie_cap_pm_pmc, pcie_cap_pm_pmcsr, pcie_cap_pm_bse, pcie_cap_msi_ctrl,
        pcie_ecap, pcie_cfg_type, pcie_cfg_cmd, pcie_cfg_status],
      ∀ b, b < bitfields_width layout → covering layout b = 1 := by
  decide

/-- C22: the bit-field round trip. For each of the registers PMC, PMCSR, MSI
message control, command and status (16 bits) and BSE and header type (8
bits): every word of the register's width splits into member values that fit
the members (first member in the lowest-order bits) and repack to the same
word, reserved members included; and every tuple of fitting member values
packs to a word of the register's width that splits back into the tuple. -/
theorem bitfield_round_trip (layout : List (String × Nat))
    (hl : layout ∈ [pcie_cap_pm_pmc, pcie_cap_pm_pmcsr, pcie_cap_msi_ctrl, pcie_cfg_cmd,
      pcie_cfg_status, pcie_cap_pm_bse, pcie_cfg_type]) :
    (bitfields_width layout = 16 ∨ bitfields_width layout = 8) ∧
      (∀ w, w < 2 ^ bitfields_width layout →
        Fits layout (bitfields_view layout w) ∧
          bitfields_word layout (bitfields_view layout w) = w) ∧
      (∀ vs, Fits layout vs →
        bitfields_word layout vs < 2 ^ bitfields_width layout ∧
          bitfields_view layout (bitfields_word layout vs) = vs) := by
  refine ⟨?_, ?_, ?_⟩
  · have h : ∀ l ∈ [pcie_cap_pm_pmc, pcie_cap_pm_pmcsr, pcie_cap_msi_ctrl, pcie_cfg_cmd,
        pcie_cfg_status, pcie_cap_pm_bse, pcie_cfg_type],
        bitfields_width l = 16 ∨ bitfields_width l = 8 := by decide
    exact h layout hl
  · intro w hw
    refine ⟨bitfields_view_fits layout w, ?_⟩
    rw [bitfields_word_view, Nat.mod_eq_of_lt hw]
  · intro vs hvs
    exact ⟨bitfields_word_lt layout vs hvs, bitfields_view_word layout vs hvs⟩

/-- C22 on the command register: the word `0x0506` and the tuple it splits
into. -/
theorem bitfield_round_trip_witness :
    (0x0506 < 2 ^ bitfields_width pcie_cfg_cmd ∧ bitfields_width pcie_cfg_cmd = 16) ∧
      bitfields_word pcie_cfg_cmd (bitfields_view pcie_cfg_cmd 0x0506) = 0x0506 ∧
      bitfields_view pcie_cfg_cmd (bitfields_word pcie_cfg_cmd
          (bitfields_view pcie_cfg_cmd 0x0506)) = bitfields_view pcie_cfg_cmd 0x0506 :=
  ⟨by decide,
   ((bitfield_round_trip pcie_cfg_cmd (by decide)).2.1 0x0506 (by decide)).2,
   ((bitfield_round_trip pcie_cfg_cmd (by decide)).2.2 (bitfields_view pcie_cfg_cmd 0x0506)
     (bitfields_view_fits pcie_cfg_cmd 0x0506)).2⟩

/-- C23: the status word `0x0010` decodes to `cap` = 1 and every other member
0; for every status word, `cap` is bit 4 of the word. -/
theorem status_cap_bit :
    bitfields_view pcie_cfg_status 0x0010 =
        [("rsvd1", 0), ("intx", 0), ("cap", 1), ("mhz", 0), ("rsvd2", 0), ("fastb2b", 0),
         ("parerr", 0), ("devsel", 0), ("sig_tabort", 0), ("recv_tabort", 0),
         ("recv_mabort", 0), ("sig_sys_err", 0), ("parity_err", 0)] ∧
      ("cap", 4, 1) ∈ bitfields_ranges pcie_cfg_status 0 ∧
      ∀ w : Nat, (bitfields_view pcie_cfg_status w).lookup "cap" = some (w / 2 ^ 4 % 2) := by
  refine ⟨by decide, by decide, ?_⟩
  intro w
  have h1 : ("cap" == "rsvd1") = false := by decide
  have h2 : ("cap" == "intx") = false := by decide
  have h3 : ("cap" == "cap") = true := by decide
  simp only [pcie_cfg_status, bitfields_view, List.lookup, h1, h2, h3]
  congr 1
  simp only [Nat.reducePow]
  omega

/-- C24: the command word `0x0506` decodes to `mem` = 1, `busmaster` = 1,
`serr` = 1, `disintx` = 1 and every other member 0. -/
theorem command_typical_value :
    bitfields_view pcie_cfg_cmd 0x0506 =
      [("io", 0), ("mem", 1), ("busmaster", 1), ("speccycle", 0), ("memwine", 0),
       ("vgasnoop", 0), ("parerr", 0), ("stepping", 0), ("serr", 1), ("fastb2b", 0),
       ("disintx", 1), ("rsvd2", 0), ("rsvd3", 0)] := by
  decide

/-- C25: for every buffer of bytes and every offset with 4 bytes `b0`..`b3`
inside the buffer, the extended capability header there decodes to
`id = b0 + 256*b1`, `ver = b2 mod 16` and `next = b2 div 16 + 16*b3`; so
`ver < 16` and `next < 4096`, and two headers of 4 bytes that decode to the
same three values are the same 4 bytes. -/
theorem ecap_decode :
    struct_size pcie_ecap = 4 ∧
      (∀ (buf : List Nat) (off : Nat), off + 4 ≤ buf.length → (∀ b ∈ buf, b < 256) →
        struct_view pcie_ecap buf off =
            Except.ok [("id", buf.getD off 0 + 256 * buf.getD (off + 1) 0),
              ("ver", buf.getD (off + 2) 0 % 16),
              ("next", buf.getD (off + 2) 0 / 16 + 16 * buf.getD (off + 3) 0)] ∧
          buf.getD (off + 2) 0 % 16 < 16 ∧
          buf.getD (off + 2) 0 / 16 + 16 * buf.getD (off + 3) 0 < 4096) ∧
      (∀ b0 b1 b2 b3 c0 c1 c2 c3 : Nat,
        (∀ b ∈ [b0, b1, b2, b3, c0, c1, c2, c3], b < 256) →
        struct_view pcie_ecap [b0, b1, b2, b3] 0 = struct_view pcie_ecap [c0, c1, c2, c3] 0 →
        [b0, b1, b2, b3] = [c0, c1, c2, c3]) := by
  have hsize : struct_size pcie_ecap = 4 := by decide
  have key : ∀ (buf : List Nat) (off : Nat), off + 4 ≤ buf.length → (∀ b ∈ buf, b < 256) →
      struct_view pcie_ecap buf off =
        Except.ok [("id", buf.getD off 0 + 256 * buf.getD (off + 1) 0),
          ("ver", buf.getD (off + 2) 0 % 16),
          ("next", buf.getD (off + 2) 0 / 16 + 16 * buf.getD (off + 3) 0)] := by
    intro buf off hlen hbytes
    have g0 := getD_lt buf hbytes off
    have g1 := getD_lt buf hbytes (off + 1)
    have g2 := getD_lt buf hbytes (off + 2)
    have g3 := getD_lt buf hbytes (off + 3)
    rw [struct_view_ok pcie_ecap buf off (by rw [hsize]; exact hlen), hsize]
    simp only [pcie_ecap, bitfields_view, leValue, Nat.reducePow, Nat.add_assoc,
      Nat.reduceAdd]
    refine congrArg Except.ok ?_
    refine congrArg₂ List.cons (congrArg (Prod.mk "id") ?_)
      (congrArg₂ List.cons (congrArg (Prod.mk "ver") ?_)
        (congrArg₂ List.cons (congrArg (Prod.mk "next") ?_) rfl))
    · omega
    · omega
    · omega
  refine ⟨hsize, ?_, ?_⟩
  · intro buf off hlen hbytes
    have g2 := getD_lt buf hbytes (off + 2)
    have g3 := getD_lt buf hbytes (off + 3)
    exact ⟨key buf off hlen hbytes, by omega, by omega⟩
  · intro b0 b1 b2 b3 c0 c1 c2 c3 hb h
    simp only [List.mem_cons, List.not_mem_nil, or_false, forall_eq_or_imp, forall_eq] at hb
    obtain ⟨h0, h1, h2, h3, k0, k1, k2, k3⟩ := hb
    rw [key [b0, b1, b2, b3] 0 (by simp) (by
          intro b hb
          simp only [List.mem_cons, List.not_mem_nil, or_false] at hb
          omega),
      key [c0, c1, c2, c3] 0 (by simp) (by
          intro b hb
          simp only [List.mem_cons, List.not_mem_nil, or_false] at hb
          omega)] at h
    simp only [List.getD_cons_zero, List.getD_cons_succ, Nat.zero_add, Except.ok.injEq,
      List.cons.injEq, Prod.mk.injEq, true_and, and_true] at h
    obtain ⟨e1, e2, e3⟩ := h
    simp only [List.cons.injEq, and_true]
    omega

/-- C25 on the header `03 00 41 15`: id `0x0003`, version 1, next `0x154`. -/
theorem ecap_decode_witness :
    (0 + 4 ≤ ([0x03, 0x00, 0x41, 0x15] : List Nat).length ∧
        ∀ b ∈ ([0x03, 0x00, 0x41, 0x15] : List Nat), b < 256) ∧
      struct_view pcie_ecap [0x03, 0x00, 0x41, 0x15] 0 =
        Except.ok [("id", 0x0003), ("ver", 1), ("next", 0x154)] :=
  ⟨⟨by decide, by decide⟩,
   (ecap_decode.2.1 [0x03, 0x00, 0x41, 0x15] 0 (by decide) (by decide)).1⟩

/-- C26: the capability header is 2 bytes; for every buffer of bytes and
every offset `o` with 2 bytes inside the buffer it decodes to `id = b[o]` and
`next = b[o+1]`, and `next` marks the end of the list exactly when that byte
is 0. -/
theorem cap_decode (buf : List Nat) (off : Nat) (hlen : off + 2 ≤ buf.length)
    (hbytes : ∀ b ∈ buf, b < 256) :
    struct_size pcie_cap = 2 ∧
      struct_view pcie_cap buf off =
        Except.ok [("id", buf.getD off 0), ("next", buf.getD (off + 1) 0)] ∧
      (end_of_list (buf.getD (off + 1) 0) = true ↔ buf.getD (off + 1) 0 = 0) := by
  have hsize : struct_size pcie_cap = 2 := by decide
  have g0 := getD_lt buf hbytes off
  have g1 := getD_lt buf hbytes (off + 1)
  refine ⟨hsize, ?_, by simp [end_of_list]⟩
  rw [struct_view_ok pcie_cap buf off (by rw [hsize]; exact hlen), hsize]
  simp only [pcie_cap, bitfields_view, leValue, Nat.reducePow]
  refine congrArg Except.ok ?_
  refine congrArg₂ List.cons (congrArg (Prod.mk "id") ?_)
    (congrArg₂ List.cons (congrArg (Prod.mk "next") ?_) rfl)
  · omega
  · omega

/-- C26 at the capabilities pointer `0x40` of a buffer that holds the header
`01 00` there: a power management capability, the last of its list. -/
theorem cap_decode_witness :
    (0x40 + 2 ≤ (sample_cfgspace ++ [0x01, 0x00]).length ∧
        ∀ b ∈ sample_cfgspace ++ [0x01, 0x00], b < 256) ∧
      struct_view pcie_cap (sample_cfgspace ++ [0x01, 0x00]) 0x40 =
        Except.ok [("id", (sample_cfgspace ++ [0x01, 0x00]).getD 0x40 0),
          ("next", (sample_cfgspace ++ [0x01, 0x00]).getD (0x40 + 1) 0)] ∧
      (sample_cfgspace ++ [0x01, 0x00]).getD 0x40 0 = PCAP_PM ∧
      end_of_list ((sample_cfgspace ++ [0x01, 0x00]).getD (0x40 + 1) 0) = true :=
  ⟨⟨by decide, by decide⟩,
   (cap_decode (sample_cfgspace ++ [0x01, 0x00]) 0x40 (by decide) (by decide)).2.1,
   by decide, by decide⟩

/-- C27 (code defect): `PCBC_MSC`, the Mass Storage Controller class, is
`0x02`, while the table of Mass Storage Controllers documents class code
`0x01`; so `PCBC_MSC` and `PCBC_NET` share the code `0x02` (and `PCBC_NULL`
has the code `0x01` documented for mass storage). It is the only base class
whose constant differs from the class code of its subclass table. -/
theorem pcbc_msc_code :
    PCBC_MSC = 0x02 ∧ CLASS_CODE_PCMS = 0x01 ∧ PCBC_MSC ≠ CLASS_CODE_PCMS ∧
      PCBC_MSC = PCBC_NET ∧ PCBC_NULL = CLASS_CODE_PCMS ∧ ¬ enum_PCBC.Nodup ∧
      base_class_doc.filter (fun p => p.1 != p.2) = [(PCBC_MSC, CLASS_CODE_PCMS)] := by
  decide

/-- C28: the power management capability body is 6 bytes, with PMC at offset
0, PMCSR at offset 2, the bridge support extension at offset 4 and the data
byte at offset 5; for every buffer and every offset `o` with 6 bytes inside
the buffer, PMC is decoded from the word `b[o] + 256*b[o+1]`, PMCSR from the
word `b[o+2] + 256*b[o+3]`, the bridge support extension from the byte
`b[o+4]`, and the data byte is `b[o+5]`. -/
theorem cap_pm_decode (buf : List Nat) (off : Nat) (hlen : off + 6 ≤ buf.length) :
    SIZEOF_pcie_cap_pm = 6 ∧
      (OFF_pm_pmc, OFF_pm_pmcsr, OFF_pm_bse, OFF_pm_data) = (0, 2, 4, 5) ∧
      pcie_cap_pm_view buf off = Except.ok
        { pmc := bitfields_view pcie_cap_pm_pmc (buf.getD off 0 + 256 * buf.getD (off + 1) 0)
          pmcsr := bitfields_view pcie_cap_pm_pmcsr
            (buf.getD (off + 2) 0 + 256 * buf.getD (off + 3) 0)
          bse := bitfields_view pcie_cap_pm_bse (buf.getD (off + 4) 0)
          data := buf.getD (off + 5) 0 } := by
  have s1 : struct_size pcie_cap_pm_pmc = 2 := by decide
  have s2 : struct_size pcie_cap_pm_pmcsr = 2 := by decide
  have s3 : struct_size pcie_cap_pm_bse = 1 := by decide
  have o1 : OFF_pm_pmc = 0 := by decide
  have o2 : OFF_pm_pmcsr = 2 := by decide
  have o3 : OFF_pm_bse = 4 := by decide
  have o4 : OFF_pm_data = 5 := by decide
  refine ⟨by decide, by decide, ?_⟩
  unfold pcie_cap_pm_view
  rw [o1, o2, o3, o4,
    struct_view_ok pcie_cap_pm_pmc buf (off + 0) (by rw [s1]; omega),
    struct_view_ok pcie_cap_pm_pmcsr buf (off + 2) (by rw [s2]; omega),
    struct_view_ok pcie_cap_pm_bse buf (off + 4) (by rw [s3]; omega),
    loadLE_ok buf SZ_U8 (off + 5) (by simp only [SZ_U8]; omega), s1, s2, s3]
  simp only [SZ_U8, leValue, Nat.add_zero, Nat.add_assoc, Nat.reduceAdd, Nat.mul_zero]
  rfl

/-- C28 on the body `03 c8 08 00 00 7f`: PMC version 3 and PME support
`0b11001`, no soft reset set in PMCSR, data byte `0x7f`. -/
theorem cap_pm_decode_witness :
    0 + 6 ≤ ([0x03, 0xc8, 0x08, 0x00, 0x00, 0x7f] : List Nat).length ∧
      pcie_cap_pm_view [0x03, 0xc8, 0x08, 0x00, 0x00, 0x7f] 0 = Except.ok
        { pmc := [("ver", 3), ("clock", 0), ("rsvd1", 0), ("dsi", 0), ("aux", 0), ("d1", 0),
            ("d2", 0), ("pme_sup", 25)]
          pmcsr := [("state", 0), ("rsvd2", 0), ("no_soft_rst", 1), ("rsvd3", 0),
            ("pme_en", 0), ("data_sel", 0), ("data_scale", 0), ("pme_status", 0)]
          bse := [("rsvd4", 0), ("b2_b3", 0), ("bpcc_en", 0)]
          data := 0x7f } :=
  ⟨by decide,
   (cap_pm_decode [0x03, 0xc8, 0x08, 0x00, 0x00, 0x7f] 0 (by decide)).2.2⟩

/-- C29 as stated fails: the header has 27 members that are not reserved, not
26. -/
theorem named_members_not_26 :
    named_hdr_members.length = 27 ∧ ¬ (named_hdr_members.length = 26) := by
  decide

/-- C29, amended: `struct pcie_cfg_hdr` has 29 members, of which exactly 27
are named (all but `rsvd` and `rsvd2`); every member lies within the byte
offsets 0..63, the named ones at 0..52 and 60..63; and the printer has one
field call, and the report one named member, for each of the 27. -/
theorem named_members_count :
    pcie_cfg_hdr_members.length = 29 ∧ named_hdr_members.length = 27 ∧
      (∀ m ∈ pcie_cfg_hdr_members, m.2.1 + m.2.2 ≤ 64) ∧
      (∀ m ∈ named_hdr_members, m.2.1 + m.2.2 ≤ 53 ∨ 60 ≤ m.2.1) ∧
      named_hdr_members.map (fun m => m.1) =
        ["vendor", "device", "command", "status", "rev", "pi", "subclass", "baseclass",
         "cls", "timer", "type", "bist", "bar0", "bar1", "bar2", "bar3", "bar4", "bar5",
         "cis", "subvendor", "subsystem", "rom", "cap", "intline", "intpin", "mingnt",
         "maxlat"] ∧
      hdr_prints.length = 27 ∧ named_members.length = 27 := by
  decide

/-- C30 as stated fails: the bridge support extension is a register of 8
bits and the device serial number a structure of 64 bits; neither is a word
of 16 or 32 bits. -/
theorem sub_register_widths_counterexample :
    bitfields_width pcie_cap_pm_bse = 8 ∧ bitfields_width pcie_ecap_dsn = 64 ∧
      ¬ (∀ layout ∈ [pcie_cap_pm_pmc, pcie_cap_pm_pmcsr, pcie_cap_pm_bse,
          pcie_cap_msi_ctrl, pcie_cfg_cmd, pcie_cfg_status, pcie_ecap_dsn],
        bitfields_width layout = 16 ∨ bitfields_width layout = 32) := by
  decide

/-- C30, amended: of the seven sub-registers, PM capabilities, PM
control/status, MSI message control, command and status are words of 16 bits;
the bridge support extension is a register of 8 bits; the device serial number
is 64 bits, two words of 32 bits. -/
theorem sub_register_widths :
    [pcie_cap_pm_pmc, pcie_cap_pm_pmcsr, pcie_cap_pm_bse, pcie_cap_msi_ctrl, pcie_cfg_cmd,
        pcie_cfg_status, pcie_ecap_dsn].map bitfields_width = [16, 16, 8, 16, 16, 16, 64] ∧
      pcie_ecap_dsn = [("lo", 32), ("hi", 32)] := by
  decide

/-! ## The indent buffer: where the terminator is stored -/

/-- C31 (code defect): the terminator is not always stored inside the
buffer. For every indent of 32 or more the clamped indent is 32, and
`space[32] = 0` stores behind the 32 elements `space[0]`..`space[31]`: the
array still holds 32 blanks and no zero, so the indent string that is printed
is not terminated inside the buffer. For every indent below 32 both stores
(at `indent`, and at `indent + 2` when `indent + 2 < 32`) are inside the array
and the array holds a zero. -/
theorem indent_terminator_store :
    clamp_indent 32 = 32 ∧ space_init.cells.length = 32 ∧
      ¬ (clamp_indent 32 < space_init.cells.length) ∧
      space_title 32 = { cells := List.replicate 32 0x20, past := [(32, 0)] } ∧
      space_fields 32 = space_title 32 ∧
      0 ∉ (space_title 32).cells ∧
      (∀ indent, 32 ≤ indent → space_title indent = space_title 32) ∧
      (∀ indent, indent < 32 →
        clamp_indent indent < 32 ∧ (space_title indent).past = [] ∧
          (space_fields indent).past = [] ∧ 0 ∈ (space_title indent).cells ∧
          0 ∈ (space_fields indent).cells) := by
  refine ⟨by decide, by decide, by decide, by decide, by decide, by decide, ?_, by decide⟩
  intro indent h
  have h1 : clamp_indent indent = 32 := by
    rw [clamp_indent_eq]
    omega
  unfold space_title
  rw [h1]
  rfl

/-! ## The report depends only on the named members -/

theorem loadLE_congr (buf1 buf2 : List Nat) :
    ∀ (n off : Nat), (∀ i, off ≤ i → i < off + n → buf1[i]? = buf2[i]?) →
      loadLE buf1 off n = loadLE buf2 off n := by
  intro n
  induction n with
  | zero => intro off _; rfl
  | succ n ih =>
    intro off h
    have h1 : loadByte buf1 off = loadByte buf2 off := by
      unfold loadByte
      rw [h off (le_refl _) (by omega)]
    have h2 := ih (off + 1) (fun i hi1 hi2 => h i (by omega) (by omega))
    simp only [loadLE, h1, h2]

/-- Every field call reads a member that lies in the bytes `0x00`..`0x34` or
in the bytes `0x3C`..`0x3F`. -/
theorem hdr_prints_named :
    ∀ f ∈ hdr_prints, ∃ off n, (off + n ≤ 0x35 ∨ (0x3C ≤ off ∧ off + n ≤ 0x40)) ∧
      f.member = fun buf => loadLE buf off n := by
  intro f hf
  simp only [hdr_prints, List.mem_cons, List.mem_singleton, List.not_mem_nil, or_false] at hf
  rcases hf with rfl | rfl | rfl | rfl | rfl | rfl | rfl | rfl | rfl | rfl | rfl | rfl | rfl |
    rfl | rfl | rfl | rfl | rfl | rfl | rfl | rfl | rfl | rfl | rfl | rfl | rfl | rfl
  · exact ⟨OFF_vendor, SZ_U16, by decide, rfl⟩
  · exact ⟨OFF_device, SZ_U16, by decide, rfl⟩
  · exact ⟨OFF_command, SZ_U16, by decide, rfl⟩
  · exact ⟨OFF_status, SZ_U16, by decide, rfl⟩
  · exact ⟨OFF_rev, SZ_U8, by decide, rfl⟩
  · exact ⟨OFF_pi, SZ_U8, by decide, rfl⟩
  · exact ⟨OFF_subclass, SZ_U8, by decide, rfl⟩
  · exact ⟨OFF_baseclass, SZ_U8, by decide, rfl⟩
  · exact ⟨OFF_cls, SZ_U8, by decide, rfl⟩
  · exact ⟨OFF_timer, SZ_U8, by decide, rfl⟩
  · exact ⟨OFF_type, SZ_U8, by decide, rfl⟩
  · exact ⟨OFF_bist, SZ_U8, by decide, rfl⟩
  · exact ⟨OFF_bar0, SZ_U32, by decide, rfl⟩
  · exact ⟨OFF_bar1, SZ_U32, by decide, rfl⟩
  · exact ⟨OFF_bar2, SZ_U32, by decide, rfl⟩
  · exact ⟨OFF_bar3, SZ_U32, by decide, rfl⟩
  · exact ⟨OFF_bar4, SZ_U32, by decide, rfl⟩
  · exact ⟨OFF_bar5, SZ_U32, by decide, rfl⟩
  · exact ⟨OFF_cis, SZ_U32, by decide, rfl⟩
  · exact ⟨OFF_subvendor, SZ_U16, by decide, rfl⟩
  · exact ⟨OFF_subsystem, SZ_U16, by decide, rfl⟩
  · exact ⟨OFF_rom, SZ_U32, by decide, rfl⟩
  · exact ⟨OFF_cap, SZ_U8, by decide, rfl⟩
  · exact ⟨OFF_intline, SZ_U8, by decide, rfl⟩
  · exact ⟨OFF_intpin, SZ_U8, by decide, rfl⟩
  · exact ⟨OFF_mingnt, SZ_U8, by decide, rfl⟩
  · exact ⟨OFF_maxlat, SZ_U8, by decide, rfl⟩

/-- Runs over calls whose members read the same from two buffers are equal. -/
theorem run_prints_congr (buf1 buf2 : List Nat) (sp : String) (fs : List FieldPrint) :
    ∀ acc : List String, (∀ f ∈ fs, f.member buf1 = f.member buf2) →
      run_prints buf1 sp acc fs = run_prints buf2 sp acc fs := by
  induction fs with
  | nil => intro acc _; rfl
  | cons f rest ih =>
    intro acc h
    have h1 := h f (List.mem_cons_self _ _)
    have h2 := fun a => ih a (fun g hg => h g (List.mem_cons_of_mem _ hg))
    simp only [run_prints, FieldPrint.printf, h1]
    cases f.member buf2 with
    | error e => rfl
    | ok v => exact h2 _

/-- C32: for every indent, two non-null buffers that agree on the bytes
`0x00`..`0x34` and `0x3C`..`0x3F` - they may differ in the reserved bytes
`0x35`..`0x3B` and in the bytes from offset 64 on - have the same run of
`pcie_prnt_cfgspace`: the same strings are written, in the same order. -/
theorem report_named_only (buf1 buf2 : List Nat) (indent : Nat)
    (h : AgreeOnNamed buf1 buf2) :
    pcie_prnt_cfgspace (some buf1) indent = pcie_prnt_cfgspace (some buf2) indent := by
  rw [prnt_some, prnt_some]
  apply run_prints_congr
  intro f hf
  obtain ⟨off, n, hr, hm⟩ := hdr_prints_named f hf
  rw [hm]
  apply loadLE_congr
  intro i hi1 hi2
  apply h
  unfold named_offsets
  rw [List.mem_append, List.mem_range]
  rcases hr with hr | hr
  · exact Or.inl (by omega)
  · right
    have h3 : i = 0x3C ∨ i = 0x3D ∨ i = 0x3E ∨ i = 0x3F := by omega
    simpa using h3

/-- C32 on the sample header and a copy with other reserved bytes and three
more bytes behind the header. -/
theorem report_named_only_witness :
    AgreeOnNamed sample_cfgspace sample_cfgspace_alt ∧
      sample_cfgspace ≠ sample_cfgspace_alt ∧
      sample_cfgspace_alt.length = 67 ∧
      pcie_prnt_cfgspace (some sample_cfgspace) 4 =
        pcie_prnt_cfgspace (some sample_cfgspace_alt) 4 ∧
      (pcie_prnt_cfgspace (some sample_cfgspace_alt) 4).out.length = 28 :=
  ⟨by unfold AgreeOnNamed; decide, by decide, by decide,
   report_named_only sample_cfgspace sample_cfgspace_alt 4 (by unfold AgreeOnNamed; decide),
   by decide⟩

/-! ## Injectivity of the sparse resolvers on their known codes -/

/-- A resolver that matches exactly the codes of a list, and whose
descriptions for these codes are pairwise different, is injective on its known
codes. -/
theorem injective_of_exact {f : Nat → Lookup} {codes : List Nat} (he : ExactMatch f codes)
    (hn : (codes.map f).Nodup) : InjectiveOnKnown f := by
  intro u v s t hu hv huv hst
  have h1 : u ∈ codes := (he u).1.1 ⟨s, hu⟩
  have h2 : v ∈ codes := (he v).1.1 ⟨t, hv⟩
  have h3 : f u = f v := by rw [hu, hv, hst]
  exact huv (List.inj_on_of_nodup_map hn h1 h2 h3)

/-- C33: each of the 20 sparse resolvers is injective on its known codes: two
different codes for which the resolver returns a description get two
different strings. -/
theorem sparse_resolvers_injective :
    InjectiveOnKnown pccx ∧ InjectiveOnKnown pcmc ∧ InjectiveOnKnown pcms ∧
      InjectiveOnKnown pcnc ∧ InjectiveOnKnown pcdc ∧ InjectiveOnKnown pcuc ∧
      InjectiveOnKnown pcbd ∧ InjectiveOnKnown pcsc ∧ InjectiveOnKnown pcsp ∧
      InjectiveOnKnown pcid ∧ InjectiveOnKnown pcds ∧ InjectiveOnKnown pcpr ∧
      InjectiveOnKnown pcsb ∧ InjectiveOnKnown pcwc ∧ InjectiveOnKnown pcio ∧
      InjectiveOnKnown pcsa ∧ InjectiveOnKnown pcen ∧ InjectiveOnKnown pcda ∧
      InjectiveOnKnown pcpa ∧ InjectiveOnKnown pcne :=
  ⟨injective_of_exact pccx_exact (by decide),
   injective_of_exact pcmc_exact (by decide),
   injective_of_exact pcms_exact (by decide),
   injective_of_exact pcnc_exact (by decide),
   injective_of_exact pcdc_exact (by decide),
   injective_of_exact pcuc_exact (by decide),
   injective_of_exact pcbd_exact (by decide),
   injective_of_exact pcsc_exact (by decide),
   injective_of_exact pcsp_exact (by decide),
   injective_of_exact pcid_exact (by decide),
   injective_of_exact pcds_exact (by decide),
   injective_of_exact pcpr_exact (by decide),
   injective_of_exact pcsb_exact (by decide),
   injective_of_exact pcwc_exact (by decide),
   injective_of_exact pcio_exact (by decide),
   injective_of_exact pcsa_exact (by decide),
   injective_of_exact pcen_exact (by decide),
   injective_of_exact pcda_exact (by decide),
   injective_of_exact pcpa_exact (by decide),
   injective_of_exact pcne_exact (by decide)⟩

/-! ## The columns of the field lines -/

/-- The strings a run adds to those written before are lines of field calls
whose member could be read. -/
theorem run_prints_more (buf : List Nat) (sp : String) (fs : List FieldPrint) :
    ∀ acc : List String, ∃ more, (run_prints buf sp acc fs).out = acc ++ more ∧
      ∀ line ∈ more, ∃ f ∈ fs, ∃ v, f.member buf = Except.ok v ∧
        line = sp ++ f.label ++ f.conv.render v ++ "\n" := by
  induction fs with
  | nil => intro acc; exact ⟨[], by simp [run_prints], by simp⟩
  | cons f rest ih =>
    intro acc
    cases hm : f.member buf with
    | error off => exact ⟨[], by simp [run_prints, printf_error hm], by simp⟩
    | ok v =>
      obtain ⟨more, hmore, hl⟩ := ih (acc ++ [sp ++ f.label ++ f.conv.render v ++ "\n"])
      refine ⟨(sp ++ f.label ++ f.conv.render v ++ "\n") :: more, ?_, ?_⟩
      · simp only [run_prints, printf_ok hm, hmore, List.append_assoc, List.singleton_append]
      · intro line hline
        rcases List.mem_cons.1 hline with rfl | h
        · exact ⟨f, List.mem_cons_self _ _, v, hm, rfl⟩
        · obtain ⟨g, hg, w, hw, hgl⟩ := hl line h
          exact ⟨g, List.mem_cons_of_mem _ hg, w, hw, hgl⟩

/-- The label of every field call is the name of a named member, of at most
22 characters, padded with blanks to exactly 22 characters. -/
theorem hdr_prints_padded :
    ∀ f ∈ hdr_prints, ∃ m ∈ named_members, f.label = padTo 22 m.name ∧
      m.name.length ≤ 22 ∧ (padTo 22 m.name).length = 22 := by
  decide

/-- The text of a conversion starts with a character that is not a blank. -/
theorem render_startsNonBlank (c : Conv) (v : Nat) : startsNonBlank (c.render v) = true := by
  cases c with
  | x w => rfl
  | u =>
    obtain ⟨ds, h1, h2, _, h4⟩ := conv_u_spec v
    simp only [Conv.render, h1, startsNonBlank]
    rcases h4 with h | ⟨c, cs, h, _⟩
    · rw [h]
      rfl
    · rw [h]
      have h5 : isDecDigit c = true := h2 c (by rw [h]; exact List.mem_cons_self _ _)
      have h6 : c ≠ ' ' := by
        intro h7
        rw [h7] at h5
        exact absurd h5 (by decide)
      simpa using h6

theorem length_blanks (k : Nat) : (blanks k).length = k := by
  simp [blanks, String.length]

/-- The strings written after the title line: each is the indent string of
the field lines, the name of a named member padded with blanks to exactly 22
characters, a value text that starts with a character that is not a blank,
and a newline, so the value starts at column `field_indent indent + 22`. -/
theorem field_lines_shape (buf : List Nat) (indent : Nat) :
    (∃ title, (pcie_prnt_cfgspace (some buf) indent).out =
        title :: (pcie_prnt_cfgspace (some buf) indent).out.tail) ∧
      (∀ line ∈ (pcie_prnt_cfgspace (some buf) indent).out.tail,
        ∃ m ∈ named_members, ∃ value : String,
          line = blanks (field_indent indent) ++ padTo 22 m.name ++ value ++ "\n" ∧
          m.name.length ≤ 22 ∧ (padTo 22 m.name).length = 22 ∧
          startsNonBlank value = true ∧
          line.data.take (field_indent indent + 22) =
            (blanks (field_indent indent)).data ++ (padTo 22 m.name).data ∧
          line.data.drop (field_indent indent + 22) = value.data ++ ['\n']) := by
  obtain ⟨more, hmore, hl⟩ := run_prints_more buf (blanks (field_indent indent)) hdr_prints
    [blanks (min indent 32) ++ "PCIe Config Space HDR:\n"]
  rw [← prnt_some] at hmore
  have htail : (pcie_prnt_cfgspace (some buf) indent).out.tail = more := by
    rw [hmore]
    rfl
  refine ⟨⟨_, by rw [htail, hmore]; rfl⟩, ?_⟩
  intro line hline
  rw [htail] at hline
  obtain ⟨f, hf, v, _, hline⟩ := hl line hline
  obtain ⟨m, hm, hlab, hname, hlen⟩ := hdr_prints_padded f hf
  rw [hlab] at hline
  have hk : (blanks (field_indent indent)).data.length = field_indent indent :=
    length_blanks _
  have h22 : (padTo 22 m.name).data.length = 22 := hlen
  have hpre : ((blanks (field_indent indent)).data ++ (padTo 22 m.name).data).length =
      field_indent indent + 22 := by
    rw [List.length_append, hk, h22]
  have hdata : line.data = ((blanks (field_indent indent)).data ++ (padTo 22 m.name).data) ++
      ((f.conv.render v).data ++ ['\n']) := by
    rw [hline]
    simp only [String.data_append, List.append_assoc]
  refine ⟨m, hm, f.conv.render v, hline, hname, hlen, render_startsNonBlank _ _, ?_, ?_⟩
  · rw [hdata, ← hpre, List.take_left]
  · rw [hdata, ← hpre, List.drop_left]

/-- C34 (code defect, the one of C31): for every non-null buffer and every
indent below 32 no store goes behind the end of `space`, the output is the
title line followed by the field lines, and every field line is the indent
prefix (`field_indent indent` blanks), the name of a named member padded with
blanks to exactly 22 characters, the value text, which starts with a character
that is not a blank, and a newline: the value starts at column
`field_indent indent + 22` of every field line, and for a buffer of at least
64 bytes there are 27 field lines, one per named member. From indent 32 on
this is not what the code provides: the indent prefix of the field lines is
the array of 32 blanks with its zero byte stored at `space[32]`, behind the
array, and a run that reads the array only writes no field line. -/
theorem field_lines_columns :
    (∀ (buf : List Nat) (indent : Nat), indent < 32 →
      (space_title indent).past = [] ∧ (space_fields indent).past = [] ∧
        pcie_prnt_cfgspace_strict (some buf) indent = pcie_prnt_cfgspace (some buf) indent ∧
        (∃ title, (pcie_prnt_cfgspace (some buf) indent).out =
          title :: (pcie_prnt_cfgspace (some buf) indent).out.tail) ∧
        (blanks (field_indent indent)).length = field_indent indent ∧
        (∀ line ∈ (pcie_prnt_cfgspace (some buf) indent).out.tail,
          ∃ m ∈ named_members, ∃ value : String,
            line = blanks (field_indent indent) ++ padTo 22 m.name ++ value ++ "\n" ∧
            m.name.length ≤ 22 ∧ (padTo 22 m.name).length = 22 ∧
            startsNonBlank value = true ∧
            line.data.take (field_indent indent + 22) =
              (blanks (field_indent indent)).data ++ (padTo 22 m.name).data ∧
            line.data.drop (field_indent indent + 22) = value.data ++ ['\n']) ∧
        (64 ≤ buf.length →
          (pcie_prnt_cfgspace (some buf) indent).out.tail =
            named_members.map (report_line (blanks (field_indent indent)) (hdr_of buf)) ∧
          (pcie_prnt_cfgspace (some buf) indent).out.tail.length = 27)) ∧
      (∀ (buf : List Nat) (indent : Nat), 32 ≤ indent →
        (space_fields indent).past = [(32, 0)] ∧ 0 ∉ (space_fields indent).cells ∧
          (space_fields indent).cstring_inside = none ∧
          (pcie_prnt_cfgspace_strict (some buf) indent).out.tail = []) ∧
      (field_indent 4 + 22 = 28 ∧
        (pcie_prnt_cfgspace_strict (some sample_cfgspace) 4).out.tail.length = 27 ∧
        (pcie_prnt_cfgspace_strict (some sample_cfgspace) 4).out.tail.head? =
          some "      Vendor ID             0x8086\n" ∧
        (pcie_prnt_cfgspace_strict (some sample_cfgspace) 4).out.tail.getLast? =
          some "      Maximum Latency       255\n" ∧
        "      Vendor ID             0x8086\n".data.drop 28 = "0x8086\n".data ∧
        "      Maximum Latency       255\n".data.drop 28 = "255\n".data ∧
        (pcie_prnt_cfgspace_strict (some sample_cfgspace) 32).out.tail = []) := by
  refine ⟨?_, ?_, by decide⟩
  · intro buf indent h
    obtain ⟨h1, h2, h3⟩ := prnt_strict_below buf indent h
    obtain ⟨h4, h5⟩ := field_lines_shape buf indent
    refine ⟨h1, h2, h3, h4, length_blanks _, h5, ?_⟩
    intro hlen
    rw [prnt_report buf indent hlen]
    exact ⟨rfl, by simp [named_members]⟩
  · intro buf indent h
    obtain ⟨h1, h2, _, h4, h5⟩ := prnt_strict_from_max buf indent h
    refine ⟨by rw [h2, h1], ?_, h4, by rw [h5]; rfl⟩
    rw [h2, h1]
    decide

end PciUtils
